import Mathlib

/-!
# RIDF-ChickenReader: occupancy engine of `src/main.cpp`

A shallow embedding of the nesting-box firmware: the frame decoder
(`extractTagID`), the read validator (`readRFIDWithValidation`), the identity
lookup (`findChickenByTag`) and the occupancy state machine of `loop`, followed
by theorems about them.

Conventions of the embedding.

* The global variables of the sketch are the fields of `State` (occupancy and
  multi-chicken window) and of `Device` (validator variables, the heartbeat's
  static variable, and the `State`).  Field names are the names of the globals.
* `unsigned long` values are natural numbers below `2 ^ 32`; the subtraction
  `millis() - x` is `usub`, the increment of `singleChickenReadings` is taken
  modulo `2 ^ 32`.  The `int` counters `quickChanges` and `chickenCount` only
  ever count up from zero in steps of one and are natural numbers;
  `consecutiveValidReads` and the chicken number are integers.
* One pass of `loop` samples `millis()` as a single value `now`.
* A call of `publishNestStatus`, `publishChickenVisit`, `publishChickenChange`
  or of `mqtt.publish` is recorded as an `Event` carrying the published fields;
  the connection test at the top of each publish function belongs to the
  transport and is not part of the record.  `updateChickenStats` and
  `publishLeaderboard` (statistics) never touch the occupancy state and are left
  out, as is all `Serial` logging.
-/

namespace ChickenReader

/-! ## Machine arithmetic and constants -/

/-- Number of values of a 32-bit `unsigned long`. -/
def ULONG_RANGE : Nat := 4294967296

/-- Largest value of `millis()`, `2 ^ 32 - 1`. -/
def ULONG_MAX : Nat := 4294967295

/-- Subtraction of `unsigned long` values, wrapping modulo `2 ^ 32`. -/
def usub (a b : Nat) : Nat := (a + 4294967296 - b % 4294967296) % 4294967296

def RFID_BUFFER_SIZE : Nat := 256
def MIN_TAG_LENGTH : Nat := 8
def MAX_TAG_LENGTH : Nat := 20
def MULTI_CHICKEN_TIMEOUT : Nat := 60000
def SINGLE_READINGS_THRESHOLD : Nat := 10

/-! ## Identity table -/

/-- Record of the chicken database (`struct Chicken`). -/
structure Chicken where
  tagID : String
  name : String
  number : Int
deriving DecidableEq, Repr

/-- The table `chickenDatabase[]` of the sketch. -/
def chickenDatabase : List Chicken :=
  [ ⟨"2003E98C8", "Lady Kluck", 1⟩,
    ⟨"2003EF40D", "Ronny", 2⟩,
    ⟨"2003F2676", "Ada", 3⟩,
    ⟨"2003E98F1", "Ms.Foster", 4⟩,
    ⟨"2003E586A", "Kiwi", 5⟩,
    ⟨"2003E956D", "Skrik", 6⟩,
    ⟨"200336896", "Lady Klick", 7⟩,
    ⟨"20032D5A4A", "Gästrid", 8⟩,
    ⟨"2003E66AE", "Chick_1_2025", 9⟩,
    ⟨"2003E58C1", "Chick_2_2025", 10⟩,
    ⟨"2003E609A", "Chick_3_2025", 11⟩,
    ⟨"2003F3CA0", "Chick_4_2025", 12⟩,
    ⟨"2003E6C2F", "Chick_5_2025", 13⟩,
    ⟨"2003E9525", "Chick_6_2025", 14⟩,
    ⟨"2003E81EE", "Tuppen", 15⟩ ]

def totalChickens : Nat := chickenDatabase.length

/-- Linear scan of the table; `none` is the `nullptr` of the source. -/
def findChickenByTag (tagID : String) : Option Chicken :=
  chickenDatabase.find? (fun c => decide (c.tagID = tagID))

def isValidChicken (tagID : String) : Bool :=
  (findChickenByTag tagID).isSome

/-! ## Global variables -/

/-- Smart-tracking and multi-chicken detection variables. -/
structure State where
  currentChicken : String
  chickenEnterTime : Nat
  lastPresenceCheck : Nat
  lastResetTime : Nat
  nestOccupied : Bool
  waitingForPresenceConfirmation : Bool
  quickChanges : Nat
  lastChangeTime : Nat
  multiChickenMode : Bool
  detectedChickens : List String
  chickenCount : Nat
  lastMultiChickenDetection : Nat
  singleChickenReadings : Nat
deriving DecidableEq, Repr

/-- Validator variables, the heartbeat's `static` and the occupancy state. -/
structure Device where
  eng : State
  consecutiveValidReads : Int
  lastValidTag : String
  lastValidReadTime : Nat
  lastHeartbeat : Nat
deriving DecidableEq, Repr

/-- Initial values of the occupancy globals. -/
def State.boot : State :=
  { currentChicken := "", chickenEnterTime := 0, lastPresenceCheck := 0, lastResetTime := 0,
    nestOccupied := false, waitingForPresenceConfirmation := false, quickChanges := 0,
    lastChangeTime := 0, multiChickenMode := false, detectedChickens := List.replicate 15 "",
    chickenCount := 0, lastMultiChickenDetection := 0, singleChickenReadings := 0 }

/-- Initial values of all globals. -/
def Device.boot : Device :=
  { eng := State.boot, consecutiveValidReads := 0, lastValidTag := "", lastValidReadTime := 0,
    lastHeartbeat := 0 }

/-! ## Published records -/

/-- What the sketch hands to the publisher or to the reader. -/
inductive Event where
  /-- Record of `publishNestStatus`: the JSON fields, the occupant topic and the
  payload of the `publishSimpleOccupants` call it makes. -/
  | nestStatus (status occupant : String) (chickens : List String) (chickenCount : Nat)
      (duration : Int) (simpleOccupants : String) (timestamp : Nat)
  /-- Record of `publishChickenVisit`. -/
  | chickenVisit (chickenName : String) (chickenNumber : Int) (duration : Nat) (timestamp : Nat)
  /-- Record of `publishChickenChange`. -/
  | chickenChange (previousChicken newChicken : String) (duration : Nat) (timestamp : Nat)
  /-- Direct publication on the occupant topic. -/
  | occupant (name : String)
  /-- Record of a stand-alone `publishSimpleOccupants`. -/
  | simpleOccupants (occupantsList : String)
  /-- Publication on the system status topic. -/
  | systemStatus (payload : String)
  /-- The reset pulse of `resetReader`. -/
  | readerReset
deriving DecidableEq, Repr

/-- The record is a completed visit (`publishChickenVisit`). -/
def Event.isVisit : Event → Bool
  | Event.chickenVisit _ _ _ _ => true
  | _ => false

/-- The record is the reset pulse of `resetReader`. -/
def Event.isReset : Event → Bool
  | Event.readerReset => true
  | _ => false

/-- The record is a chicken change (`publishChickenChange`). -/
def Event.isChange : Event → Bool
  | Event.chickenChange _ _ _ _ => true
  | _ => false

/-- The name-joining loops of `publishNestStatus` and `publishSimpleOccupants`:
slot `i` contributes its name when the tag is known, preceded by the separator
when `i > 0`. -/
def joinNames (sep : String) : Nat → List String → String → String
  | _, [], acc => acc
  | i, tag :: rest, acc =>
    match findChickenByTag tag with
    | some c => joinNames sep (i + 1) rest ((if i > 0 then acc ++ sep else acc) ++ c.name)
    | none => joinNames sep (i + 1) rest acc

/-- The JSON array of names built by `publishNestStatus`. -/
def chickenNames : List String → List String
  | [] => []
  | tag :: rest =>
    match findChickenByTag tag with
    | some c => c.name :: chickenNames rest
    | none => chickenNames rest

/-- Payload computed by `publishSimpleOccupants`. -/
def publishSimpleOccupants (s : State) : String :=
  if s.nestOccupied = false then "Empty"
  else if s.multiChickenMode = true ∧ s.chickenCount > 0 then
    joinNames "," 0 (s.detectedChickens.take s.chickenCount) ""
  else
    match findChickenByTag s.currentChicken with
    | some c => c.name
    | none => "Empty"

def publishNestStatus (s : State) (now : Nat) (status occupant : String) (duration : Int) :
    Event :=
  if status = "multiple" ∧ s.chickenCount > 0 then
    Event.nestStatus status (joinNames ", " 0 (s.detectedChickens.take s.chickenCount) "")
      (chickenNames (s.detectedChickens.take s.chickenCount)) s.chickenCount duration
      (publishSimpleOccupants s) now
  else
    Event.nestStatus status occupant [] 0 duration (publishSimpleOccupants s) now

def publishChickenVisit (chickenName : String) (chickenNumber : Int) (duration now : Nat) :
    Event :=
  Event.chickenVisit chickenName chickenNumber duration now

def publishChickenChange (previousChicken newChicken : String) (duration now : Nat) : Event :=
  Event.chickenChange previousChicken newChicken duration now

/-! ## Frame decoder -/

def isSpace (c : Char) : Bool :=
  c.toNat = 32 || (9 ≤ c.toNat && c.toNat ≤ 13)

def toUpper (c : Char) : Char :=
  if 97 ≤ c.toNat ∧ c.toNat ≤ 122 then Char.ofNat (c.toNat - 32) else c

/-- The test `(c >= '0' && c <= '9') || (c >= 'A' && c <= 'F')`. -/
def isHexChar (c : Char) : Bool :=
  (48 ≤ c.toNat && c.toNat ≤ 57) || (65 ≤ c.toNat && c.toNat ≤ 70)

/-- Value of a hexadecimal digit, either case. -/
def hexVal (c : Char) : Option Nat :=
  if 48 ≤ c.toNat ∧ c.toNat ≤ 57 then some (c.toNat - 48)
  else if 65 ≤ c.toNat ∧ c.toNat ≤ 70 then some (c.toNat - 55)
  else if 97 ≤ c.toNat ∧ c.toNat ≤ 102 then some (c.toNat - 87)
  else none

/-- The call `strtol(hexPair, NULL, 16)` on a two-character string.  On two hex
digits it is their value; on any other pair `strtol` stops early and yields a
value of magnitude below 16, which the printable test that follows rejects just
as it rejects 0. -/
def strtol16 (a b : Char) : Nat :=
  match hexVal a, hexVal b with
  | some x, some y => 16 * x + y
  | _, _ => 0

/-- The loop over `asciiHex` two characters at a time. -/
def decodePairs : List Char → List Char
  | a :: b :: rest =>
    if 32 ≤ strtol16 a b ∧ strtol16 a b ≤ 126 then Char.ofNat (strtol16 a b) :: decodePairs rest
    else decodePairs rest
  | _ => []

/-- Arduino `String::trim`. -/
def trim (l : List Char) : List Char :=
  ((l.dropWhile isSpace).reverse.dropWhile isSpace).reverse

/-- Arduino `String::substring(left, right)`. -/
def substring (l : List Char) (left right : Nat) : List Char :=
  if left > right then (l.take left).drop right else (l.take right).drop left

/-- The loop `while (finalTag.length() < 8 && finalTag.length() > 0)`; the
second argument bounds the number of iterations. -/
def padToEight : Nat → List Char → List Char
  | 0, l => l
  | n + 1, l => if l.length < 8 ∧ l.length > 0 then padToEight n ('0' :: l) else l

/-- The framed branch of `extractTagID` up to `finalTag`. -/
def framedTag (rawData : List Char) : List Char :=
  let asciiHex := substring rawData 2 (rawData.length - 2)
  let tagID := decodePairs asciiHex
  let cleanTagID := tagID.filter isHexChar
  let finalTag := cleanTagID.dropWhile (fun c => c = '0')
  padToEight 8 finalTag

def extractTagID (rawData0 : String) : String :=
  let rawData := (trim rawData0.data).map toUpper
  let framed := ['0', '2'].isPrefixOf rawData ∧ ['0', '3'].isSuffixOf rawData ∧ rawData.length ≥ 6
  if framed ∧ (framedTag rawData).length ≥ 8 ∧ (framedTag rawData).length ≤ 16 then
    String.mk (framedTag rawData)
  else
    let cleanData := rawData.filter isHexChar
    if cleanData.length < MIN_TAG_LENGTH ∨ cleanData.length > MAX_TAG_LENGTH then ""
    else if cleanData.length ≥ 10 then String.mk (substring cleanData 6 16)
    else String.mk cleanData

/-! ### The text handed to the decoder and what the claims say about it -/

/-- The string `rawData` inside `extractTagID`, after `trim()` and
`toUpperCase()`. -/
def normalize (rawData0 : String) : List Char :=
  (trim rawData0.data).map toUpper

/-- The test `startsWith("02") && endsWith("03") && length() >= 6`. -/
def isFramed (rawData : List Char) : Prop :=
  ['0', '2'].isPrefixOf rawData ∧ ['0', '3'].isSuffixOf rawData ∧ rawData.length ≥ 6

instance (rawData : List Char) : Decidable (isFramed rawData) := by
  unfold isFramed
  infer_instance

/-- The fallback part of `extractTagID`, on the normalized text. -/
def fallbackTag (rawData : List Char) : String :=
  if (rawData.filter isHexChar).length < MIN_TAG_LENGTH ∨
      (rawData.filter isHexChar).length > MAX_TAG_LENGTH then ""
  else if (rawData.filter isHexChar).length ≥ 10 then
    String.mk (substring (rawData.filter isHexChar) 6 16)
  else String.mk (rawData.filter isHexChar)

/-- Upper-case hexadecimal digit. -/
def upperDigit (n : Nat) : Char :=
  if n < 10 then Char.ofNat (48 + n) else Char.ofNat (55 + n)

/-- The upper-case hex rendering of a byte sequence, two digits per byte. -/
def hexUpper : List Nat → List Char
  | [] => []
  | b :: rest => upperDigit ((b % 256) / 16) :: upperDigit ((b % 256) % 16) :: hexUpper rest

/-- The test `c >= 32 && c <= 126` on a byte. -/
def printable (b : Nat) : Bool :=
  32 ≤ b && b ≤ 126

/-- The printable ASCII characters among the bytes between the markers. -/
def payloadText (mid : List Nat) : List Char :=
  (mid.filter printable).map Char.ofNat

/-- What the claims call the tag digits of a text: the characters 0-9 and A-F
are kept and leading zeros removed. -/
def tagDigits (text : List Char) : List Char :=
  (text.filter isHexChar).dropWhile (fun c => c = '0')

/-- Left-padding with `'0'` to a length of at least 8. -/
def padLeft8 (s : List Char) : List Char :=
  List.replicate (8 - s.length) '0' ++ s

/-! ## Read validator -/

/-- Lower-case digit of `String(byte, HEX)`. -/
def hexDigit (n : Nat) : Char :=
  if n < 10 then Char.ofNat (48 + n) else Char.ofNat (87 + n)

/-- The characters appended to `rawData` for one byte. -/
def hexOfByte (b : Nat) : List Char :=
  if b < 16 then ['0', hexDigit b] else [hexDigit (b / 16), hexDigit (b % 16)]

/-- Rendering of the bytes read in one cycle (`uint8_t byte = rfidSerial.read()`). -/
def hexRender : List Nat → List Char
  | [] => []
  | b :: rest => hexOfByte (b % 256) ++ hexRender rest

/-- The hex text built from the bytes read, the argument of `extractTagID`. -/
def rawOf (bytes : List Nat) : String :=
  String.mk (hexRender bytes)

/-- The function `readRFIDWithValidation`: `bytes` are the bytes waiting on the
serial line, of which at most `RFID_BUFFER_SIZE` are read. -/
def readRFIDWithValidation (d : Device) (now : Nat) (bytes : List Nat) : String × Device :=
  if bytes = [] then ("", d)
  else
    let rawData := String.mk (hexRender (bytes.take RFID_BUFFER_SIZE))
    let tagID := extractTagID rawData
    if tagID.length = 0 then ("", d)
    else
      let d1 : Device :=
        if tagID = d.lastValidTag ∧ usub now d.lastValidReadTime < 2000 then
          { d with consecutiveValidReads := d.consecutiveValidReads + 1 }
        else
          { d with consecutiveValidReads := 1, lastValidTag := tagID }
      let d2 : Device := { d1 with lastValidReadTime := now }
      if d2.consecutiveValidReads ≥ 1 then (tagID, d2) else ("", d2)

/-- The tag `extractTagID` decodes from the bytes read in one call of
`readRFIDWithValidation`. -/
def decodedTag (bytes : List Nat) : String :=
  extractTagID (String.mk (hexRender (bytes.take RFID_BUFFER_SIZE)))

/-- The validator part of `resetReader`. -/
def resetReader (d : Device) : Device :=
  { d with consecutiveValidReads := 0, lastValidTag := "" }

/-! ## Multi-chicken detection -/

def addChickenToList (s : State) (tagID : String) : State :=
  if isValidChicken tagID = false then s
  else if tagID ∈ s.detectedChickens.take s.chickenCount then s
  else if s.chickenCount < 15 then
    { s with detectedChickens := s.detectedChickens.set s.chickenCount tagID,
             chickenCount := s.chickenCount + 1 }
  else s

/-- The first statement of `detectMultipleChickens`: the chicken already in the
nest is added to the list. -/
def listCurrent (s : State) : State :=
  if s.currentChicken ≠ "" ∧ isValidChicken s.currentChicken = true then
    addChickenToList s s.currentChicken
  else s

/-- The function `detectMultipleChickens`: its result and the globals after it. -/
def detectMultipleChickens (s : State) (tagID : String) (sessionDuration : Nat) :
    Bool × State :=
  if isValidChicken tagID = false then (false, s)
  else
    let s1 := listCurrent s
    if sessionDuration < 10 then
      let s2 : State := { s1 with quickChanges := s1.quickChanges + 1 }
      if s2.quickChanges ≥ 3 then (true, s2)
      else
        let s3 := addChickenToList s2 tagID
        if s3.chickenCount ≥ 2 then (true, s3) else (false, s3)
    else
      let s2 : State := { s1 with quickChanges := 0 }
      let s3 := addChickenToList s2 tagID
      if s3.chickenCount ≥ 2 then (true, s3) else (false, s3)

def resetMultiChickenDetection (s : State) : State :=
  { s with quickChanges := 0, chickenCount := 0, multiChickenMode := false,
           singleChickenReadings := 0, lastMultiChickenDetection := 0,
           detectedChickens := List.replicate 15 "" }

/-! ## The passes of `loop` -/

/-- Input of one pass of `loop`: the value of `millis()` and the bytes waiting
on the serial line when `rfidSerial.available()` is tested (none: not
available). -/
structure Input where
  now : Nat
  bytes : List Nat
deriving DecidableEq, Repr

/-- The heartbeat block at the top of `loop`. -/
def heartbeat (d : Device) (now : Nat) : Device × List Event :=
  if usub now d.lastHeartbeat > 300000 then
    let status : List Event :=
      if d.eng.nestOccupied = false then [publishNestStatus d.eng now "empty" "" 0]
      else if d.eng.multiChickenMode = true then
        [publishNestStatus d.eng now "multiple" "multiple_chickens" 0]
      else
        match findChickenByTag d.eng.currentChicken with
        | some c => [publishNestStatus d.eng now "occupied" c.name 0]
        | none => []
    ({ d with lastHeartbeat := now }, status ++ [Event.systemStatus "online"])
  else (d, [])

/-- The block "smart presence check every 30 seconds if nest is occupied". -/
def presenceCheck (d : Device) (now : Nat) : Device × List Event :=
  if d.eng.nestOccupied = true ∧ usub now d.eng.lastPresenceCheck > 30000 then
    let d1 := resetReader d
    ({ d1 with eng := { d1.eng with lastResetTime := now,
                                    waitingForPresenceConfirmation := true,
                                    lastPresenceCheck := now } },
     [Event.readerReset])
  else (d, [])

/-- The block "check if chicken has left after reset". -/
def departureCheck (s : State) (now : Nat) : State × List Event :=
  if s.waitingForPresenceConfirmation = true ∧ usub now s.lastResetTime > 8000 then
    let sessionDuration := usub now s.chickenEnterTime / 1000
    let evs : List Event :=
      if s.multiChickenMode = true then [publishNestStatus s now "empty" "" 0]
      else
        match findChickenByTag s.currentChicken with
        | some c =>
          [publishChickenVisit c.name c.number sessionDuration now,
           publishNestStatus s now "empty" "" 0]
        | none => []
    (resetMultiChickenDetection
      { s with nestOccupied := false, currentChicken := "", chickenEnterTime := 0,
               waitingForPresenceConfirmation := false }, evs)
  else (s, [])

/-- The body of `if (rfidSerial.available())` after `readRFIDWithValidation`
has returned `tagID`: the two early returns and the three branches. -/
def handleReading (s : State) (tagID : String) (now : Nat) : State × List Event :=
  if tagID.length = 0 then (s, [])
  else if isValidChicken tagID = false then (s, [])
  else
    let currentTime := now
    if s.nestOccupied = false then
      let s1 : State :=
        { s with nestOccupied := true, currentChicken := tagID, chickenEnterTime := currentTime,
                 lastPresenceCheck := currentTime, waitingForPresenceConfirmation := false }
      match findChickenByTag tagID with
      | some c => (s1, [publishNestStatus s1 now "occupied" c.name 0])
      | none => (s1, [])
    else if s.currentChicken = tagID then
      let s1 : State :=
        { s with lastPresenceCheck := currentTime, waitingForPresenceConfirmation := false }
      if s1.multiChickenMode = true then
        let s2 : State :=
          { s1 with singleChickenReadings := (s1.singleChickenReadings + 1) % 4294967296 }
        if s2.singleChickenReadings ≥ SINGLE_READINGS_THRESHOLD ∧
            usub now s2.lastMultiChickenDetection > MULTI_CHICKEN_TIMEOUT then
          let s3 : State :=
            { resetMultiChickenDetection s2 with multiChickenMode := false,
                                                 singleChickenReadings := 0 }
          match findChickenByTag tagID with
          | some c => (s3, [publishNestStatus s3 now "occupied" c.name 0])
          | none => (s3, [])
        else (s2, [])
      else (s1, [])
    else
      let sessionDuration := usub currentTime s.chickenEnterTime / 1000
      let r := detectMultipleChickens s tagID sessionDuration
      let s1 := r.2
      let branch : State × List Event :=
        if r.1 = true then
          if s1.multiChickenMode = false then
            let s2 : State :=
              { s1 with multiChickenMode := true, lastMultiChickenDetection := now,
                        singleChickenReadings := 0 }
            (s2, [publishNestStatus s2 now "multiple" "multiple_chickens" 0])
          else
            let s2 : State :=
              { s1 with lastMultiChickenDetection := now, singleChickenReadings := 0 }
            (s2, [publishNestStatus s2 now "multiple" "multiple_chickens" 0])
        else
          match findChickenByTag s1.currentChicken, findChickenByTag tagID with
          | some p, some n =>
            (s1, [publishChickenVisit p.name p.number sessionDuration now,
                  publishChickenChange p.name n.name sessionDuration now,
                  publishNestStatus s1 now "occupied" n.name 0,
                  Event.occupant n.name,
                  Event.simpleOccupants (publishSimpleOccupants s1)])
          | _, _ => (s1, [])
      ({ branch.1 with currentChicken := tagID, chickenEnterTime := currentTime,
                       lastPresenceCheck := currentTime,
                       waitingForPresenceConfirmation := false }, branch.2)

/-- One pass of `loop`. -/
def loop (d : Device) (i : Input) : Device × List Event :=
  let h := heartbeat d i.now
  let p := presenceCheck h.1 i.now
  let q := departureCheck p.1.eng i.now
  let d3 : Device := { p.1 with eng := q.1 }
  if i.bytes = [] then (d3, h.2 ++ p.2 ++ q.2)
  else
    let r := readRFIDWithValidation d3 i.now i.bytes
    let e := handleReading r.2.eng r.1 i.now
    ({ r.2 with eng := e.1 }, h.2 ++ p.2 ++ q.2 ++ e.2)

/-- Run of `loop` over a list of inputs, with the records of every pass. -/
def run : Device → List Input → Device × List Event
  | d, [] => (d, [])
  | d, i :: rest =>
    ((run (loop d i).1 rest).1, (loop d i).2 ++ (run (loop d i).1 rest).2)

/-- The frame a reader sends for a tag: `02`, the ASCII text, `03`. -/
def frameOf (tag : String) : List Nat :=
  2 :: (tag.data.map Char.toNat ++ [3])

/-! ## Runs and reachable states -/

/-- The device `d` is reachable at clock value `t`: it is the initial device
(`t = 0`) or the result of a pass of `loop` at time `t` from a device reachable
at an earlier time.  The clock is taken before `millis()` wraps, so it increases
from pass to pass and stays below `ULONG_MAX`. -/
inductive ReachableAt : Nat → Device → Prop where
  | boot : ReachableAt 0 Device.boot
  | pass {t : Nat} {d : Device} (i : Input) :
      ReachableAt t d → t < i.now → i.now < ULONG_MAX → ReachableAt i.now (loop d i).1

/-- Invariant of the list of detected chickens: fifteen slots, of which the
first `chickenCount` hold pairwise distinct tags of the database. -/
structure ListInv (s : State) : Prop where
  slots : s.detectedChickens.length = 15
  count_le : s.chickenCount ≤ 15
  listed_valid : ∀ x ∈ s.detectedChickens.take s.chickenCount, isValidChicken x = true
  listed_nodup : (s.detectedChickens.take s.chickenCount).Nodup

/-- Structural invariant of the occupancy state. -/
structure Inv (s : State) : Prop where
  list : ListInv s
  empty_current : s.nestOccupied = false → s.currentChicken = ""
  empty_waiting : s.nestOccupied = false → s.waitingForPresenceConfirmation = false
  empty_enter : s.nestOccupied = false → s.chickenEnterTime = 0
  empty_single : s.nestOccupied = false → s.multiChickenMode = false
  single_window : s.multiChickenMode = false →
    s.quickChanges = 0 ∧ s.chickenCount = 0 ∧ s.singleChickenReadings = 0 ∧
      s.lastMultiChickenDetection = 0 ∧ s.detectedChickens = List.replicate 15 ""
  occupied_valid : s.nestOccupied = true → isValidChicken s.currentChicken = true
  multi_count : s.multiChickenMode = true → 2 ≤ s.chickenCount

/-- The stored clock values are at most `t` and the reading counter at most `c`. -/
structure Bound (t c : Nat) (s : State) : Prop where
  enter_le : s.chickenEnterTime ≤ t
  presence_le : s.lastPresenceCheck ≤ t
  reset_le : s.lastResetTime ≤ t
  multi_le : s.lastMultiChickenDetection ≤ t
  readings_le : s.singleChickenReadings ≤ c

/-- The globals when `handleReading` publishes "multiple" for a different tag:
after `detectMultipleChickens` and the three assignments of either branch. -/
def multiState (s : State) (x : String) (now : Nat) : State :=
  { (detectMultipleChickens s x (usub now s.chickenEnterTime / 1000)).2 with
      multiChickenMode := true, lastMultiChickenDetection := now, singleChickenReadings := 0 }

/-- The occupancy state of a pass when its reading is handled: after the
heartbeat, the presence check and the departure check. -/
def timers (d : Device) (now : Nat) : State :=
  (departureCheck (presenceCheck (heartbeat d now).1 now).1.eng now).1

/-- The tag handed to the occupancy logic in a pass: what
`readRFIDWithValidation` returns, or nothing when no byte is waiting. -/
def tagRead (d : Device) (i : Input) : String :=
  if i.bytes = [] then ""
  else
    (readRFIDWithValidation
      { (presenceCheck (heartbeat d i.now).1 i.now).1 with eng := timers d i.now }
      i.now i.bytes).1

/-- Consecutive accepted readings of the tag `x` at the listed times, with no
timer firing in between: the final state and the records published. -/
def feed (x : String) : State → List Nat → State × List Event
  | s, [] => (s, [])
  | s, u :: us =>
    ((feed x (handleReading s x u).1 us).1,
     (handleReading s x u).2 ++ (feed x (handleReading s x u).1 us).2)

/-! ## History of a run -/

/-- Two clock values read off the history of a run while the nest is occupied:
`sessionStart`, the time of the reading that ended the last EMPTY period, and
`occupantSince`, the time of the latest reading that changed the current
occupant (that same reading, or a later reading of a tag other than the
occupant of the moment). -/
structure History where
  sessionStart : Option Nat
  occupantSince : Option Nat
deriving DecidableEq, Repr

/-- The history after a pass of `loop` from device `d`. -/
def track (h : History) (d : Device) (i : Input) : History :=
  let h1 : History := if (timers d i.now).nestOccupied = false then ⟨none, none⟩ else h
  if isValidChicken (tagRead d i) = false then h1
  else if (timers d i.now).nestOccupied = false then ⟨some i.now, some i.now⟩
  else if (timers d i.now).currentChicken = tagRead d i then h1
  else ⟨h1.sessionStart, some i.now⟩

/-- Reachability together with the history of the run. -/
inductive TracedAt : Nat → Device → History → Prop where
  | boot : TracedAt 0 Device.boot ⟨none, none⟩
  | pass {t : Nat} {d : Device} {h : History} (i : Input) :
      TracedAt t d h → t < i.now → i.now < ULONG_MAX →
      TracedAt i.now (loop d i).1 (track h d i)

/-- Device and history after a list of passes. -/
def runTracked : Device → History → List Input → Device × History
  | d, h, [] => (d, h)
  | d, h, i :: rest => runTracked (loop d i).1 (track h d i) rest

/-- The clock values of the passes increase from `t` and stay below `ULONG_MAX`. -/
def validClock : Nat → List Input → Bool
  | _, [] => true
  | t, i :: rest => decide (t < i.now) && decide (i.now < ULONG_MAX) && validClock i.now rest

/-- Clock value of the last pass. -/
def endClock : Nat → List Input → Nat
  | t, [] => t
  | _, i :: rest => endClock i.now rest

/-! ## Concrete runs -/

/-- Lady Kluck has entered at 10000 ms. -/
def nestLadyKluck : Device := (loop Device.boot ⟨10000, frameOf "2003E98C8"⟩).1

/-- Lady Kluck alone, presence probe issued at 40001 ms. -/
def probedLadyKluck : Device := (loop nestLadyKluck ⟨40001, []⟩).1

/-- Lady Kluck has left: no reading until 48002 ms. -/
def leftLadyKluck : Device := (loop probedLadyKluck ⟨48002, []⟩).1

/-- Lady Kluck at 10000 ms, then Ronny at 11000 ms: multi-chicken mode. -/
def nestTwo : Device := (loop nestLadyKluck ⟨11000, frameOf "2003EF40D"⟩).1

/-- Two chickens, presence probe issued at 41001 ms. -/
def probedTwo : Device := (loop nestTwo ⟨41001, []⟩).1

/-- Lady Kluck at 10000 ms, Ronny at 11000 ms, Lady Kluck again at 12000 ms: two
quick changes counted. -/
def nestQuick : Device := (loop nestTwo ⟨12000, frameOf "2003E98C8"⟩).1

/-- Ten passes, 7000 ms apart from 18000 ms to 81000 ms, each with the frame of
the tag. -/
def tenFrames (tag : String) : List Input :=
  (List.range 10).map (fun k => ⟨18000 + 7000 * k, frameOf tag⟩)

/-- The clock values of `tenFrames`. -/
def tenTimes : List Nat := (List.range 10).map (fun k => 18000 + 7000 * k)

/-- Lady Kluck at 10000 ms, Ronny at 11000 ms and again at 18000 ms: multi-chicken
mode with one single-chicken reading counted. -/
def nestTwoAgain : Device := (loop nestTwo ⟨18000, frameOf "2003EF40D"⟩).1

/-- Lady Kluck at 10000 ms, Ronny at 11000 ms and nine more times from 18000 ms
to 74000 ms: multi-chicken mode with nine single-chicken readings counted. -/
def nestNine : Device := (run nestTwo ((tenFrames "2003EF40D").take 9)).1

/-- Ten clock values 7000 ms apart, from 25000 ms to 88000 ms. -/
def tenLaterTimes : List Nat := (List.range 10).map (fun k => 25000 + 7000 * k)

/-- Lady Kluck enters at 10000 ms, Ronny is read at 11000 ms and then ten more
times until 81000 ms (back to single mode), and the presence probe is issued at
111001 ms. -/
def ronnyStays : List Input :=
  [⟨10000, frameOf "2003E98C8"⟩, ⟨11000, frameOf "2003EF40D"⟩] ++ tenFrames "2003EF40D" ++
    [⟨111001, []⟩]

/-- Lady Kluck enters at 10000 ms and is probed at 40001 ms. -/
def ladyKluckProbed : List Input := [⟨10000, frameOf "2003E98C8"⟩, ⟨40001, []⟩]

/-! ## Arithmetic -/

theorem usub_of_le {a b : Nat} (h : b ≤ a) (ha : a < 4294967296) : usub a b = a - b := by
  unfold usub
  omega

theorem usub_lt (a b : Nat) : usub a b < 4294967296 := by
  unfold usub
  omega

/-! ## Identity lookup -/

theorem isValidChicken_eq_true {tag : String} :
    isValidChicken tag = true ↔ ∃ c, findChickenByTag tag = some c := by
  unfold isValidChicken
  exact Option.isSome_iff_exists

theorem findChickenByTag_tag {tag : String} {c : Chicken} (h : findChickenByTag tag = some c) :
    c.tagID = tag := by
  unfold findChickenByTag at h
  have := List.find?_some h
  simpa using this

theorem findChickenByTag_mem {tag : String} {c : Chicken} (h : findChickenByTag tag = some c) :
    c ∈ chickenDatabase := by
  unfold findChickenByTag at h
  exact List.mem_of_find?_eq_some h

theorem isValidChicken_ne_empty {tag : String} (h : isValidChicken tag = true) : tag ≠ "" := by
  intro h0
  subst h0
  revert h
  decide

theorem length_pos_of_valid {tag : String} (h : isValidChicken tag = true) :
    tag.length ≠ 0 := by
  intro h0
  apply isValidChicken_ne_empty h
  cases tag with
  | mk l =>
    have : l = [] := List.length_eq_zero.mp h0
    subst this
    rfl

/-! ## `addChickenToList` -/

section addChicken
variable (s : State) (x : String)

@[simp] theorem addChickenToList_currentChicken :
    (addChickenToList s x).currentChicken = s.currentChicken := by
  unfold addChickenToList; split_ifs <;> rfl
@[simp] theorem addChickenToList_chickenEnterTime :
    (addChickenToList s x).chickenEnterTime = s.chickenEnterTime := by
  unfold addChickenToList; split_ifs <;> rfl
@[simp] theorem addChickenToList_lastPresenceCheck :
    (addChickenToList s x).lastPresenceCheck = s.lastPresenceCheck := by
  unfold addChickenToList; split_ifs <;> rfl
@[simp] theorem addChickenToList_lastResetTime :
    (addChickenToList s x).lastResetTime = s.lastResetTime := by
  unfold addChickenToList; split_ifs <;> rfl
@[simp] theorem addChickenToList_nestOccupied :
    (addChickenToList s x).nestOccupied = s.nestOccupied := by
  unfold addChickenToList; split_ifs <;> rfl
@[simp] theorem addChickenToList_waiting :
    (addChickenToList s x).waitingForPresenceConfirmation = s.waitingForPresenceConfirmation := by
  unfold addChickenToList; split_ifs <;> rfl
@[simp] theorem addChickenToList_quickChanges :
    (addChickenToList s x).quickChanges = s.quickChanges := by
  unfold addChickenToList; split_ifs <;> rfl
@[simp] theorem addChickenToList_lastChangeTime :
    (addChickenToList s x).lastChangeTime = s.lastChangeTime := by
  unfold addChickenToList; split_ifs <;> rfl
@[simp] theorem addChickenToList_multiChickenMode :
    (addChickenToList s x).multiChickenMode = s.multiChickenMode := by
  unfold addChickenToList; split_ifs <;> rfl
@[simp] theorem addChickenToList_lastMulti :
    (addChickenToList s x).lastMultiChickenDetection = s.lastMultiChickenDetection := by
  unfold addChickenToList; split_ifs <;> rfl
@[simp] theorem addChickenToList_singleReadings :
    (addChickenToList s x).singleChickenReadings = s.singleChickenReadings := by
  unfold addChickenToList; split_ifs <;> rfl

end addChicken

theorem take_set_succ (l : List String) (n : Nat) (x : String) (h : n < l.length) :
    (l.set n x).take (n + 1) = l.take n ++ [x] := by
  induction l generalizing n with
  | nil => simp at h
  | cons a l ih =>
    cases n with
    | zero => simp
    | succ n =>
      simp only [List.length_cons, Nat.add_lt_add_iff_right] at h
      simp [ih n h]

/-- What `addChickenToList` does to the listed tags. -/
theorem addChickenToList_listed (s : State) (x : String) (hs : ListInv s) :
    let s1 := addChickenToList s x
    ((isValidChicken x = true ∧ x ∉ s.detectedChickens.take s.chickenCount ∧ s.chickenCount < 15 ∧
        s1.chickenCount = s.chickenCount + 1 ∧
        s1.detectedChickens = s.detectedChickens.set s.chickenCount x ∧
        s1.detectedChickens.take s1.chickenCount = s.detectedChickens.take s.chickenCount ++ [x]) ∨
      (s1 = s ∧ (isValidChicken x = false ∨ x ∈ s.detectedChickens.take s.chickenCount ∨
        s.chickenCount = 15))) := by
  intro s1
  show _ ∨ _
  by_cases hv : isValidChicken x = false
  · right
    refine ⟨?_, Or.inl hv⟩
    show addChickenToList s x = s
    unfold addChickenToList
    simp [hv]
  · by_cases hm : x ∈ s.detectedChickens.take s.chickenCount
    · right
      refine ⟨?_, Or.inr (Or.inl hm)⟩
      show addChickenToList s x = s
      unfold addChickenToList
      simp [hv, hm]
    · by_cases hc : s.chickenCount < 15
      · left
        have e : s1 = { s with detectedChickens := s.detectedChickens.set s.chickenCount x,
                               chickenCount := s.chickenCount + 1 } := by
          show addChickenToList s x = _
          unfold addChickenToList
          simp [hv, hm, hc]
        refine ⟨by simpa using hv, hm, hc, by rw [e], by rw [e], ?_⟩
        rw [e]
        exact take_set_succ _ _ _ (by rw [hs.slots]; exact hc)
      · right
        refine ⟨?_, Or.inr (Or.inr ?_)⟩
        · show addChickenToList s x = s
          unfold addChickenToList
          simp [hv, hm, hc]
        · have := hs.count_le
          omega

theorem addChickenToList_listInv (s : State) (x : String) (hs : ListInv s) :
    ListInv (addChickenToList s x) := by
  rcases addChickenToList_listed s x hs with ⟨hv, hm, hc, h1, h2, h3⟩ | ⟨h, _⟩
  · refine ⟨?_, ?_, ?_, ?_⟩
    · rw [h2, List.length_set]; exact hs.slots
    · rw [h1]; omega
    · rw [h3]
      intro y hy
      rcases List.mem_append.mp hy with hy | hy
      · exact hs.listed_valid y hy
      · simp at hy; subst hy; exact hv
    · rw [h3]
      refine List.Nodup.append hs.listed_nodup (by simp) ?_
      intro a ha hb
      simp at hb
      subst hb
      exact hm ha
  · rw [h]; exact hs

theorem addChickenToList_subset (s : State) (x : String) (hs : ListInv s) :
    ∀ y ∈ s.detectedChickens.take s.chickenCount,
      y ∈ (addChickenToList s x).detectedChickens.take (addChickenToList s x).chickenCount := by
  intro y hy
  rcases addChickenToList_listed s x hs with ⟨_, _, _, _, _, h3⟩ | ⟨h, _⟩
  · rw [h3]; exact List.mem_append_left _ hy
  · rw [h]; exact hy

theorem addChickenToList_count_le (s : State) (x : String) (hs : ListInv s) :
    s.chickenCount ≤ (addChickenToList s x).chickenCount := by
  rcases addChickenToList_listed s x hs with ⟨_, _, _, h1, _, _⟩ | ⟨h, _⟩
  · rw [h1]; omega
  · rw [h]

/-! ## `detectMultipleChickens` -/

section detect
variable (s : State) (x : String) (n : Nat)

@[simp] theorem listCurrent_currentChicken :
    (listCurrent s).currentChicken = s.currentChicken := by
  unfold listCurrent; split_ifs <;> simp
@[simp] theorem listCurrent_chickenEnterTime :
    (listCurrent s).chickenEnterTime = s.chickenEnterTime := by
  unfold listCurrent; split_ifs <;> simp
@[simp] theorem listCurrent_lastPresenceCheck :
    (listCurrent s).lastPresenceCheck = s.lastPresenceCheck := by
  unfold listCurrent; split_ifs <;> simp
@[simp] theorem listCurrent_lastResetTime :
    (listCurrent s).lastResetTime = s.lastResetTime := by
  unfold listCurrent; split_ifs <;> simp
@[simp] theorem listCurrent_nestOccupied :
    (listCurrent s).nestOccupied = s.nestOccupied := by
  unfold listCurrent; split_ifs <;> simp
@[simp] theorem listCurrent_waiting :
    (listCurrent s).waitingForPresenceConfirmation = s.waitingForPresenceConfirmation := by
  unfold listCurrent; split_ifs <;> simp
@[simp] theorem listCurrent_quickChanges :
    (listCurrent s).quickChanges = s.quickChanges := by
  unfold listCurrent; split_ifs <;> simp
@[simp] theorem listCurrent_lastChangeTime :
    (listCurrent s).lastChangeTime = s.lastChangeTime := by
  unfold listCurrent; split_ifs <;> simp
@[simp] theorem listCurrent_multiChickenMode :
    (listCurrent s).multiChickenMode = s.multiChickenMode := by
  unfold listCurrent; split_ifs <;> simp
@[simp] theorem listCurrent_lastMulti :
    (listCurrent s).lastMultiChickenDetection = s.lastMultiChickenDetection := by
  unfold listCurrent; split_ifs <;> simp
@[simp] theorem listCurrent_singleReadings :
    (listCurrent s).singleChickenReadings = s.singleChickenReadings := by
  unfold listCurrent; split_ifs <;> simp

theorem ite_true_false_pair {α : Type} (p : Prop) [Decidable p] (a : α) :
    (if p then (true, a) else (false, a)) = (decide p, a) := by
  by_cases h : p <;> simp [h]

/-- The three ways through `detectMultipleChickens` for a known tag. -/
theorem detect_cases (hx : isValidChicken x = true) :
    (n < 10 ∧ 3 ≤ s.quickChanges + 1 ∧
        detectMultipleChickens s x n =
          (true, { listCurrent s with quickChanges := s.quickChanges + 1 })) ∨
    (n < 10 ∧ s.quickChanges + 1 < 3 ∧
        detectMultipleChickens s x n =
          (decide (2 ≤ (addChickenToList
              { listCurrent s with quickChanges := s.quickChanges + 1 } x).chickenCount),
            addChickenToList { listCurrent s with quickChanges := s.quickChanges + 1 } x)) ∨
    (10 ≤ n ∧
        detectMultipleChickens s x n =
          (decide (2 ≤ (addChickenToList { listCurrent s with quickChanges := 0 } x).chickenCount),
            addChickenToList { listCurrent s with quickChanges := 0 } x)) := by
  unfold detectMultipleChickens
  simp only [hx, Bool.true_eq_false, if_false, listCurrent_quickChanges]
  by_cases hn : n < 10
  · by_cases hq : 3 ≤ s.quickChanges + 1
    · left
      exact ⟨hn, hq, by simp [hn, hq]⟩
    · right; left
      refine ⟨hn, by omega, ?_⟩
      simp only [hn, if_true, ge_iff_le, hq, if_false]
      exact ite_true_false_pair _ _
  · right; right
    refine ⟨by omega, ?_⟩
    simp only [hn, if_false, ge_iff_le]
    exact ite_true_false_pair _ _

@[simp] theorem detect_currentChicken :
    (detectMultipleChickens s x n).2.currentChicken = s.currentChicken := by
  unfold detectMultipleChickens; dsimp only; split_ifs <;> simp
@[simp] theorem detect_chickenEnterTime :
    (detectMultipleChickens s x n).2.chickenEnterTime = s.chickenEnterTime := by
  unfold detectMultipleChickens; dsimp only; split_ifs <;> simp
@[simp] theorem detect_lastPresenceCheck :
    (detectMultipleChickens s x n).2.lastPresenceCheck = s.lastPresenceCheck := by
  unfold detectMultipleChickens; dsimp only; split_ifs <;> simp
@[simp] theorem detect_lastResetTime :
    (detectMultipleChickens s x n).2.lastResetTime = s.lastResetTime := by
  unfold detectMultipleChickens; dsimp only; split_ifs <;> simp
@[simp] theorem detect_nestOccupied :
    (detectMultipleChickens s x n).2.nestOccupied = s.nestOccupied := by
  unfold detectMultipleChickens; dsimp only; split_ifs <;> simp
@[simp] theorem detect_waiting :
    (detectMultipleChickens s x n).2.waitingForPresenceConfirmation =
      s.waitingForPresenceConfirmation := by
  unfold detectMultipleChickens; dsimp only; split_ifs <;> simp
@[simp] theorem detect_lastChangeTime :
    (detectMultipleChickens s x n).2.lastChangeTime = s.lastChangeTime := by
  unfold detectMultipleChickens; dsimp only; split_ifs <;> simp
@[simp] theorem detect_multiChickenMode :
    (detectMultipleChickens s x n).2.multiChickenMode = s.multiChickenMode := by
  unfold detectMultipleChickens; dsimp only; split_ifs <;> simp
@[simp] theorem detect_lastMulti :
    (detectMultipleChickens s x n).2.lastMultiChickenDetection = s.lastMultiChickenDetection := by
  unfold detectMultipleChickens; dsimp only; split_ifs <;> simp
@[simp] theorem detect_singleReadings :
    (detectMultipleChickens s x n).2.singleChickenReadings = s.singleChickenReadings := by
  unfold detectMultipleChickens; dsimp only; split_ifs <;> simp

end detect

theorem listInv_congr {s s1 : State} (h : ListInv s)
    (hd : s1.detectedChickens = s.detectedChickens) (hc : s1.chickenCount = s.chickenCount) :
    ListInv s1 :=
  ⟨by rw [hd]; exact h.slots, by rw [hc]; exact h.count_le,
   by rw [hd, hc]; exact h.listed_valid, by rw [hd, hc]; exact h.listed_nodup⟩

theorem listCurrent_listInv {s : State} (h : ListInv s) : ListInv (listCurrent s) := by
  unfold listCurrent
  split_ifs
  · exact addChickenToList_listInv _ _ h
  · exact h

theorem listCurrent_subset {s : State} (h : ListInv s) :
    ∀ y ∈ s.detectedChickens.take s.chickenCount,
      y ∈ (listCurrent s).detectedChickens.take (listCurrent s).chickenCount := by
  unfold listCurrent
  split_ifs
  · exact addChickenToList_subset _ _ h
  · exact fun y hy => hy

theorem listCurrent_count_le {s : State} (h : ListInv s) :
    s.chickenCount ≤ (listCurrent s).chickenCount := by
  unfold listCurrent
  split_ifs
  · exact addChickenToList_count_le _ _ h
  · exact le_refl _

theorem detect_listInv (s : State) (x : String) (n : Nat) (h : ListInv s) :
    ListInv (detectMultipleChickens s x n).2 := by
  by_cases hx : isValidChicken x = true
  · have hq : ∀ q, ListInv { listCurrent s with quickChanges := q } := fun q =>
      listInv_congr (listCurrent_listInv h) rfl rfl
    rcases detect_cases s x n hx with ⟨_, _, e⟩ | ⟨_, _, e⟩ | ⟨_, e⟩ <;> rw [e]
    · exact hq _
    · exact addChickenToList_listInv _ _ (hq _)
    · exact addChickenToList_listInv _ _ (hq _)
  · unfold detectMultipleChickens
    simp only [Bool.not_eq_true] at hx
    simp [hx, h]

theorem detect_subset (s : State) (x : String) (n : Nat) (h : ListInv s) :
    ∀ y ∈ s.detectedChickens.take s.chickenCount,
      y ∈ (detectMultipleChickens s x n).2.detectedChickens.take
        (detectMultipleChickens s x n).2.chickenCount := by
  intro y hy
  by_cases hx : isValidChicken x = true
  · have hq : ∀ q, ListInv { listCurrent s with quickChanges := q } := fun q =>
      listInv_congr (listCurrent_listInv h) rfl rfl
    have h1 := listCurrent_subset h y hy
    have key : ∀ q, y ∈ (addChickenToList { listCurrent s with quickChanges := q } x).detectedChickens.take
        (addChickenToList { listCurrent s with quickChanges := q } x).chickenCount := fun q =>
      addChickenToList_subset { listCurrent s with quickChanges := q } x (hq q) y h1
    rcases detect_cases s x n hx with ⟨_, _, e⟩ | ⟨_, _, e⟩ | ⟨_, e⟩ <;> rw [e]
    · exact h1
    · exact key _
    · exact key _
  · unfold detectMultipleChickens
    simp only [Bool.not_eq_true] at hx
    simpa [hx] using hy

theorem detect_count_le (s : State) (x : String) (n : Nat) (h : ListInv s) :
    s.chickenCount ≤ (detectMultipleChickens s x n).2.chickenCount := by
  by_cases hx : isValidChicken x = true
  · have hq : ∀ q, ListInv { listCurrent s with quickChanges := q } := fun q =>
      listInv_congr (listCurrent_listInv h) rfl rfl
    have h1 := listCurrent_count_le h
    have key : ∀ q, s.chickenCount ≤
        (addChickenToList { listCurrent s with quickChanges := q } x).chickenCount := fun q =>
      le_trans h1 (addChickenToList_count_le { listCurrent s with quickChanges := q } x (hq q))
    rcases detect_cases s x n hx with ⟨_, _, e⟩ | ⟨_, _, e⟩ | ⟨_, e⟩ <;> rw [e]
    · exact h1
    · exact key _
    · exact key _
  · unfold detectMultipleChickens
    simp only [Bool.not_eq_true] at hx
    simp [hx]

/-- With two chickens listed already, any known tag is multi-chicken evidence. -/
theorem detect_true_of_two (s : State) (x : String) (n : Nat) (h : ListInv s)
    (hx : isValidChicken x = true) (h2 : 2 ≤ s.chickenCount) :
    (detectMultipleChickens s x n).1 = true := by
  have hq : ∀ q, ListInv { listCurrent s with quickChanges := q } := fun q =>
    listInv_congr (listCurrent_listInv h) rfl rfl
  have h1 := listCurrent_count_le h
  have key : ∀ q, 2 ≤
      (addChickenToList { listCurrent s with quickChanges := q } x).chickenCount := fun q =>
    le_trans h2 (le_trans h1
      (addChickenToList_count_le { listCurrent s with quickChanges := q } x (hq q)))
  rcases detect_cases s x n hx with ⟨_, _, e⟩ | ⟨_, _, e⟩ | ⟨_, e⟩
  · rw [e]
  · rw [e]; exact decide_eq_true (key _)
  · rw [e]; exact decide_eq_true (key _)

/-! ## The branches of `handleReading` -/

theorem replicate_fifteen :
    List.replicate 15 "" = ["", "", "", "", "", "", "", "", "", "", "", "", "", "", ""] := rfl

/-- In single mode a different known tag always gives multi-chicken evidence:
the list becomes the old and the new occupant. -/
theorem detect_single (s : State) (x : String) (n : Nat)
    (hq : s.quickChanges = 0) (hc : s.chickenCount = 0)
    (hd : s.detectedChickens = List.replicate 15 "")
    (hcur : isValidChicken s.currentChicken = true) (hx : isValidChicken x = true)
    (hne : s.currentChicken ≠ x) :
    detectMultipleChickens s x n =
      (true, { s with quickChanges := if n < 10 then 1 else 0,
                      detectedChickens := s.currentChicken :: x :: List.replicate 13 "",
                      chickenCount := 2 }) := by
  have hne0 : s.currentChicken ≠ "" := isValidChicken_ne_empty hcur
  have hne' : ¬ x = s.currentChicken := fun h => hne h.symm
  have hl : listCurrent s =
      { s with detectedChickens := s.currentChicken :: List.replicate 14 "", chickenCount := 1 } := by
    unfold listCurrent addChickenToList
    simp [hne0, hcur, hc, hd, replicate_fifteen]
  rcases detect_cases s x n hx with ⟨_, h3, _⟩ | ⟨hn, _, e⟩ | ⟨hn, e⟩
  · omega
  · rw [e, hl]
    unfold addChickenToList
    simp [hx, hne', hq, hn]
  · rw [e, hl]
    have hn' : ¬ n < 10 := by omega
    unfold addChickenToList
    simp [hx, hne', hn']

/-- Under the invariant a different known tag in an occupied nest is always
multi-chicken evidence. -/
theorem detect_of_inv (s : State) (x : String) (n : Nat) (h : Inv s)
    (hocc : s.nestOccupied = true) (hx : isValidChicken x = true) (hne : s.currentChicken ≠ x) :
    (detectMultipleChickens s x n).1 = true ∧ 2 ≤ (detectMultipleChickens s x n).2.chickenCount := by
  by_cases hm : s.multiChickenMode = true
  · exact ⟨detect_true_of_two s x n h.list hx (h.multi_count hm),
      le_trans (h.multi_count hm) (detect_count_le s x n h.list)⟩
  · simp only [Bool.not_eq_true] at hm
    obtain ⟨hq, hc, _, _, hd⟩ := h.single_window hm
    rw [detect_single s x n hq hc hd (h.occupied_valid hocc) hx hne]
    exact ⟨rfl, le_refl 2⟩

theorem handleReading_ignore (s : State) (x : String) (now : Nat)
    (hx : isValidChicken x = false) : handleReading s x now = (s, []) := by
  unfold handleReading
  split_ifs <;> rfl

theorem handleReading_enter (s : State) (x : String) (now : Nat) (c : Chicken)
    (hc : findChickenByTag x = some c) (hocc : s.nestOccupied = false) :
    handleReading s x now =
      ({ s with nestOccupied := true, currentChicken := x, chickenEnterTime := now,
                lastPresenceCheck := now, waitingForPresenceConfirmation := false },
       [publishNestStatus
          { s with nestOccupied := true, currentChicken := x, chickenEnterTime := now,
                   lastPresenceCheck := now, waitingForPresenceConfirmation := false }
          now "occupied" c.name 0]) := by
  have hx : isValidChicken x = true := isValidChicken_eq_true.mpr ⟨c, hc⟩
  unfold handleReading
  simp [length_pos_of_valid hx, hx, hocc, hc]

theorem handleReading_same_single (s : State) (now : Nat)
    (hocc : s.nestOccupied = true) (hcur : isValidChicken s.currentChicken = true)
    (hm : s.multiChickenMode = false) :
    handleReading s s.currentChicken now =
      ({ s with lastPresenceCheck := now, waitingForPresenceConfirmation := false }, []) := by
  unfold handleReading
  simp [length_pos_of_valid hcur, hcur, hocc, hm]

theorem handleReading_same_multi (s : State) (now : Nat)
    (hocc : s.nestOccupied = true) (hcur : isValidChicken s.currentChicken = true)
    (hm : s.multiChickenMode = true)
    (hno : ¬ ((s.singleChickenReadings + 1) % 4294967296 ≥ 10 ∧
      usub now s.lastMultiChickenDetection > 60000)) :
    handleReading s s.currentChicken now =
      ({ s with lastPresenceCheck := now, waitingForPresenceConfirmation := false,
                singleChickenReadings := (s.singleChickenReadings + 1) % 4294967296 }, []) := by
  unfold handleReading
  simp only [length_pos_of_valid hcur, hcur, hocc, hm, SINGLE_READINGS_THRESHOLD,
    MULTI_CHICKEN_TIMEOUT]
  simp [hno]

theorem handleReading_demote (s : State) (now : Nat) (c : Chicken)
    (hocc : s.nestOccupied = true) (hc : findChickenByTag s.currentChicken = some c)
    (hm : s.multiChickenMode = true)
    (hyes : (s.singleChickenReadings + 1) % 4294967296 ≥ 10 ∧
      usub now s.lastMultiChickenDetection > 60000) :
    handleReading s s.currentChicken now =
      (resetMultiChickenDetection
        { s with lastPresenceCheck := now, waitingForPresenceConfirmation := false },
       [publishNestStatus
          (resetMultiChickenDetection
            { s with lastPresenceCheck := now, waitingForPresenceConfirmation := false })
          now "occupied" c.name 0]) := by
  have hcur : isValidChicken s.currentChicken = true := isValidChicken_eq_true.mpr ⟨c, hc⟩
  unfold handleReading
  simp only [length_pos_of_valid hcur, hcur, hocc, hm, SINGLE_READINGS_THRESHOLD,
    MULTI_CHICKEN_TIMEOUT]
  simp [hyes, hc, resetMultiChickenDetection]

theorem handleReading_switch (s : State) (x : String) (now : Nat)
    (hocc : s.nestOccupied = true) (hx : isValidChicken x = true) (hne : s.currentChicken ≠ x)
    (hd : (detectMultipleChickens s x (usub now s.chickenEnterTime / 1000)).1 = true) :
    handleReading s x now =
      ({ multiState s x now with currentChicken := x, chickenEnterTime := now,
                                 lastPresenceCheck := now,
                                 waitingForPresenceConfirmation := false },
       [publishNestStatus (multiState s x now) now "multiple" "multiple_chickens" 0]) := by
  unfold handleReading multiState
  simp only [length_pos_of_valid hx, hx, hocc, hne, hd]
  by_cases hm : s.multiChickenMode = true
  · simp [hm]
  · simp [hm]

/-! ## Preservation of the invariants -/

theorem inv_boot : Inv State.boot := by
  refine ⟨⟨rfl, by decide, ?_, ?_⟩, ?_, ?_, ?_, ?_, ?_, ?_, ?_⟩
  · intro x hx; simp [State.boot] at hx
  · simp [State.boot]
  all_goals simp [State.boot]

theorem inv_reset {s : State} (cur : String) (occ w : Bool) (e p r : Nat)
    (h1 : occ = false → cur = "" ∧ w = false ∧ e = 0)
    (h2 : occ = true → isValidChicken cur = true) :
    Inv (resetMultiChickenDetection
      { s with currentChicken := cur, nestOccupied := occ, waitingForPresenceConfirmation := w,
               chickenEnterTime := e, lastPresenceCheck := p, lastResetTime := r }) := by
  refine ⟨⟨?_, ?_, ?_, ?_⟩, ?_, ?_, ?_, ?_, ?_, ?_, ?_⟩
  · simp [resetMultiChickenDetection]
  · simp [resetMultiChickenDetection]
  · intro x hx; simp [resetMultiChickenDetection] at hx
  · simp [resetMultiChickenDetection]
  · intro h; exact (h1 h).1
  · intro h; exact (h1 h).2.1
  · intro h; exact (h1 h).2.2
  · intro _; rfl
  · intro _; simp [resetMultiChickenDetection]
  · intro h; exact h2 h
  · intro h; simp [resetMultiChickenDetection] at h

/-- The state after `departureCheck`. -/
theorem departureCheck_state (s : State) (now : Nat) :
    (departureCheck s now).1 =
      if s.waitingForPresenceConfirmation = true ∧ usub now s.lastResetTime > 8000 then
        resetMultiChickenDetection
          { s with nestOccupied := false, currentChicken := "", chickenEnterTime := 0,
                   waitingForPresenceConfirmation := false }
      else s := by
  unfold departureCheck
  by_cases h : s.waitingForPresenceConfirmation = true ∧ usub now s.lastResetTime > 8000
  · rw [if_pos h, if_pos h]
  · rw [if_neg h, if_neg h]

theorem departureCheck_inv (s : State) (now : Nat) (h : Inv s) :
    Inv (departureCheck s now).1 := by
  rw [departureCheck_state]
  split_ifs
  · exact inv_reset "" false false 0 s.lastPresenceCheck s.lastResetTime
      (fun _ => ⟨rfl, rfl, rfl⟩) (fun h => by simp at h)
  · exact h

theorem presence_inv (s : State) (now : Nat) (w : Bool) (r : Nat) (h : Inv s)
    (hw : s.nestOccupied = false → w = false) :
    Inv { s with lastResetTime := r, waitingForPresenceConfirmation := w,
                 lastPresenceCheck := now } :=
  ⟨⟨h.list.slots, h.list.count_le, h.list.listed_valid, h.list.listed_nodup⟩,
    h.empty_current, hw, h.empty_enter, h.empty_single, h.single_window, h.occupied_valid,
    h.multi_count⟩

theorem presenceCheck_inv (d : Device) (now : Nat) (h : Inv d.eng) :
    Inv (presenceCheck d now).1.eng := by
  unfold presenceCheck
  split_ifs with hc
  · exact presence_inv d.eng now true now h (fun h0 => by simp [hc.1] at h0)
  · exact h

theorem handleReading_inv (s : State) (x : String) (now : Nat) (h : Inv s) :
    Inv (handleReading s x now).1 := by
  by_cases hx : isValidChicken x = true
  · obtain ⟨c, hc⟩ := isValidChicken_eq_true.mp hx
    by_cases hocc : s.nestOccupied = true
    · by_cases hcur : s.currentChicken = x
      · subst hcur
        by_cases hm : s.multiChickenMode = true
        · by_cases hd : (s.singleChickenReadings + 1) % 4294967296 ≥ 10 ∧
              usub now s.lastMultiChickenDetection > 60000
          · rw [handleReading_demote s now c hocc hc hm hd]
            exact inv_reset s.currentChicken s.nestOccupied false s.chickenEnterTime now
              s.lastResetTime (fun h0 => by simp [hocc] at h0) (fun _ => hx)
          · rw [handleReading_same_multi s now hocc hx hm hd]
            exact ⟨⟨h.list.slots, h.list.count_le, h.list.listed_valid, h.list.listed_nodup⟩,
              h.empty_current, fun _ => rfl, h.empty_enter, h.empty_single,
              fun h0 => by simp [hm] at h0, h.occupied_valid, h.multi_count⟩
        · simp only [Bool.not_eq_true] at hm
          rw [handleReading_same_single s now hocc hx hm]
          exact ⟨⟨h.list.slots, h.list.count_le, h.list.listed_valid, h.list.listed_nodup⟩,
            h.empty_current, fun _ => rfl, h.empty_enter, h.empty_single, h.single_window,
            h.occupied_valid, h.multi_count⟩
      · obtain ⟨hd, h2⟩ := detect_of_inv s x (usub now s.chickenEnterTime / 1000) h hocc hx hcur
        rw [handleReading_switch s x now hocc hx hcur hd]
        have hl := detect_listInv s x (usub now s.chickenEnterTime / 1000) h.list
        refine ⟨⟨hl.slots, hl.count_le, hl.listed_valid, hl.listed_nodup⟩, ?_, ?_, ?_, ?_, ?_,
          ?_, ?_⟩
        · intro h0; simp [multiState, hocc] at h0
        · intro _; rfl
        · intro h0; simp [multiState, hocc] at h0
        · intro h0; simp [multiState, hocc] at h0
        · intro h0; simp [multiState] at h0
        · intro _; exact hx
        · intro _; exact h2
    · simp only [Bool.not_eq_true] at hocc
      rw [handleReading_enter s x now c hc hocc]
      exact ⟨⟨h.list.slots, h.list.count_le, h.list.listed_valid, h.list.listed_nodup⟩,
        fun h0 => by simp at h0, fun _ => rfl, fun h0 => by simp at h0,
        fun h0 => by simp at h0, h.single_window, fun _ => hx, h.multi_count⟩
  · simp only [Bool.not_eq_true] at hx
    rw [handleReading_ignore s x now hx]
    exact h

/-! ### Clock bounds -/

theorem Bound.mono {t c t1 c1 : Nat} {s : State} (h : Bound t c s) (ht : t ≤ t1) (hc : c ≤ c1) :
    Bound t1 c1 s :=
  ⟨le_trans h.enter_le ht, le_trans h.presence_le ht, le_trans h.reset_le ht,
    le_trans h.multi_le ht, le_trans h.readings_le hc⟩

theorem bound_boot : Bound 0 0 State.boot :=
  ⟨le_refl _, le_refl _, le_refl _, le_refl _, le_refl _⟩

theorem presenceCheck_bound (d : Device) (now c : Nat) (h : Bound now c d.eng) :
    Bound now c (presenceCheck d now).1.eng := by
  unfold presenceCheck
  split_ifs
  · exact ⟨h.enter_le, le_refl _, le_refl _, h.multi_le, h.readings_le⟩
  · exact h

theorem departureCheck_bound (s : State) (now c : Nat) (h : Bound now c s) :
    Bound now c (departureCheck s now).1 := by
  rw [departureCheck_state]
  split_ifs
  · exact ⟨Nat.zero_le _, h.presence_le, h.reset_le, Nat.zero_le _, Nat.zero_le _⟩
  · exact h

theorem handleReading_bound (s : State) (x : String) (now c : Nat) (h : Bound now c s)
    (hi : Inv s) : Bound now (c + 1) (handleReading s x now).1 := by
  by_cases hx : isValidChicken x = true
  · obtain ⟨k, hk⟩ := isValidChicken_eq_true.mp hx
    by_cases hocc : s.nestOccupied = true
    · by_cases hcur : s.currentChicken = x
      · subst hcur
        by_cases hm : s.multiChickenMode = true
        · by_cases hd : (s.singleChickenReadings + 1) % 4294967296 ≥ 10 ∧
              usub now s.lastMultiChickenDetection > 60000
          · rw [handleReading_demote s now k hocc hk hm hd]
            exact ⟨h.enter_le, le_refl _, h.reset_le, Nat.zero_le _, Nat.zero_le _⟩
          · rw [handleReading_same_multi s now hocc hx hm hd]
            refine ⟨h.enter_le, le_refl _, h.reset_le, h.multi_le, ?_⟩
            have := h.readings_le
            show (s.singleChickenReadings + 1) % 4294967296 ≤ c + 1
            exact le_trans (Nat.mod_le _ _) (by omega)
        · simp only [Bool.not_eq_true] at hm
          rw [handleReading_same_single s now hocc hx hm]
          exact ⟨h.enter_le, le_refl _, h.reset_le, h.multi_le,
            le_trans h.readings_le (Nat.le_succ _)⟩
      · obtain ⟨hd, _⟩ := detect_of_inv s x (usub now s.chickenEnterTime / 1000) hi hocc hx hcur
        rw [handleReading_switch s x now hocc hx hcur hd]
        refine ⟨le_refl _, le_refl _, ?_, le_refl _, Nat.zero_le _⟩
        simpa [multiState] using h.reset_le
    · simp only [Bool.not_eq_true] at hocc
      rw [handleReading_enter s x now k hk hocc]
      exact ⟨le_refl _, le_refl _, h.reset_le, h.multi_le,
        le_trans h.readings_le (Nat.le_succ _)⟩
  · simp only [Bool.not_eq_true] at hx
    rw [handleReading_ignore s x now hx]
    exact h.mono (le_refl _) (Nat.le_succ _)

/-! ### The passes of `loop` -/

@[simp] theorem heartbeat_eng (d : Device) (now : Nat) : (heartbeat d now).1.eng = d.eng := by
  unfold heartbeat; split_ifs <;> rfl

@[simp] theorem readRFID_eng (d : Device) (now : Nat) (bytes : List Nat) :
    (readRFIDWithValidation d now bytes).2.eng = d.eng := by
  unfold readRFIDWithValidation
  dsimp only
  split_ifs <;> rfl

/-- The occupancy state after a pass is the state after the two timer checks
when no byte is waiting, and otherwise the result of `handleReading` on that
state with what `readRFIDWithValidation` returned. -/
theorem loop_eng (d : Device) (i : Input) :
    (loop d i).1.eng =
      if i.bytes = [] then timers d i.now
      else (handleReading (timers d i.now)
        (readRFIDWithValidation
          { (presenceCheck (heartbeat d i.now).1 i.now).1 with eng := timers d i.now }
          i.now i.bytes).1 i.now).1 := by
  unfold loop timers
  dsimp only
  split_ifs
  · rfl
  · simp

theorem timers_inv (d : Device) (now : Nat) (h : Inv d.eng) : Inv (timers d now) := by
  unfold timers
  apply departureCheck_inv
  apply presenceCheck_inv
  simpa using h

theorem timers_bound (d : Device) (now c : Nat) (h : Bound now c d.eng) :
    Bound now c (timers d now) := by
  unfold timers
  apply departureCheck_bound
  apply presenceCheck_bound
  simpa using h

theorem loop_inv (d : Device) (i : Input) (h : Inv d.eng) : Inv (loop d i).1.eng := by
  rw [loop_eng]
  split_ifs
  · exact timers_inv d i.now h
  · exact handleReading_inv _ _ _ (timers_inv d i.now h)

theorem loop_bound (d : Device) (i : Input) (t : Nat) (h : Bound t t d.eng) (hi : Inv d.eng)
    (ht : t < i.now) : Bound i.now i.now (loop d i).1.eng := by
  have h1 : Bound i.now t (timers d i.now) :=
    timers_bound d i.now t (h.mono (le_of_lt ht) (le_refl _))
  rw [loop_eng]
  split_ifs
  · exact h1.mono (le_refl _) (le_of_lt ht)
  · exact (handleReading_bound _ _ _ _ h1 (timers_inv d i.now hi)).mono (le_refl _) ht

theorem reachable_inv {t : Nat} {d : Device} (h : ReachableAt t d) :
    Inv d.eng ∧ Bound t t d.eng := by
  induction h with
  | boot => exact ⟨inv_boot, bound_boot⟩
  | pass i _ ht _ ih => exact ⟨loop_inv _ i ih.1, loop_bound _ i _ ih.2 ih.1 ht⟩

/-- The state before the reading of a pass is itself the state after a pass:
the pass at the same time with no byte waiting. -/
theorem reachable_timers {t : Nat} {d : Device} (h : ReachableAt t d) (now : Nat) (ht : t < now)
    (hn : now < ULONG_MAX) :
    ∃ d1, ReachableAt now d1 ∧ d1.eng = timers d now := by
  refine ⟨(loop d ⟨now, []⟩).1, ReachableAt.pass ⟨now, []⟩ h ht hn, ?_⟩
  rw [loop_eng]
  simp

/-! ## Published names -/

theorem empty_append (a : String) : "" ++ a = a := by
  cases a
  rfl

theorem joinNames_two (sep x y : String) (cx cy : Chicken)
    (hx : findChickenByTag x = some cx) (hy : findChickenByTag y = some cy) :
    joinNames sep 0 [x, y] "" = cx.name ++ sep ++ cy.name := by
  simp [joinNames, hx, hy, empty_append]

theorem chickenNames_two (x y : String) (cx cy : Chicken)
    (hx : findChickenByTag x = some cx) (hy : findChickenByTag y = some cy) :
    chickenNames [x, y] = [cx.name, cy.name] := by
  simp [chickenNames, hx, hy]

/-! ## Concrete reachable devices -/

theorem nestLadyKluck_reachable : ReachableAt 10000 nestLadyKluck :=
  ReachableAt.pass ⟨10000, frameOf "2003E98C8"⟩ ReachableAt.boot (by decide) (by decide)

theorem probedLadyKluck_reachable : ReachableAt 40001 probedLadyKluck :=
  ReachableAt.pass ⟨40001, []⟩ nestLadyKluck_reachable (by decide) (by decide)

theorem leftLadyKluck_reachable : ReachableAt 48002 leftLadyKluck :=
  ReachableAt.pass ⟨48002, []⟩ probedLadyKluck_reachable (by decide) (by decide)

theorem nestTwo_reachable : ReachableAt 11000 nestTwo :=
  ReachableAt.pass ⟨11000, frameOf "2003EF40D"⟩ nestLadyKluck_reachable (by decide) (by decide)

theorem probedTwo_reachable : ReachableAt 41001 probedTwo :=
  ReachableAt.pass ⟨41001, []⟩ nestTwo_reachable (by decide) (by decide)

theorem nestQuick_reachable : ReachableAt 12000 nestQuick :=
  ReachableAt.pass ⟨12000, frameOf "2003E98C8"⟩ nestTwo_reachable (by decide) (by decide)

/-! ## The checks of a pass -/

/-- The records of `departureCheck` when it fires. -/
theorem departureCheck_events (s : State) (now : Nat)
    (h : s.waitingForPresenceConfirmation = true ∧ usub now s.lastResetTime > 8000) :
    (departureCheck s now).2 =
      if s.multiChickenMode = true then [publishNestStatus s now "empty" "" 0]
      else
        match findChickenByTag s.currentChicken with
        | some c =>
          [publishChickenVisit c.name c.number (usub now s.chickenEnterTime / 1000) now,
           publishNestStatus s now "empty" "" 0]
        | none => [] := by
  unfold departureCheck
  rw [if_pos h]

theorem ulong_max_lt {now : Nat} (h : now < ULONG_MAX) : now < 4294967296 := by
  unfold ULONG_MAX at h
  omega

/-! ## A pass as timers followed by the reading -/

theorem handleReading_nothing (s : State) (now : Nat) : handleReading s "" now = (s, []) := by
  unfold handleReading
  simp

theorem loop_state (d : Device) (i : Input) :
    (loop d i).1.eng = (handleReading (timers d i.now) (tagRead d i) i.now).1 := by
  rw [loop_eng]
  unfold tagRead
  split_ifs
  · rw [handleReading_nothing]
  · rfl

theorem loop_events (d : Device) (i : Input) :
    (loop d i).2 =
      (heartbeat d i.now).2 ++ (presenceCheck (heartbeat d i.now).1 i.now).2 ++
        (departureCheck (presenceCheck (heartbeat d i.now).1 i.now).1.eng i.now).2 ++
        (handleReading (timers d i.now) (tagRead d i) i.now).2 := by
  unfold loop tagRead timers
  dsimp only
  split_ifs
  · rw [handleReading_nothing]; simp
  · simp

/-- The presence check leaves everything but the three probe variables. -/
theorem presenceCheck_eng (d : Device) (now : Nat) :
    (presenceCheck d now).1.eng = d.eng ∨
      (d.eng.nestOccupied = true ∧
        (presenceCheck d now).1.eng =
          { d.eng with lastResetTime := now, waitingForPresenceConfirmation := true,
                       lastPresenceCheck := now }) := by
  unfold presenceCheck
  split_ifs with h
  · right; exact ⟨h.1, rfl⟩
  · left; rfl

/-- A pass with no byte waiting in which neither the heartbeat nor the presence
probe is due is the departure check alone. -/
theorem loop_quiet (d : Device) (now : Nat) (hh : usub now d.lastHeartbeat ≤ 300000)
    (hp : ¬ (d.eng.nestOccupied = true ∧ usub now d.eng.lastPresenceCheck > 30000)) :
    loop d ⟨now, []⟩ =
      ({ d with eng := (departureCheck d.eng now).1 }, (departureCheck d.eng now).2) := by
  have h1 : heartbeat d now = (d, []) := by
    unfold heartbeat
    rw [if_neg (by omega)]
  have h2 : presenceCheck d now = (d, []) := by
    unfold presenceCheck
    rw [if_neg hp]
  unfold loop
  simp [h1, h2]

/-- The state in which the departure check of a pass runs is the state of a
reachable device: the device before the pass, or the device after a pass at the
same time with no byte waiting when the presence probe has just been issued. -/
theorem reachable_checked {t : Nat} {d : Device} (h : ReachableAt t d) (now : Nat) (ht : t < now)
    (hn : now < ULONG_MAX) :
    ∃ t1 d1, ReachableAt t1 d1 ∧ t1 ≤ now ∧
      d1.eng = (presenceCheck (heartbeat d now).1 now).1.eng := by
  rcases presenceCheck_eng (heartbeat d now).1 now with h1 | ⟨_, h1⟩
  · refine ⟨t, d, h, le_of_lt ht, ?_⟩
    rw [h1, heartbeat_eng]
  · refine ⟨now, (loop d ⟨now, []⟩).1, ReachableAt.pass ⟨now, []⟩ h ht hn, le_refl _, ?_⟩
    rw [loop_eng]
    simp only [if_true]
    unfold timers
    rw [departureCheck_state, if_neg]
    rw [h1]
    intro hc
    have h0 : usub now now = 0 := by unfold usub; unfold ULONG_MAX at hn; omega
    have h2 : usub now now > 8000 := hc.2
    rw [h0] at h2
    exact absurd h2 (by decide)

/-- Either the departure check has emptied the nest, or the timers of a pass
have changed the three probe variables at most. -/
theorem timers_cases (d : Device) (now : Nat) :
    ((timers d now).nestOccupied = false ∧ (timers d now).multiChickenMode = false) ∨
      ∃ r w p, timers d now =
        { d.eng with lastResetTime := r, waitingForPresenceConfirmation := w,
                     lastPresenceCheck := p } := by
  unfold timers
  rw [departureCheck_state]
  split_ifs
  · left
    simp [resetMultiChickenDetection]
  · right
    rcases presenceCheck_eng (heartbeat d now).1 now with h | ⟨_, h⟩
    · rw [h, heartbeat_eng]
      exact ⟨d.eng.lastResetTime, d.eng.waitingForPresenceConfirmation, d.eng.lastPresenceCheck,
        rfl⟩
    · rw [h, heartbeat_eng]
      exact ⟨now, true, now, rfl⟩

theorem timers_of_empty (d : Device) (now : Nat) (hi : Inv d.eng)
    (h : d.eng.nestOccupied = false) : timers d now = d.eng := by
  unfold timers
  have hp : (presenceCheck (heartbeat d now).1 now).1.eng = d.eng := by
    rcases presenceCheck_eng (heartbeat d now).1 now with h1 | ⟨h1, _⟩
    · rw [h1, heartbeat_eng]
    · rw [heartbeat_eng, h] at h1
      exact absurd h1 (by decide)
  rw [hp, departureCheck_state, if_neg]
  rw [hi.empty_waiting h]
  simp

/-- Handling a reading never turns an empty nest into multi-chicken mode, and
never shrinks the list of a nest that is in multi-chicken mode afterwards. -/
theorem handleReading_multi (s : State) (x : String) (now : Nat) (h : Inv s)
    (hm : (handleReading s x now).1.multiChickenMode = true) :
    s.nestOccupied = true ∧
      ∀ y ∈ s.detectedChickens.take s.chickenCount,
        y ∈ (handleReading s x now).1.detectedChickens.take
          (handleReading s x now).1.chickenCount := by
  by_cases hx : isValidChicken x = true
  · obtain ⟨c, hc⟩ := isValidChicken_eq_true.mp hx
    by_cases hocc : s.nestOccupied = true
    · refine ⟨hocc, ?_⟩
      by_cases hcur : s.currentChicken = x
      · subst hcur
        by_cases hmm : s.multiChickenMode = true
        · by_cases hd : (s.singleChickenReadings + 1) % 4294967296 ≥ 10 ∧
              usub now s.lastMultiChickenDetection > 60000
          · rw [handleReading_demote s now c hocc hc hmm hd] at hm
            simp [resetMultiChickenDetection] at hm
          · rw [handleReading_same_multi s now hocc hx hmm hd]
            exact fun y hy => hy
        · simp only [Bool.not_eq_true] at hmm
          rw [handleReading_same_single s now hocc hx hmm]
          exact fun y hy => hy
      · obtain ⟨hd, _⟩ := detect_of_inv s x (usub now s.chickenEnterTime / 1000) h hocc hx hcur
        rw [handleReading_switch s x now hocc hx hcur hd]
        exact detect_subset s x (usub now s.chickenEnterTime / 1000) h.list
    · simp only [Bool.not_eq_true] at hocc
      rw [handleReading_enter s x now c hc hocc] at hm
      simp [h.empty_single hocc] at hm
  · simp only [Bool.not_eq_true] at hx
    rw [handleReading_ignore s x now hx] at hm ⊢
    refine ⟨?_, fun y hy => hy⟩
    by_contra h0
    simp only [Bool.not_eq_true] at h0
    have h1 : s.multiChickenMode = true := hm
    rw [h.empty_single h0] at h1
    exact absurd h1 (by decide)

/-! ## Consecutive readings of one tag -/

theorem publishNestStatus_occupied (s : State) (now : Nat) (c : Chicken)
    (hocc : s.nestOccupied = true) (hm : s.multiChickenMode = false)
    (hc : findChickenByTag s.currentChicken = some c) :
    publishNestStatus s now "occupied" c.name 0 =
      Event.nestStatus "occupied" c.name [] 0 0 c.name now := by
  simp [publishNestStatus, publishSimpleOccupants, hocc, hm, hc]

/-- In single mode readings of the occupant publish nothing and keep the mode. -/
theorem feed_single (x : String) (ts : List Nat) :
    ∀ s : State, Inv s → s.nestOccupied = true → s.multiChickenMode = false →
      s.currentChicken = x →
      (feed x s ts).2 = [] ∧ Inv (feed x s ts).1 ∧ (feed x s ts).1.nestOccupied = true ∧
        (feed x s ts).1.multiChickenMode = false ∧ (feed x s ts).1.currentChicken = x := by
  induction ts with
  | nil => intro s hi hocc hm hx; exact ⟨rfl, hi, hocc, hm, hx⟩
  | cons u us ih =>
    intro s hi hocc hm hx
    subst hx
    have e := handleReading_same_single s u hocc (hi.occupied_valid hocc) hm
    have hi1 := handleReading_inv s s.currentChicken u hi
    rw [e] at hi1
    obtain ⟨h1, h2, h3, h4, h5⟩ := ih _ hi1 hocc hm rfl
    unfold feed
    rw [e]
    exact ⟨by rw [h1]; rfl, h2, h3, h4, h5⟩

/-- In multi mode readings of the current chicken demote at the first one whose
incremented counter is at least ten and which comes more than 60 s after the
last multi-chicken evidence. -/
theorem feed_multi (ts : List Nat) :
    ∀ (s : State) (cx : Chicken) (last : Nat), Inv s → s.multiChickenMode = true →
      findChickenByTag s.currentChicken = some cx →
      List.Sorted (fun a b => a < b) ts → (∀ u ∈ ts, u < ULONG_MAX) →
      (∀ u ∈ ts, s.lastMultiChickenDetection ≤ u) → (∀ u ∈ ts, s.singleChickenReadings ≤ u) →
      ts.getLast? = some last → 10 ≤ s.singleChickenReadings + ts.length →
      last - s.lastMultiChickenDetection > 60000 →
      (Inv (feed s.currentChicken s ts).1 ∧ (feed s.currentChicken s ts).1.nestOccupied = true ∧
        (feed s.currentChicken s ts).1.multiChickenMode = false ∧
        (feed s.currentChicken s ts).1.currentChicken = s.currentChicken) ∧
      ∃ k u, ts[k]? = some u ∧ 10 ≤ s.singleChickenReadings + k + 1 ∧
        (feed s.currentChicken s ts).2 = [Event.nestStatus "occupied" cx.name [] 0 0 cx.name u] := by
  induction ts with
  | nil => intro s cx last _ _ _ _ _ _ _ hl; simp at hl
  | cons u us ih =>
    intro s cx last hi hm hcx hsort hmax hL hC hlast hlen h60
    have hocc : s.nestOccupied = true := by
      by_contra h0
      simp only [Bool.not_eq_true] at h0
      have := hi.empty_single h0
      simp [hm] at this
    have hX : isValidChicken s.currentChicken = true := isValidChicken_eq_true.mpr ⟨cx, hcx⟩
    have hu : u < 4294967296 := ulong_max_lt (hmax u (List.mem_cons_self _ _))
    have hu' : u < ULONG_MAX := hmax u (List.mem_cons_self _ _)
    have hLu : s.lastMultiChickenDetection ≤ u := hL u (List.mem_cons_self _ _)
    have hCu : s.singleChickenReadings ≤ u := hC u (List.mem_cons_self _ _)
    have h1 : usub u s.lastMultiChickenDetection = u - s.lastMultiChickenDetection :=
      usub_of_le hLu hu
    have h2 : (s.singleChickenReadings + 1) % 4294967296 = s.singleChickenReadings + 1 := by
      unfold ULONG_MAX at hu'
      exact Nat.mod_eq_of_lt (by omega)
    obtain ⟨hhead, htail⟩ := List.sorted_cons.mp hsort
    have hi1 := handleReading_inv s s.currentChicken u hi
    by_cases hd : s.singleChickenReadings + 1 ≥ 10 ∧ u - s.lastMultiChickenDetection > 60000
    · have hd' : (s.singleChickenReadings + 1) % 4294967296 ≥ 10 ∧
          usub u s.lastMultiChickenDetection > 60000 := by rw [h1, h2]; exact hd
      have e := handleReading_demote s u cx hocc hcx hm hd'
      rw [e] at hi1
      have hev : publishNestStatus (resetMultiChickenDetection
            { s with lastPresenceCheck := u, waitingForPresenceConfirmation := false })
            u "occupied" cx.name 0 = Event.nestStatus "occupied" cx.name [] 0 0 cx.name u :=
        publishNestStatus_occupied _ u cx hocc rfl hcx
      obtain ⟨g1, g2, g3, g4, g5⟩ := feed_single s.currentChicken us _ hi1 hocc rfl rfl
      unfold feed
      rw [e]
      refine ⟨⟨g2, g3, g4, g5⟩, 0, u, by simp, by omega, ?_⟩
      show _ ++ _ = _
      rw [g1, hev]
      rfl
    · have hd' : ¬ ((s.singleChickenReadings + 1) % 4294967296 ≥ 10 ∧
          usub u s.lastMultiChickenDetection > 60000) := by rw [h1, h2]; exact hd
      have e := handleReading_same_multi s u hocc hX hm hd'
      rw [e] at hi1
      cases us with
      | nil =>
        exfalso
        simp at hlast hlen
        subst hlast
        exact hd ⟨by omega, h60⟩
      | cons v vs =>
        have hlast' : (v :: vs).getLast? = some last := by
          rw [List.getLast?_cons_cons] at hlast
          exact hlast
        have huv : u < v := hhead v (List.mem_cons_self _ _)
        have hv : ∀ w ∈ v :: vs, u < w := hhead
        obtain ⟨g, k, w, gk, gc, ge⟩ := ih
          { s with lastPresenceCheck := u, waitingForPresenceConfirmation := false,
                   singleChickenReadings := (s.singleChickenReadings + 1) % 4294967296 }
          cx last hi1 hm hcx htail (fun w hw => hmax w (List.mem_cons_of_mem _ hw))
          (fun w hw => hL w (List.mem_cons_of_mem _ hw))
          (fun w hw => by
            show (s.singleChickenReadings + 1) % 4294967296 ≤ w
            rw [h2]
            have := hv w hw
            omega)
          hlast'
          (by
            show 10 ≤ (s.singleChickenReadings + 1) % 4294967296 + (v :: vs).length
            rw [h2]
            simp only [List.length_cons] at hlen ⊢
            omega)
          h60
        unfold feed
        rw [e]
        refine ⟨g, k + 1, w, by simpa using gk, ?_, ?_⟩
        · have : 10 ≤ (s.singleChickenReadings + 1) % 4294967296 + k + 1 := gc
          rw [h2] at this
          omega
        · show [] ++ _ = _
          exact ge

/-! ## Visit records and the history of a run -/

theorem traced_run (ins : List Input) :
    ∀ (t : Nat) (d : Device) (h : History), TracedAt t d h → validClock t ins = true →
      TracedAt (endClock t ins) (runTracked d h ins).1 (runTracked d h ins).2 := by
  induction ins with
  | nil => intro t d h ht _; exact ht
  | cons i rest ih =>
    intro t d h ht hv
    simp only [validClock, Bool.and_eq_true, decide_eq_true_eq] at hv
    exact ih i.now (loop d i).1 (track h d i) (TracedAt.pass i ht hv.1.1 hv.1.2) hv.2

theorem traced_reachable {t : Nat} {d : Device} {h : History} (ht : TracedAt t d h) :
    ReachableAt t d := by
  induction ht with
  | boot => exact ReachableAt.boot
  | pass i _ h1 h2 ih => exact ReachableAt.pass i ih h1 h2

theorem publishNestStatus_isVisit (s : State) (now : Nat) (a b : String) (n : Int) :
    (publishNestStatus s now a b n).isVisit = false := by
  unfold publishNestStatus
  split_ifs <;> rfl

theorem heartbeat_no_visit (d : Device) (now : Nat) :
    ∀ e ∈ (heartbeat d now).2, e.isVisit = false := by
  unfold heartbeat
  dsimp only
  split_ifs
  · intro e he
    simp at he
    rcases he with he | he <;> subst he
    · exact publishNestStatus_isVisit _ _ _ _ _
    · rfl
  · intro e he
    simp at he
    rcases he with he | he <;> subst he
    · exact publishNestStatus_isVisit _ _ _ _ _
    · rfl
  · intro e he
    cases hc : findChickenByTag d.eng.currentChicken with
    | none =>
      simp [hc] at he
      subst he
      rfl
    | some c =>
      simp [hc] at he
      rcases he with he | he <;> subst he
      · exact publishNestStatus_isVisit _ _ _ _ _
      · rfl
  · intro e he
    simp at he

theorem presenceCheck_no_visit (d : Device) (now : Nat) :
    ∀ e ∈ (presenceCheck d now).2, e.isVisit = false := by
  unfold presenceCheck
  split_ifs
  · intro e he
    simp at he
    subst he
    rfl
  · intro e he
    simp at he

/-- Under the invariant `handleReading` publishes no visit record: a different
tag is always multi-chicken evidence. -/
theorem handleReading_no_visit (s : State) (x : String) (now : Nat) (h : Inv s) :
    ∀ e ∈ (handleReading s x now).2, e.isVisit = false := by
  intro e he
  by_cases hx : isValidChicken x = true
  · obtain ⟨c, hc⟩ := isValidChicken_eq_true.mp hx
    by_cases hocc : s.nestOccupied = true
    · by_cases hcur : s.currentChicken = x
      · subst hcur
        by_cases hm : s.multiChickenMode = true
        · by_cases hd : (s.singleChickenReadings + 1) % 4294967296 ≥ 10 ∧
              usub now s.lastMultiChickenDetection > 60000
          · rw [handleReading_demote s now c hocc hc hm hd] at he
            simp at he
            subst he
            exact publishNestStatus_isVisit _ _ _ _ _
          · rw [handleReading_same_multi s now hocc hx hm hd] at he
            simp at he
        · simp only [Bool.not_eq_true] at hm
          rw [handleReading_same_single s now hocc hx hm] at he
          simp at he
      · obtain ⟨hd, _⟩ := detect_of_inv s x (usub now s.chickenEnterTime / 1000) h hocc hx hcur
        rw [handleReading_switch s x now hocc hx hcur hd] at he
        simp at he
        subst he
        exact publishNestStatus_isVisit _ _ _ _ _
    · simp only [Bool.not_eq_true] at hocc
      rw [handleReading_enter s x now c hc hocc] at he
      simp at he
      subst he
      exact publishNestStatus_isVisit _ _ _ _ _
  · simp only [Bool.not_eq_true] at hx
    rw [handleReading_ignore s x now hx] at he
    simp at he

/-- A visit record of the departure check is the record of the single occupant
with the time since `chickenEnterTime`. -/
theorem departureCheck_visit (s : State) (now : Nat) (e : Event)
    (he : e ∈ (departureCheck s now).2) (hv : e.isVisit = true) :
    s.waitingForPresenceConfirmation = true ∧
      ∃ c, findChickenByTag s.currentChicken = some c ∧
        e = Event.chickenVisit c.name c.number (usub now s.chickenEnterTime / 1000) now := by
  by_cases hf : s.waitingForPresenceConfirmation = true ∧ usub now s.lastResetTime > 8000
  · rw [departureCheck_events s now hf] at he
    refine ⟨hf.1, ?_⟩
    by_cases hm : s.multiChickenMode = true
    · simp [hm] at he
      subst he
      rw [publishNestStatus_isVisit] at hv
      exact absurd hv (by decide)
    · cases hc : findChickenByTag s.currentChicken with
      | none => simp [hm, hc] at he
      | some c =>
        simp [hm, hc] at he
        rcases he with he | he
        · exact ⟨c, rfl, he⟩
        · subst he
          rw [publishNestStatus_isVisit] at hv
          exact absurd hv (by decide)
  · unfold departureCheck at he
    rw [if_neg hf] at he
    simp at he

/-- The entry time after a reading: the time of the reading when it changes the
occupant, the old entry time otherwise. -/
theorem handleReading_enterTime (s : State) (x : String) (now : Nat) (h : Inv s)
    (hx : isValidChicken x = true) :
    (handleReading s x now).1.nestOccupied = true ∧
      (handleReading s x now).1.chickenEnterTime =
        if s.nestOccupied = false ∨ s.currentChicken ≠ x then now else s.chickenEnterTime := by
  obtain ⟨c, hc⟩ := isValidChicken_eq_true.mp hx
  by_cases hocc : s.nestOccupied = true
  · by_cases hcur : s.currentChicken = x
    · subst hcur
      by_cases hm : s.multiChickenMode = true
      · by_cases hd : (s.singleChickenReadings + 1) % 4294967296 ≥ 10 ∧
            usub now s.lastMultiChickenDetection > 60000
        · rw [handleReading_demote s now c hocc hc hm hd]
          simp [resetMultiChickenDetection, hocc]
        · rw [handleReading_same_multi s now hocc hx hm hd]
          simp [hocc]
      · simp only [Bool.not_eq_true] at hm
        rw [handleReading_same_single s now hocc hx hm]
        simp [hocc]
    · obtain ⟨hd, _⟩ := detect_of_inv s x (usub now s.chickenEnterTime / 1000) h hocc hx hcur
      rw [handleReading_switch s x now hocc hx hcur hd]
      simp [multiState, hocc, hcur]
  · simp only [Bool.not_eq_true] at hocc
    rw [handleReading_enter s x now c hc hocc]
    simp [hocc]

/-- While the nest is occupied `chickenEnterTime` is the `occupantSince` of the
history. -/
theorem traced_enterTime {t : Nat} {d : Device} {h : History} (ht : TracedAt t d h) :
    d.eng.nestOccupied = true → h.occupantSince = some d.eng.chickenEnterTime := by
  induction ht with
  | boot => intro h0; exact absurd h0 (by decide)
  | @pass t d h i hprev _ _ ih =>
    intro hocc
    have hi := (reachable_inv (traced_reachable hprev)).1
    have hti := timers_inv d i.now hi
    rw [loop_state] at hocc ⊢
    unfold track
    by_cases hx : isValidChicken (tagRead d i) = true
    · obtain ⟨_, he⟩ := handleReading_enterTime (timers d i.now) (tagRead d i) i.now hti hx
      rw [he]
      by_cases h0 : (timers d i.now).nestOccupied = false
      · simp [hx, h0]
      · by_cases hc : (timers d i.now).currentChicken = tagRead d i
        · simp only [hx, h0, hc]
          simp only [Bool.not_eq_false] at h0
          rcases timers_cases d i.now with ⟨h1, _⟩ | ⟨r, w, p, e⟩
          · rw [h1] at h0; exact absurd h0 (by decide)
          · rw [e] at h0 ⊢
            simpa using ih h0
        · simp [hx, h0, hc]
    · simp only [Bool.not_eq_true] at hx
      rw [handleReading_ignore _ _ _ hx] at hocc ⊢
      have hocc' : (timers d i.now).nestOccupied = true := hocc
      simp only [hx, hocc']
      rcases timers_cases d i.now with ⟨h1, _⟩ | ⟨r, w, p, e⟩
      · rw [h1] at hocc'; exact absurd hocc' (by decide)
      · rw [e] at hocc' ⊢
        simpa using ih hocc'

/-! ## Reset pulses -/

theorem publishNestStatus_isReset (s : State) (now : Nat) (a b : String) (n : Int) :
    (publishNestStatus s now a b n).isReset = false := by
  unfold publishNestStatus
  split_ifs <;> rfl

theorem heartbeat_no_reset (d : Device) (now : Nat) :
    ∀ e ∈ (heartbeat d now).2, e.isReset = false := by
  unfold heartbeat
  dsimp only
  split_ifs
  · intro e he
    simp at he
    rcases he with he | he <;> subst he
    · exact publishNestStatus_isReset _ _ _ _ _
    · rfl
  · intro e he
    simp at he
    rcases he with he | he <;> subst he
    · exact publishNestStatus_isReset _ _ _ _ _
    · rfl
  · intro e he
    cases hc : findChickenByTag d.eng.currentChicken with
    | none =>
      simp [hc] at he
      subst he
      rfl
    | some c =>
      simp [hc] at he
      rcases he with he | he <;> subst he
      · exact publishNestStatus_isReset _ _ _ _ _
      · rfl
  · intro e he
    simp at he

theorem departureCheck_no_reset (s : State) (now : Nat) :
    ∀ e ∈ (departureCheck s now).2, e.isReset = false := by
  intro e he
  by_cases hf : s.waitingForPresenceConfirmation = true ∧ usub now s.lastResetTime > 8000
  · rw [departureCheck_events s now hf] at he
    by_cases hm : s.multiChickenMode = true
    · simp [hm] at he
      subst he
      exact publishNestStatus_isReset _ _ _ _ _
    · cases hc : findChickenByTag s.currentChicken with
      | none => simp [hm, hc] at he
      | some c =>
        simp [hm, hc] at he
        rcases he with he | he <;> subst he
        · rfl
        · exact publishNestStatus_isReset _ _ _ _ _
  · unfold departureCheck at he
    rw [if_neg hf] at he
    simp at he

theorem handleReading_no_reset (s : State) (x : String) (now : Nat) (h : Inv s) :
    ∀ e ∈ (handleReading s x now).2, e.isReset = false := by
  intro e he
  by_cases hx : isValidChicken x = true
  · obtain ⟨c, hc⟩ := isValidChicken_eq_true.mp hx
    by_cases hocc : s.nestOccupied = true
    · by_cases hcur : s.currentChicken = x
      · subst hcur
        by_cases hm : s.multiChickenMode = true
        · by_cases hd : (s.singleChickenReadings + 1) % 4294967296 ≥ 10 ∧
              usub now s.lastMultiChickenDetection > 60000
          · rw [handleReading_demote s now c hocc hc hm hd] at he
            simp at he
            subst he
            exact publishNestStatus_isReset _ _ _ _ _
          · rw [handleReading_same_multi s now hocc hx hm hd] at he
            simp at he
        · simp only [Bool.not_eq_true] at hm
          rw [handleReading_same_single s now hocc hx hm] at he
          simp at he
      · obtain ⟨hd, _⟩ := detect_of_inv s x (usub now s.chickenEnterTime / 1000) h hocc hx hcur
        rw [handleReading_switch s x now hocc hx hcur hd] at he
        simp at he
        subst he
        exact publishNestStatus_isReset _ _ _ _ _
    · simp only [Bool.not_eq_true] at hocc
      rw [handleReading_enter s x now c hc hocc] at he
      simp at he
      subst he
      exact publishNestStatus_isReset _ _ _ _ _
  · simp only [Bool.not_eq_true] at hx
    rw [handleReading_ignore s x now hx] at he
    simp at he

/-- The reset pulse is among the records of a pass exactly when the presence
check of the pass fires. -/
theorem loop_reset_iff (d : Device) (i : Input) (hi : Inv d.eng) :
    Event.readerReset ∈ (loop d i).2 ↔
      (d.eng.nestOccupied = true ∧ usub i.now d.eng.lastPresenceCheck > 30000) := by
  have hr : Event.readerReset.isReset = true := rfl
  have hnot : ∀ l : List Event, (∀ e ∈ l, e.isReset = false) → Event.readerReset ∉ l := by
    intro l hl hmem
    have := hl _ hmem
    rw [hr] at this
    exact absurd this (by decide)
  rw [loop_events]
  simp only [List.mem_append]
  constructor
  · rintro (((he | he) | he) | he)
    · exact absurd he (hnot _ (heartbeat_no_reset d i.now))
    · unfold presenceCheck at he
      rw [heartbeat_eng] at he
      by_contra hc
      rw [if_neg hc] at he
      simp at he
    · exact absurd he (hnot _ (departureCheck_no_reset _ i.now))
    · exact absurd he (hnot _ (handleReading_no_reset _ _ i.now (timers_inv d i.now hi)))
  · intro hc
    left; left; right
    unfold presenceCheck
    rw [heartbeat_eng, if_pos hc]
    simp

/-! ## Frame decoder -/

theorem extractTagID_framed (r : String)
    (h : isFramed (normalize r) ∧ (framedTag (normalize r)).length ≥ 8 ∧
      (framedTag (normalize r)).length ≤ 16) :
    extractTagID r = String.mk (framedTag (normalize r)) := by
  unfold extractTagID
  unfold isFramed normalize at h
  simp only []
  rw [if_pos ⟨h.1, h.2⟩]
  rfl

theorem extractTagID_fallback (r : String)
    (h : ¬ (isFramed (normalize r) ∧ (framedTag (normalize r)).length ≥ 8 ∧
      (framedTag (normalize r)).length ≤ 16)) :
    extractTagID r = fallbackTag (normalize r) := by
  unfold extractTagID fallbackTag
  unfold isFramed normalize at h
  simp only []
  rw [if_neg (fun hc => h ⟨hc.1, hc.2⟩)]
  rfl

theorem digit_facts :
    ∀ n, n < 16 → isSpace (hexDigit n) = false ∧ toUpper (hexDigit n) = upperDigit n ∧
      isHexChar (upperDigit n) = true ∧ hexVal (upperDigit n) = some n := by
  decide

theorem dropWhile_head {α : Type} (p : α → Bool) (a : α) (l : List α) (h : p a = false) :
    (a :: l).dropWhile p = a :: l := by
  simp [List.dropWhile, h]

theorem trim_of_ends (a b : Char) (l : List Char) (ha : isSpace a = false)
    (hb : isSpace b = false) : trim (a :: (l ++ [b])) = a :: (l ++ [b]) := by
  unfold trim
  rw [dropWhile_head _ _ _ ha]
  have : (a :: (l ++ [b])).reverse = b :: (l.reverse ++ [a]) := by simp
  rw [this, dropWhile_head _ _ _ hb]
  simp

theorem hexOfByte_upper (b : Nat) (hb : b < 256) :
    (hexOfByte b).map toUpper = [upperDigit (b / 16), upperDigit (b % 16)] := by
  unfold hexOfByte
  split_ifs with h
  · have h1 : b / 16 = 0 := by omega
    have h2 : b % 16 = b := by omega
    rw [h1, h2]
    simp only [List.map_cons, List.map_nil]
    rw [(digit_facts b h).2.1]
    rfl
  · simp only [List.map_cons, List.map_nil]
    rw [(digit_facts (b / 16) (by omega)).2.1, (digit_facts (b % 16) (by omega)).2.1]

theorem hexRender_upper (bytes : List Nat) : (hexRender bytes).map toUpper = hexUpper bytes := by
  induction bytes with
  | nil => rfl
  | cons b rest ih =>
    unfold hexRender hexUpper
    rw [List.map_append, ih, hexOfByte_upper _ (Nat.mod_lt _ (by decide))]
    rfl

theorem hexRender_no_space (bytes : List Nat) : ∀ c ∈ hexRender bytes, isSpace c = false := by
  induction bytes with
  | nil => intro c hc; simp [hexRender] at hc
  | cons b rest ih =>
    intro c hc
    unfold hexRender at hc
    rcases List.mem_append.mp hc with hc | hc
    · have hb : b % 256 < 256 := Nat.mod_lt _ (by decide)
      unfold hexOfByte at hc
      split_ifs at hc with h
      · simp at hc
        rcases hc with hc | hc <;> subst hc
        · rfl
        · exact (digit_facts _ h).1
      · simp at hc
        rcases hc with hc | hc <;> subst hc
        · exact (digit_facts _ (by omega)).1
        · exact (digit_facts _ (by omega)).1
    · exact ih c hc

theorem trim_of_no_space (l : List Char) (h : ∀ c ∈ l, isSpace c = false) : trim l = l := by
  unfold trim
  have h1 : l.dropWhile isSpace = l := by
    cases l with
    | nil => rfl
    | cons a t => exact dropWhile_head _ _ _ (h a (List.mem_cons_self _ _))
  rw [h1]
  have h2 : l.reverse.dropWhile isSpace = l.reverse := by
    cases hr : l.reverse with
    | nil => rfl
    | cons a t =>
      have : a ∈ l := by
        have : a ∈ l.reverse := by rw [hr]; exact List.mem_cons_self _ _
        exact List.mem_reverse.mp this
      exact dropWhile_head _ _ _ (h a this)
  rw [h2, List.reverse_reverse]

/-- After `trim()` and `toUpperCase()` the text built from the bytes read is
their upper-case hex rendering. -/
theorem normalize_rawOf (bytes : List Nat) : normalize (rawOf bytes) = hexUpper bytes := by
  unfold normalize rawOf
  rw [trim_of_no_space _ (hexRender_no_space bytes), hexRender_upper]

theorem hexUpper_append (a b : List Nat) : hexUpper (a ++ b) = hexUpper a ++ hexUpper b := by
  induction a with
  | nil => rfl
  | cons x rest ih => simp [hexUpper, ih]

theorem hexUpper_length (bytes : List Nat) : (hexUpper bytes).length = 2 * bytes.length := by
  induction bytes with
  | nil => rfl
  | cons x rest ih => simp [hexUpper, ih]; omega

theorem hexUpper_hex (bytes : List Nat) : ∀ c ∈ hexUpper bytes, isHexChar c = true := by
  induction bytes with
  | nil => intro c hc; simp [hexUpper] at hc
  | cons b rest ih =>
    intro c hc
    have hb : b % 256 < 256 := Nat.mod_lt _ (by decide)
    simp only [hexUpper, List.mem_cons] at hc
    rcases hc with hc | hc | hc
    · subst hc; exact (digit_facts _ (by omega)).2.2.1
    · subst hc; exact (digit_facts _ (by omega)).2.2.1
    · exact ih c hc

theorem hexUpper_filter (bytes : List Nat) : (hexUpper bytes).filter isHexChar = hexUpper bytes :=
  List.filter_eq_self.mpr (hexUpper_hex bytes)

theorem strtol16_upper (b : Nat) (hb : b < 256) :
    strtol16 (upperDigit (b / 16)) (upperDigit (b % 16)) = b := by
  unfold strtol16
  rw [(digit_facts (b / 16) (by omega)).2.2.2, (digit_facts (b % 16) (by omega)).2.2.2]
  show 16 * (b / 16) + b % 16 = b
  omega

/-- Decoding the hex pairs of the bytes between the markers gives their
printable characters. -/
theorem decodePairs_hexUpper (mid : List Nat) (hb : ∀ b ∈ mid, b < 256) :
    decodePairs (hexUpper mid) = payloadText mid := by
  induction mid with
  | nil => rfl
  | cons b rest ih =>
    have hb0 : b < 256 := hb b (List.mem_cons_self _ _)
    have hmod : b % 256 = b := Nat.mod_eq_of_lt hb0
    have ih1 := ih (fun x hx => hb x (List.mem_cons_of_mem _ hx))
    unfold hexUpper decodePairs payloadText
    rw [hmod, strtol16_upper b hb0, ih1]
    unfold payloadText
    by_cases hp : 32 ≤ b ∧ b ≤ 126
    · have : printable b = true := by unfold printable; simp [hp.1, hp.2]
      rw [if_pos hp, List.filter_cons_of_pos this]
      rfl
    · have : ¬ (printable b = true) := by
        unfold printable
        simp only [Bool.and_eq_true, decide_eq_true_eq]
        exact hp
      rw [if_neg hp, List.filter_cons_of_neg this]

theorem hexUpper_frame (mid : List Nat) :
    hexUpper (2 :: (mid ++ [3])) = '0' :: '2' :: (hexUpper mid ++ ['0', '3']) := by
  show upperDigit ((2 % 256) / 16) :: upperDigit ((2 % 256) % 16) :: hexUpper (mid ++ [3]) = _
  rw [hexUpper_append]
  rfl

theorem isFramed_frame (m : List Char) (hm : 2 ≤ m.length) :
    isFramed ('0' :: '2' :: (m ++ ['0', '3'])) := by
  unfold isFramed
  refine ⟨?_, ?_, ?_⟩
  · simp [List.isPrefixOf]
  · rw [List.isSuffixOf_iff_suffix]
    exact ⟨'0' :: '2' :: m, by simp⟩
  · simp
    omega

theorem substring_frame (m : List Char) :
    substring ('0' :: '2' :: (m ++ ['0', '3'])) 2 (('0' :: '2' :: (m ++ ['0', '3'])).length - 2) =
      m := by
  unfold substring
  have hl : ('0' :: '2' :: (m ++ ['0', '3'])).length - 2 = m.length + 2 := by simp
  rw [hl, if_neg (by omega)]
  show List.drop 2 (List.take (m.length + 2) ('0' :: '2' :: (m ++ ['0', '3']))) = m
  simp

theorem padToEight_nil (n : Nat) : padToEight n [] = [] := by
  cases n <;> simp [padToEight]

theorem padToEight_eq (n : Nat) :
    ∀ s : List Char, 0 < s.length → 8 ≤ s.length + n → padToEight n s = padLeft8 s := by
  induction n with
  | zero =>
    intro s _ h8
    unfold padToEight padLeft8
    have : 8 - s.length = 0 := by omega
    rw [this]
    rfl
  | succ n ih =>
    intro s hpos h8
    unfold padToEight
    by_cases hlt : s.length < 8
    · rw [if_pos ⟨hlt, hpos⟩, ih ('0' :: s) (by simp) (by simp; omega)]
      unfold padLeft8
      have : 8 - s.length = (8 - ('0' :: s).length) + 1 := by simp; omega
      rw [this, List.replicate_succ']
      simp
    · rw [if_neg (fun hc => hlt hc.1)]
      unfold padLeft8
      have : 8 - s.length = 0 := by omega
      rw [this]
      rfl

theorem padLeft8_length (s : List Char) : (padLeft8 s).length = max 8 s.length := by
  unfold padLeft8
  simp
  omega

/-- The framed branch on a frame `02 .. 03`: the tag digits of the payload text,
padded. -/
theorem framedTag_frame (mid : List Nat) (hb : ∀ b ∈ mid, b < 256) :
    framedTag (hexUpper (2 :: (mid ++ [3]))) = padToEight 8 (tagDigits (payloadText mid)) := by
  rw [hexUpper_frame]
  unfold framedTag
  simp only []
  rw [substring_frame, decodePairs_hexUpper mid hb]
  rfl

/-- The decoder on a frame `02 .. 03` whose payload has between 1 and 16 tag
digits. -/
theorem extractTagID_frame (mid : List Nat) (hb : ∀ b ∈ mid, b < 256)
    (h1 : 1 ≤ (tagDigits (payloadText mid)).length)
    (h16 : (tagDigits (payloadText mid)).length ≤ 16) :
    extractTagID (rawOf (2 :: (mid ++ [3]))) = String.mk (padLeft8 (tagDigits (payloadText mid))) := by
  have hpad : padToEight 8 (tagDigits (payloadText mid)) = padLeft8 (tagDigits (payloadText mid)) :=
    padToEight_eq 8 _ h1 (by omega)
  have hmid : 1 ≤ mid.length := by
    by_contra h0
    have : mid = [] := List.length_eq_zero.mp (by omega)
    subst this
    simp [tagDigits, payloadText] at h1
  have hft := framedTag_frame mid hb
  rw [hpad] at hft
  have hacc : isFramed (normalize (rawOf (2 :: (mid ++ [3])))) ∧
      (framedTag (normalize (rawOf (2 :: (mid ++ [3]))))).length ≥ 8 ∧
      (framedTag (normalize (rawOf (2 :: (mid ++ [3]))))).length ≤ 16 := by
    rw [normalize_rawOf, hft, padLeft8_length]
    refine ⟨?_, le_max_left _ _, max_le (by decide) h16⟩
    rw [hexUpper_frame]
    exact isFramed_frame _ (by rw [hexUpper_length]; omega)
  rw [extractTagID_framed _ hacc, normalize_rawOf, hft]

theorem mk_eq_empty (l : List Char) : String.mk l = "" ↔ l = [] := by
  constructor
  · intro h
    have := congrArg String.data h
    simpa using this
  · intro h
    rw [h]

theorem substring_length (l : List Char) :
    substring l 6 16 = (l.drop 6).take 10 ∧ (substring l 6 16).length = min 10 (l.length - 6) := by
  unfold substring
  rw [if_neg (by decide), List.drop_take]
  exact ⟨rfl, by simp⟩

/-- The fallback on the hex rendering of `n` bytes, whose cleaned text is the
rendering itself. -/
theorem fallbackTag_hexUpper (bytes : List Nat) :
    fallbackTag (hexUpper bytes) =
      if 2 * bytes.length < 8 ∨ 2 * bytes.length > 20 then ""
      else if 2 * bytes.length ≥ 10 then String.mk (((hexUpper bytes).drop 6).take 10)
      else String.mk (hexUpper bytes) := by
  unfold fallbackTag
  rw [hexUpper_filter, hexUpper_length]
  unfold MIN_TAG_LENGTH MAX_TAG_LENGTH
  by_cases h1 : 2 * bytes.length < 8 ∨ 2 * bytes.length > 20
  · rw [if_pos h1, if_pos h1]
  · rw [if_neg h1, if_neg h1]
    by_cases h2 : 2 * bytes.length ≥ 10
    · rw [if_pos h2, if_pos h2, (substring_length _).1]
    · rw [if_neg h2, if_neg h2]

theorem filter_hex_printable (text : List Char) :
    (payloadText (text.map Char.toNat)).filter isHexChar = text.filter isHexChar := by
  induction text with
  | nil => rfl
  | cons c rest ih =>
    have ih1 := ih
    unfold payloadText at ih1 ⊢
    simp only [List.map_cons]
    by_cases hp : printable c.toNat = true
    · rw [List.filter_cons_of_pos hp]
      simp only [List.map_cons, Char.ofNat_toNat]
      by_cases hh : isHexChar c = true
      · rw [List.filter_cons_of_pos hh, List.filter_cons_of_pos hh, ih1]
      · rw [List.filter_cons_of_neg hh, List.filter_cons_of_neg hh, ih1]
    · rw [List.filter_cons_of_neg hp]
      have hh : ¬ (isHexChar c = true) := by
        intro hc
        apply hp
        unfold isHexChar at hc
        unfold printable
        simp only [Bool.or_eq_true, Bool.and_eq_true, decide_eq_true_eq] at hc ⊢
        omega
      rw [List.filter_cons_of_neg hh, ih1]

/-! ## The read validator in a run -/

theorem string_length_zero {s : String} : s.length = 0 ↔ s = "" := by
  cases s with
  | mk l =>
    constructor
    · intro h
      have : l = [] := List.length_eq_zero.mp h
      rw [this]
    · intro h
      rw [h]
      rfl

/-- With a non-negative counter the validator hands on every decoded tag. -/
theorem readRFID_accepts (d : Device) (now : Nat) (bytes : List Nat)
    (h0 : 0 ≤ d.consecutiveValidReads) (hb : bytes ≠ []) (htag : decodedTag bytes ≠ "") :
    (readRFIDWithValidation d now bytes).1 = decodedTag bytes ∧
      1 ≤ (readRFIDWithValidation d now bytes).2.consecutiveValidReads := by
  have hl : ¬ (decodedTag bytes).length = 0 := fun h => htag (string_length_zero.mp h)
  unfold decodedTag at hl htag ⊢
  unfold readRFIDWithValidation
  rw [if_neg hb]
  dsimp only
  rw [if_neg hl]
  by_cases hsame : extractTagID (String.mk (hexRender (List.take RFID_BUFFER_SIZE bytes))) =
      d.lastValidTag ∧ usub now d.lastValidReadTime < 2000
  · rw [if_pos hsame]
    dsimp only
    rw [if_pos (by omega)]
    exact ⟨rfl, by dsimp only; omega⟩
  · rw [if_neg hsame]
    dsimp only
    rw [if_pos (by omega)]
    exact ⟨rfl, by dsimp only; omega⟩

/-- One call of the validator raises the counter by at most one and keeps it
non-negative. -/
theorem readRFID_counter (d : Device) (now : Nat) (bytes : List Nat)
    (h0 : 0 ≤ d.consecutiveValidReads) :
    0 ≤ (readRFIDWithValidation d now bytes).2.consecutiveValidReads ∧
      (readRFIDWithValidation d now bytes).2.consecutiveValidReads ≤
        d.consecutiveValidReads + 1 := by
  unfold readRFIDWithValidation
  dsimp only
  split_ifs <;> dsimp only <;> omega

theorem heartbeat_counter (d : Device) (now : Nat) :
    (heartbeat d now).1.consecutiveValidReads = d.consecutiveValidReads := by
  unfold heartbeat
  dsimp only
  split_ifs <;> rfl

theorem presenceCheck_counter (d : Device) (now : Nat) :
    (presenceCheck d now).1.consecutiveValidReads = d.consecutiveValidReads ∨
      (presenceCheck d now).1.consecutiveValidReads = 0 := by
  unfold presenceCheck
  split_ifs
  · right; rfl
  · left; rfl

theorem loop_counter (d : Device) (i : Input) (h0 : 0 ≤ d.consecutiveValidReads) :
    0 ≤ (loop d i).1.consecutiveValidReads ∧
      (loop d i).1.consecutiveValidReads ≤ d.consecutiveValidReads + 1 := by
  have hp : 0 ≤ (presenceCheck (heartbeat d i.now).1 i.now).1.consecutiveValidReads ∧
      (presenceCheck (heartbeat d i.now).1 i.now).1.consecutiveValidReads ≤
        d.consecutiveValidReads := by
    rcases presenceCheck_counter (heartbeat d i.now).1 i.now with h | h
    · rw [h, heartbeat_counter]; exact ⟨h0, le_refl _⟩
    · rw [h]; exact ⟨le_refl _, h0⟩
  unfold loop
  dsimp only
  split_ifs
  · dsimp only
    omega
  · dsimp only
    have := readRFID_counter
      { (presenceCheck (heartbeat d i.now).1 i.now).1 with
          eng := (departureCheck (presenceCheck (heartbeat d i.now).1 i.now).1.eng i.now).1 }
      i.now i.bytes hp.1
    dsimp only at this
    omega

/-- In a reachable device the validator's counter is non-negative and at most
the clock value: it grows by at most one per pass. -/
theorem reachable_counter {t : Nat} {d : Device} (h : ReachableAt t d) :
    0 ≤ d.consecutiveValidReads ∧ d.consecutiveValidReads ≤ t := by
  induction h with
  | boot => exact ⟨le_refl _, le_refl _⟩
  | @pass t d i _ ht _ ih =>
    have := loop_counter d i ih.1
    refine ⟨this.1, ?_⟩
    have h1 : (t : Int) + 1 ≤ i.now := by exact_mod_cast ht
    omega

/-! ## Records of a chicken change -/

theorem publishNestStatus_isChange (s : State) (now : Nat) (a b : String) (n : Int) :
    (publishNestStatus s now a b n).isChange = false := by
  unfold publishNestStatus
  split_ifs <;> rfl

theorem heartbeat_no_change (d : Device) (now : Nat) :
    ∀ e ∈ (heartbeat d now).2, e.isChange = false := by
  unfold heartbeat
  dsimp only
  split_ifs
  · intro e he
    simp at he
    rcases he with he | he <;> subst he
    · exact publishNestStatus_isChange _ _ _ _ _
    · rfl
  · intro e he
    simp at he
    rcases he with he | he <;> subst he
    · exact publishNestStatus_isChange _ _ _ _ _
    · rfl
  · intro e he
    cases hc : findChickenByTag d.eng.currentChicken with
    | none =>
      simp [hc] at he
      subst he
      rfl
    | some c =>
      simp [hc] at he
      rcases he with he | he <;> subst he
      · exact publishNestStatus_isChange _ _ _ _ _
      · rfl
  · intro e he
    simp at he

theorem presenceCheck_no_change (d : Device) (now : Nat) :
    ∀ e ∈ (presenceCheck d now).2, e.isChange = false := by
  unfold presenceCheck
  split_ifs
  · intro e he
    simp at he
    subst he
    rfl
  · intro e he
    simp at he

theorem departureCheck_no_change (s : State) (now : Nat) :
    ∀ e ∈ (departureCheck s now).2, e.isChange = false := by
  intro e he
  by_cases hf : s.waitingForPresenceConfirmation = true ∧ usub now s.lastResetTime > 8000
  · rw [departureCheck_events s now hf] at he
    by_cases hm : s.multiChickenMode = true
    · simp [hm] at he
      subst he
      exact publishNestStatus_isChange _ _ _ _ _
    · cases hc : findChickenByTag s.currentChicken with
      | none => simp [hm, hc] at he
      | some c =>
        simp [hm, hc] at he
        rcases he with he | he <;> subst he
        · rfl
        · exact publishNestStatus_isChange _ _ _ _ _
  · unfold departureCheck at he
    rw [if_neg hf] at he
    simp at he

/-- Under the invariant `handleReading` publishes no change record: the branch
"normal chicken change" is not taken. -/
theorem handleReading_no_change (s : State) (x : String) (now : Nat) (h : Inv s) :
    ∀ e ∈ (handleReading s x now).2, e.isChange = false := by
  intro e he
  by_cases hx : isValidChicken x = true
  · obtain ⟨c, hc⟩ := isValidChicken_eq_true.mp hx
    by_cases hocc : s.nestOccupied = true
    · by_cases hcur : s.currentChicken = x
      · subst hcur
        by_cases hm : s.multiChickenMode = true
        · by_cases hd : (s.singleChickenReadings + 1) % 4294967296 ≥ 10 ∧
              usub now s.lastMultiChickenDetection > 60000
          · rw [handleReading_demote s now c hocc hc hm hd] at he
            simp at he
            subst he
            exact publishNestStatus_isChange _ _ _ _ _
          · rw [handleReading_same_multi s now hocc hx hm hd] at he
            simp at he
        · simp only [Bool.not_eq_true] at hm
          rw [handleReading_same_single s now hocc hx hm] at he
          simp at he
      · obtain ⟨hd, _⟩ := detect_of_inv s x (usub now s.chickenEnterTime / 1000) h hocc hx hcur
        rw [handleReading_switch s x now hocc hx hcur hd] at he
        simp at he
        subst he
        exact publishNestStatus_isChange _ _ _ _ _
    · simp only [Bool.not_eq_true] at hocc
      rw [handleReading_enter s x now c hc hocc] at he
      simp at he
      subst he
      exact publishNestStatus_isChange _ _ _ _ _
  · simp only [Bool.not_eq_true] at hx
    rw [handleReading_ignore s x now hx] at he
    simp at he

theorem loop_no_change (d : Device) (i : Input) (hi : Inv d.eng) :
    ∀ e ∈ (loop d i).2, e.isChange = false := by
  intro e he
  rw [loop_events] at he
  simp only [List.mem_append] at he
  rcases he with ((he | he) | he) | he
  · exact heartbeat_no_change d i.now e he
  · exact presenceCheck_no_change _ i.now e he
  · exact departureCheck_no_change _ i.now e he
  · exact handleReading_no_change _ _ i.now (timers_inv d i.now hi) e he

theorem run_no_change (ins : List Input) :
    ∀ d : Device, Inv d.eng → ∀ e ∈ (run d ins).2, e.isChange = false := by
  induction ins with
  | nil => intro d _ e he; simp [run] at he
  | cons i rest ih =>
    intro d hi e he
    simp only [run, List.mem_append] at he
    rcases he with he | he
    · exact loop_no_change d i hi e he
    · exact ih (loop d i).1 (loop_inv d i hi) e he

/-- A visit record of a pass is published by the departure check of the pass,
which has fired and left the nest empty. -/
theorem loop_visit (d : Device) (i : Input) (hi : Inv d.eng) (e : Event)
    (he : e ∈ (loop d i).2) (hv : e.isVisit = true) :
    e ∈ (departureCheck (presenceCheck (heartbeat d i.now).1 i.now).1.eng i.now).2 ∧
      (timers d i.now).nestOccupied = false := by
  have hno : ∀ l : List Event, (∀ x ∈ l, x.isVisit = false) → e ∉ l := by
    intro l hl hmem
    have := hl _ hmem
    rw [hv] at this
    exact absurd this (by decide)
  rw [loop_events] at he
  simp only [List.mem_append] at he
  rcases he with ((he | he) | he) | he
  · exact absurd he (hno _ (heartbeat_no_visit d i.now))
  · exact absurd he (hno _ (presenceCheck_no_visit _ i.now))
  · refine ⟨he, ?_⟩
    unfold timers
    rw [departureCheck_state]
    by_cases hf : (presenceCheck (heartbeat d i.now).1 i.now).1.eng.waitingForPresenceConfirmation
        = true ∧
        usub i.now (presenceCheck (heartbeat d i.now).1 i.now).1.eng.lastResetTime > 8000
    · rw [if_pos hf]
      rfl
    · unfold departureCheck at he
      rw [if_neg hf] at he
      simp at he
  · exact absurd he (hno _ (handleReading_no_visit _ _ i.now (timers_inv d i.now hi)))

/-! ## Runs of several passes -/

theorem reachable_run (ins : List Input) :
    ∀ (t : Nat) (d : Device), ReachableAt t d → validClock t ins = true →
      ReachableAt (endClock t ins) (run d ins).1 := by
  induction ins with
  | nil => intro t d h _; exact h
  | cons i rest ih =>
    intro t d h hv
    simp only [validClock, Bool.and_eq_true, decide_eq_true_eq] at hv
    exact ih i.now (loop d i).1 (ReachableAt.pass i h hv.1.1 hv.1.2) hv.2

theorem nestNine_reachable : ReachableAt 74000 nestNine :=
  reachable_run ((tenFrames "2003EF40D").take 9) 11000 nestTwo nestTwo_reachable (by decide)

set_option maxRecDepth 1000000 in
/-- The state of `nestNine`: Ronny is current, nine readings are counted and the
last multi-chicken evidence dates from 11000 ms. -/
theorem nestNine_state :
    nestNine.eng.multiChickenMode = true ∧ nestNine.eng.currentChicken = "2003EF40D" ∧
      nestNine.eng.singleChickenReadings = 9 ∧
      nestNine.eng.lastMultiChickenDetection = 11000 := by
  decide

/-! ## Frames without a tag digit -/

theorem tagDigits_nil (text : List Char) (hz : ∀ c ∈ text.filter isHexChar, c = '0') :
    tagDigits text = [] := by
  unfold tagDigits
  rw [List.dropWhile_eq_nil_iff]
  intro c hc
  simp [hz c hc]

theorem extractTagID_zero_frame (mid : List Nat) (hb : ∀ b ∈ mid, b < 256)
    (hz : tagDigits (payloadText mid) = []) :
    framedTag (normalize (rawOf (2 :: (mid ++ [3])))) = [] ∧
      extractTagID (rawOf (2 :: (mid ++ [3]))) = fallbackTag (hexUpper (2 :: (mid ++ [3]))) := by
  have hf : framedTag (normalize (rawOf (2 :: (mid ++ [3])))) = [] := by
    rw [normalize_rawOf, framedTag_frame mid hb, hz, padToEight_nil]
  refine ⟨hf, ?_⟩
  rw [extractTagID_fallback, normalize_rawOf]
  rw [hf]
  intro hc
  have := hc.2.1
  simp at this

theorem fallbackTag_frame_ne (mid : List Nat) :
    fallbackTag (hexUpper (2 :: (mid ++ [3]))) ≠ "00000000" := by
  rw [fallbackTag_hexUpper]
  have hlen : (2 :: (mid ++ [3])).length = mid.length + 2 := by simp
  rw [hlen]
  split_ifs with h1 h2
  · decide
  · intro h
    have hd := congrArg String.data h
    have hl := congrArg List.length hd
    rw [List.length_take, List.length_drop, hexUpper_length, hlen] at hl
    have h8 : ("00000000" : String).data.length = 8 := by decide
    rw [h8, Nat.min_def] at hl
    have h5 : mid.length = 5 := by
      split_ifs at hl
      · omega
      · omega
    match mid, h5 with
    | [a, b, c, d, e], _ =>
      simp [hexUpper] at hd
      exact absurd hd.2.2.2.2.2.2.2 (by decide)
  · intro h
    have hd := congrArg String.data h
    rw [hexUpper_frame] at hd
    simp at hd

/-! ## Claims

Statements about a check or about the handling of a reading are made for the
occupancy state of a reachable device.  By `reachable_checked`,
`reachable_timers` and `loop_state` these are the states in which
`departureCheck` and `handleReading` run in a pass of `loop`. -/

/-- C1: in every reachable state in mode SINGLE(X) (nest occupied, not in
multi-chicken mode, `currentChicken = X`), handling an accepted reading of a
known tag `Y` different from `X`, at any time `now` and so whatever the elapsed
session time, leaves the engine in MULTI with the list of detected chickens
exactly `X, Y` (`chickenCount = 2`, the other slots empty), and publishes exactly
one record, the "multiple" status naming both; no visit and no change record is
published. -/
theorem single_other_tag_enters_multi (t : Nat) (d : Device) (now : Nat) (Y : String)
    (hr : ReachableAt t d) (hocc : d.eng.nestOccupied = true)
    (hsingle : d.eng.multiChickenMode = false) (hY : isValidChicken Y = true)
    (hne : d.eng.currentChicken ≠ Y) :
    (handleReading d.eng Y now).1.nestOccupied = true ∧
    (handleReading d.eng Y now).1.multiChickenMode = true ∧
    (handleReading d.eng Y now).1.chickenCount = 2 ∧
    (handleReading d.eng Y now).1.detectedChickens =
      d.eng.currentChicken :: Y :: List.replicate 13 "" ∧
    ∃ cx cy, findChickenByTag d.eng.currentChicken = some cx ∧ findChickenByTag Y = some cy ∧
      (handleReading d.eng Y now).2 =
        [Event.nestStatus "multiple" (cx.name ++ ", " ++ cy.name) [cx.name, cy.name] 2 0
          (cx.name ++ "," ++ cy.name) now] := by
  have hi := (reachable_inv hr).1
  obtain ⟨hq, hc, _, _, hd⟩ := hi.single_window hsingle
  have hX := hi.occupied_valid hocc
  obtain ⟨cx, hcx⟩ := isValidChicken_eq_true.mp hX
  obtain ⟨cy, hcy⟩ := isValidChicken_eq_true.mp hY
  have e := detect_single d.eng Y (usub now d.eng.chickenEnterTime / 1000) hq hc hd hX hY hne
  have hsw := handleReading_switch d.eng Y now hocc hY hne (by rw [e])
  have hms : multiState d.eng Y now =
      { d.eng with quickChanges := if usub now d.eng.chickenEnterTime / 1000 < 10 then 1 else 0,
                   detectedChickens := d.eng.currentChicken :: Y :: List.replicate 13 "",
                   chickenCount := 2, multiChickenMode := true,
                   lastMultiChickenDetection := now, singleChickenReadings := 0 } := by
    unfold multiState
    rw [e]
  rw [hsw, hms]
  refine ⟨hocc, rfl, rfl, rfl, cx, cy, hcx, hcy, ?_⟩
  simp [publishNestStatus, publishSimpleOccupants, hocc, joinNames_two _ _ _ cx cy hcx hcy,
    chickenNames_two _ _ cx cy hcx hcy]

/-- Instance of C1: Ronny is read at 11000 ms while Lady Kluck is alone in the nest. -/
theorem single_other_tag_enters_multi_witness :
    (handleReading nestLadyKluck.eng "2003EF40D" 11000).1.nestOccupied = true ∧
    (handleReading nestLadyKluck.eng "2003EF40D" 11000).1.multiChickenMode = true ∧
    (handleReading nestLadyKluck.eng "2003EF40D" 11000).1.chickenCount = 2 ∧
    (handleReading nestLadyKluck.eng "2003EF40D" 11000).1.detectedChickens =
      nestLadyKluck.eng.currentChicken :: "2003EF40D" :: List.replicate 13 "" ∧
    ∃ cx cy, findChickenByTag nestLadyKluck.eng.currentChicken = some cx ∧
      findChickenByTag "2003EF40D" = some cy ∧
      (handleReading nestLadyKluck.eng "2003EF40D" 11000).2 =
        [Event.nestStatus "multiple" (cx.name ++ ", " ++ cy.name) [cx.name, cy.name] 2 0
          (cx.name ++ "," ++ cy.name) 11000] :=
  single_other_tag_enters_multi 10000 nestLadyKluck 11000 "2003EF40D" nestLadyKluck_reachable
    (by decide) (by decide) (by decide) (by decide)

/-- C2: in every reachable state in mode SINGLE(X) that is waiting for the
presence confirmation, the departure check at a time `now` more than 8000 ms
after `lastResetTime` publishes exactly the visit record of X with duration
`(now - chickenEnterTime) / 1000` seconds followed by the "empty" status, and
leaves the state EMPTY with the multi-chicken window cleared.  A pass of `loop`
at `now` with no byte waiting in which neither the heartbeat nor a new presence
probe is due consists of this check alone. -/
theorem departure_of_single (t : Nat) (d : Device) (now : Nat)
    (hr : ReachableAt t d) (ht : t ≤ now) (hn : now < ULONG_MAX)
    (hocc : d.eng.nestOccupied = true) (hsingle : d.eng.multiChickenMode = false)
    (hw : d.eng.waitingForPresenceConfirmation = true)
    (hto : now - d.eng.lastResetTime > 8000) :
    (∃ cx, findChickenByTag d.eng.currentChicken = some cx ∧
      (departureCheck d.eng now).2 =
        [Event.chickenVisit cx.name cx.number ((now - d.eng.chickenEnterTime) / 1000) now,
         Event.nestStatus "empty" "" [] 0 0 cx.name now]) ∧
    (departureCheck d.eng now).1.nestOccupied = false ∧
    (departureCheck d.eng now).1.currentChicken = "" ∧
    (departureCheck d.eng now).1.chickenEnterTime = 0 ∧
    (departureCheck d.eng now).1.waitingForPresenceConfirmation = false ∧
    (departureCheck d.eng now).1.multiChickenMode = false ∧
    (departureCheck d.eng now).1.chickenCount = 0 ∧
    (departureCheck d.eng now).1.quickChanges = 0 ∧
    (departureCheck d.eng now).1.singleChickenReadings = 0 ∧
    (departureCheck d.eng now).1.lastMultiChickenDetection = 0 ∧
    (departureCheck d.eng now).1.detectedChickens = List.replicate 15 "" ∧
    (usub now d.lastHeartbeat ≤ 300000 → now - d.eng.lastPresenceCheck ≤ 30000 →
      loop d ⟨now, []⟩ =
        ({ d with eng := (departureCheck d.eng now).1 }, (departureCheck d.eng now).2)) := by
  obtain ⟨hi, hb⟩ := reachable_inv hr
  have hn' := ulong_max_lt hn
  have h1 : usub now d.eng.lastResetTime = now - d.eng.lastResetTime :=
    usub_of_le (le_trans hb.reset_le ht) hn'
  have h2 : usub now d.eng.chickenEnterTime = now - d.eng.chickenEnterTime :=
    usub_of_le (le_trans hb.enter_le ht) hn'
  have h3 : usub now d.eng.lastPresenceCheck = now - d.eng.lastPresenceCheck :=
    usub_of_le (le_trans hb.presence_le ht) hn'
  have hfire : d.eng.waitingForPresenceConfirmation = true ∧
      usub now d.eng.lastResetTime > 8000 := ⟨hw, by rw [h1]; exact hto⟩
  obtain ⟨cx, hcx⟩ := isValidChicken_eq_true.mp (hi.occupied_valid hocc)
  refine ⟨⟨cx, hcx, ?_⟩, ?_⟩
  · rw [departureCheck_events _ _ hfire, hcx, h2]
    simp [hsingle, publishChickenVisit, publishNestStatus, publishSimpleOccupants, hocc, hcx]
  · have hs : (departureCheck d.eng now).1 =
        resetMultiChickenDetection
          { d.eng with nestOccupied := false, currentChicken := "", chickenEnterTime := 0,
                       waitingForPresenceConfirmation := false } := by
      rw [departureCheck_state, if_pos hfire]
    refine ⟨by rw [hs]; rfl, by rw [hs]; rfl, by rw [hs]; rfl, by rw [hs]; rfl, by rw [hs]; rfl,
      by rw [hs]; rfl, by rw [hs]; rfl, by rw [hs]; rfl, by rw [hs]; rfl, by rw [hs]; rfl, ?_⟩
    intro hh hp
    exact loop_quiet d now hh (by rw [h3]; omega)

/-- Instance of C2: Lady Kluck, probed at 40001 ms, is declared gone at 48002 ms. -/
theorem departure_of_single_witness :
    (∃ cx, findChickenByTag probedLadyKluck.eng.currentChicken = some cx ∧
      (departureCheck probedLadyKluck.eng 48002).2 =
        [Event.chickenVisit cx.name cx.number
           ((48002 - probedLadyKluck.eng.chickenEnterTime) / 1000) 48002,
         Event.nestStatus "empty" "" [] 0 0 cx.name 48002]) ∧
    (departureCheck probedLadyKluck.eng 48002).1.nestOccupied = false ∧
    (departureCheck probedLadyKluck.eng 48002).1.currentChicken = "" ∧
    (departureCheck probedLadyKluck.eng 48002).1.chickenEnterTime = 0 ∧
    (departureCheck probedLadyKluck.eng 48002).1.waitingForPresenceConfirmation = false ∧
    (departureCheck probedLadyKluck.eng 48002).1.multiChickenMode = false ∧
    (departureCheck probedLadyKluck.eng 48002).1.chickenCount = 0 ∧
    (departureCheck probedLadyKluck.eng 48002).1.quickChanges = 0 ∧
    (departureCheck probedLadyKluck.eng 48002).1.singleChickenReadings = 0 ∧
    (departureCheck probedLadyKluck.eng 48002).1.lastMultiChickenDetection = 0 ∧
    (departureCheck probedLadyKluck.eng 48002).1.detectedChickens = List.replicate 15 "" ∧
    (usub 48002 probedLadyKluck.lastHeartbeat ≤ 300000 →
      48002 - probedLadyKluck.eng.lastPresenceCheck ≤ 30000 →
      loop probedLadyKluck ⟨48002, []⟩ =
        ({ probedLadyKluck with eng := (departureCheck probedLadyKluck.eng 48002).1 },
         (departureCheck probedLadyKluck.eng 48002).2)) :=
  departure_of_single 40001 probedLadyKluck 48002 probedLadyKluck_reachable (by decide)
    (by decide) (by decide) (by decide) (by decide) (by decide)

/-- C3, as stated, fails: with Lady Kluck and Ronny in the nest (multi-chicken
mode) and the presence probe of 41001 ms unanswered, the departure check at
49002 ms publishes the "empty" status only; no visit record is published. -/
theorem departure_of_multi_counterexample :
    probedTwo.eng.nestOccupied = true ∧ probedTwo.eng.multiChickenMode = true ∧
    probedTwo.eng.waitingForPresenceConfirmation = true ∧
    49002 - probedTwo.eng.lastResetTime > 8000 ∧
    (departureCheck probedTwo.eng 49002).2 =
      [Event.nestStatus "empty" "" [] 0 0 "Lady Kluck,Ronny" 49002] ∧
    (departureCheck probedTwo.eng 49002).2.any Event.isVisit = false := by
  decide

/-- C3 (amended): in every reachable state in mode MULTI that is waiting for the
presence confirmation, the departure check at a time `now` more than 8000 ms
after `lastResetTime` publishes exactly one record, the "empty" status (no visit
record for the last-known occupant), and leaves the state EMPTY with all session
and multi-chicken state cleared.  A pass of `loop` at `now` with no byte waiting
in which neither the heartbeat nor a new presence probe is due consists of this
check alone. -/
theorem departure_of_multi (t : Nat) (d : Device) (now : Nat)
    (hr : ReachableAt t d) (ht : t ≤ now) (hn : now < ULONG_MAX)
    (hmulti : d.eng.multiChickenMode = true)
    (hw : d.eng.waitingForPresenceConfirmation = true)
    (hto : now - d.eng.lastResetTime > 8000) :
    (departureCheck d.eng now).2 =
      [Event.nestStatus "empty" "" [] 0 0
        (joinNames "," 0 (d.eng.detectedChickens.take d.eng.chickenCount) "") now] ∧
    (departureCheck d.eng now).1.nestOccupied = false ∧
    (departureCheck d.eng now).1.currentChicken = "" ∧
    (departureCheck d.eng now).1.chickenEnterTime = 0 ∧
    (departureCheck d.eng now).1.waitingForPresenceConfirmation = false ∧
    (departureCheck d.eng now).1.multiChickenMode = false ∧
    (departureCheck d.eng now).1.chickenCount = 0 ∧
    (departureCheck d.eng now).1.quickChanges = 0 ∧
    (departureCheck d.eng now).1.singleChickenReadings = 0 ∧
    (departureCheck d.eng now).1.lastMultiChickenDetection = 0 ∧
    (departureCheck d.eng now).1.detectedChickens = List.replicate 15 "" ∧
    (usub now d.lastHeartbeat ≤ 300000 → now - d.eng.lastPresenceCheck ≤ 30000 →
      loop d ⟨now, []⟩ =
        ({ d with eng := (departureCheck d.eng now).1 }, (departureCheck d.eng now).2)) := by
  obtain ⟨hi, hb⟩ := reachable_inv hr
  have hn' := ulong_max_lt hn
  have h1 : usub now d.eng.lastResetTime = now - d.eng.lastResetTime :=
    usub_of_le (le_trans hb.reset_le ht) hn'
  have h3 : usub now d.eng.lastPresenceCheck = now - d.eng.lastPresenceCheck :=
    usub_of_le (le_trans hb.presence_le ht) hn'
  have hfire : d.eng.waitingForPresenceConfirmation = true ∧
      usub now d.eng.lastResetTime > 8000 := ⟨hw, by rw [h1]; exact hto⟩
  have hocc : d.eng.nestOccupied = true := by
    by_contra h0
    simp only [Bool.not_eq_true] at h0
    have := hi.empty_single h0
    simp [hmulti] at this
  have hc : 0 < d.eng.chickenCount := lt_of_lt_of_le (by decide) (hi.multi_count hmulti)
  refine ⟨?_, ?_⟩
  · rw [departureCheck_events _ _ hfire]
    simp [hmulti, publishNestStatus, publishSimpleOccupants, hocc, hc]
  · have hs : (departureCheck d.eng now).1 =
        resetMultiChickenDetection
          { d.eng with nestOccupied := false, currentChicken := "", chickenEnterTime := 0,
                       waitingForPresenceConfirmation := false } := by
      rw [departureCheck_state, if_pos hfire]
    refine ⟨by rw [hs]; rfl, by rw [hs]; rfl, by rw [hs]; rfl, by rw [hs]; rfl, by rw [hs]; rfl,
      by rw [hs]; rfl, by rw [hs]; rfl, by rw [hs]; rfl, by rw [hs]; rfl, by rw [hs]; rfl, ?_⟩
    intro hh hp
    exact loop_quiet d now hh (by rw [h3]; omega)

/-- Instance of the amended C3: Lady Kluck and Ronny, probed at 41001 ms, are declared
gone at 49002 ms. -/
theorem departure_of_multi_witness :
    (departureCheck probedTwo.eng 49002).2 =
      [Event.nestStatus "empty" "" [] 0 0
        (joinNames "," 0 (probedTwo.eng.detectedChickens.take probedTwo.eng.chickenCount) "")
        49002] ∧
    (departureCheck probedTwo.eng 49002).1.nestOccupied = false ∧
    (departureCheck probedTwo.eng 49002).1.currentChicken = "" ∧
    (departureCheck probedTwo.eng 49002).1.chickenEnterTime = 0 ∧
    (departureCheck probedTwo.eng 49002).1.waitingForPresenceConfirmation = false ∧
    (departureCheck probedTwo.eng 49002).1.multiChickenMode = false ∧
    (departureCheck probedTwo.eng 49002).1.chickenCount = 0 ∧
    (departureCheck probedTwo.eng 49002).1.quickChanges = 0 ∧
    (departureCheck probedTwo.eng 49002).1.singleChickenReadings = 0 ∧
    (departureCheck probedTwo.eng 49002).1.lastMultiChickenDetection = 0 ∧
    (departureCheck probedTwo.eng 49002).1.detectedChickens = List.replicate 15 "" ∧
    (usub 49002 probedTwo.lastHeartbeat ≤ 300000 →
      49002 - probedTwo.eng.lastPresenceCheck ≤ 30000 →
      loop probedTwo ⟨49002, []⟩ =
        ({ probedTwo with eng := (departureCheck probedTwo.eng 49002).1 },
         (departureCheck probedTwo.eng 49002).2)) :=
  departure_of_multi 41001 probedTwo 49002 probedTwo_reachable (by decide) (by decide)
    (by decide) (by decide) (by decide)

set_option maxRecDepth 1000000 in
/-- C4, as stated, fails: Lady Kluck enters the empty nest at 10000 ms, Ronny is
read at 11000 ms (multi-chicken mode) and ten more times until 81000 ms (back to
single mode), the probe of 111001 ms is not answered, and the pass at 119002 ms
publishes Ronny's visit with duration 108 s, the time since Ronny became the
current chicken at 11000 ms; the session began at 10000 ms, which would give
`(119002 - 10000) / 1000 = 109`. -/
theorem visit_duration_counterexample :
    validClock 0 (ronnyStays ++ [⟨119002, []⟩]) = true ∧
    (runTracked Device.boot ⟨none, none⟩ ronnyStays).2.sessionStart = some 10000 ∧
    (runTracked Device.boot ⟨none, none⟩ ronnyStays).2.occupantSince = some 11000 ∧
    (loop (runTracked Device.boot ⟨none, none⟩ ronnyStays).1 ⟨119002, []⟩).2 =
      [Event.chickenVisit "Ronny" 2 108 119002,
       Event.nestStatus "empty" "" [] 0 0 "Ronny" 119002] ∧
    (119002 - 10000) / 1000 = 109 := by
  decide

/-- C4 (amended): in every run of the engine from the initial EMPTY state, with
the clock increasing from pass to pass, every visit record published by a pass
at time `t_end` carries the duration `(t_end - t_start) / 1000` in whole
seconds, where `t_start`, never later than `t_end`, is the clock time of the
latest reading that changed the current occupant (`occupantSince`: the reading
that ended the preceding EMPTY period, or a later reading of a tag other than
the occupant of the moment). -/
theorem visit_duration (t : Nat) (d : Device) (h : History) (i : Input)
    (name : String) (number : Int) (duration timestamp : Nat)
    (ht : TracedAt t d h) (hlt : t < i.now) (hn : i.now < ULONG_MAX)
    (he : Event.chickenVisit name number duration timestamp ∈ (loop d i).2) :
    ∃ start, h.occupantSince = some start ∧ start ≤ i.now ∧
      duration = (i.now - start) / 1000 ∧ timestamp = i.now := by
  have hr := traced_reachable ht
  obtain ⟨hi, hb⟩ := reachable_inv hr
  rw [loop_events] at he
  have hv : (Event.chickenVisit name number duration timestamp).isVisit = true := rfl
  have hnot : ∀ l : List Event, (∀ e ∈ l, e.isVisit = false) →
      Event.chickenVisit name number duration timestamp ∉ l := by
    intro l hl hmem
    have := hl _ hmem
    rw [hv] at this
    exact absurd this (by decide)
  simp only [List.mem_append] at he
  rcases he with ((he | he) | he) | he
  · exact absurd he (hnot _ (heartbeat_no_visit d i.now))
  · exact absurd he (hnot _ (presenceCheck_no_visit _ i.now))
  · obtain ⟨hw, c, _, hc⟩ := departureCheck_visit _ i.now _ he hv
    have hp := presenceCheck_eng (heartbeat d i.now).1 i.now
    rw [heartbeat_eng] at hp
    have henter : (presenceCheck (heartbeat d i.now).1 i.now).1.eng.chickenEnterTime =
        d.eng.chickenEnterTime := by
      rcases hp with hp | ⟨_, hp⟩ <;> rw [hp]
    have hocc : d.eng.nestOccupied = true := by
      by_contra h0
      simp only [Bool.not_eq_true] at h0
      rcases hp with hp | ⟨hp, _⟩
      · rw [hp, hi.empty_waiting h0] at hw
        exact absurd hw (by decide)
      · rw [h0] at hp
        exact absurd hp (by decide)
    rw [henter] at hc
    have hle : d.eng.chickenEnterTime ≤ i.now := le_trans hb.enter_le (le_of_lt hlt)
    rw [usub_of_le hle (ulong_max_lt hn)] at hc
    injection hc with _ _ h3 h4
    exact ⟨d.eng.chickenEnterTime, traced_enterTime ht hocc, hle, h3, h4⟩
  · exact absurd he (hnot _ (handleReading_no_visit _ _ i.now (timers_inv d i.now hi)))

/-- Instance of the amended C4: the visit of Lady Kluck, who entered at 10000 ms and is
declared gone at 48002 ms, lasts 38 s. -/
theorem visit_duration_witness :
    ∃ start, (runTracked Device.boot ⟨none, none⟩ ladyKluckProbed).2.occupantSince = some start ∧
      start ≤ 48002 ∧ 38 = (48002 - start) / 1000 ∧ 48002 = 48002 :=
  visit_duration (endClock 0 ladyKluckProbed)
    (runTracked Device.boot ⟨none, none⟩ ladyKluckProbed).1
    (runTracked Device.boot ⟨none, none⟩ ladyKluckProbed).2 ⟨48002, []⟩ "Lady Kluck" 1 38 48002
    (traced_run ladyKluckProbed 0 Device.boot ⟨none, none⟩ TracedAt.boot (by decide))
    (by decide) (by decide) (by decide)

/-- C5: the engine never goes from EMPTY to MULTI in one pass of `loop`: from a
reachable state with `nestOccupied = false` the state after any pass (any clock
value, any bytes or none) has `multiChickenMode = false`; multi-chicken mode
implies an occupied nest in every reachable state; and a pass that sets
`multiChickenMode` starts from SINGLE (occupied, not multi). -/
theorem multi_only_from_single (t : Nat) (d : Device) (i : Input) (hr : ReachableAt t d) :
    (d.eng.nestOccupied = false → (loop d i).1.eng.multiChickenMode = false) ∧
    (d.eng.multiChickenMode = true → d.eng.nestOccupied = true) ∧
    (d.eng.multiChickenMode = false → (loop d i).1.eng.multiChickenMode = true →
      d.eng.nestOccupied = true) := by
  have hi := (reachable_inv hr).1
  have key : d.eng.nestOccupied = false → (loop d i).1.eng.multiChickenMode = false := by
    intro h0
    rw [loop_state, timers_of_empty d i.now hi h0]
    by_contra hm
    simp only [Bool.not_eq_false] at hm
    have := (handleReading_multi d.eng (tagRead d i) i.now hi hm).1
    simp [h0] at this
  refine ⟨key, ?_, ?_⟩
  · intro hm
    by_contra h0
    simp only [Bool.not_eq_true] at h0
    have := hi.empty_single h0
    simp [hm] at this
  · intro _ hm
    by_contra h0
    simp only [Bool.not_eq_true] at h0
    have := key h0
    simp [hm] at this

/-- Instance of C5: the first pass from the initial state, with a frame of Lady Kluck. -/
theorem multi_only_from_single_witness :
    (Device.boot.eng.nestOccupied = false →
      (loop Device.boot ⟨10000, frameOf "2003E98C8"⟩).1.eng.multiChickenMode = false) ∧
    (Device.boot.eng.multiChickenMode = true → Device.boot.eng.nestOccupied = true) ∧
    (Device.boot.eng.multiChickenMode = false →
      (loop Device.boot ⟨10000, frameOf "2003E98C8"⟩).1.eng.multiChickenMode = true →
      Device.boot.eng.nestOccupied = true) :=
  multi_only_from_single 0 Device.boot ⟨10000, frameOf "2003E98C8"⟩ ReachableAt.boot

/-- C6: in every state reachable from the initial state by passes of `loop`,
`nestOccupied = false` implies that `currentChicken` is the empty string, that
the multi-chicken window is cleared (`multiChickenMode = false`, the three
counters and `lastMultiChickenDetection` zero, all fifteen slots of
`detectedChickens` empty) and that `waitingForPresenceConfirmation = false`. -/
theorem empty_nest_is_cleared (t : Nat) (d : Device) (hr : ReachableAt t d)
    (h : d.eng.nestOccupied = false) :
    d.eng.currentChicken = "" ∧ d.eng.multiChickenMode = false ∧ d.eng.chickenCount = 0 ∧
    d.eng.quickChanges = 0 ∧ d.eng.singleChickenReadings = 0 ∧
    d.eng.lastMultiChickenDetection = 0 ∧
    d.eng.detectedChickens.length = 15 ∧ (∀ x ∈ d.eng.detectedChickens, x = "") ∧
    d.eng.waitingForPresenceConfirmation = false := by
  have hi := (reachable_inv hr).1
  obtain ⟨hq, hc, hs, hl, hd⟩ := hi.single_window (hi.empty_single h)
  refine ⟨hi.empty_current h, hi.empty_single h, hc, hq, hs, hl, hi.list.slots, ?_,
    hi.empty_waiting h⟩
  rw [hd]
  intro x hx
  exact List.eq_of_mem_replicate hx

/-- Instance of C6: the nest after Lady Kluck has left. -/
theorem empty_nest_is_cleared_witness :
    leftLadyKluck.eng.currentChicken = "" ∧ leftLadyKluck.eng.multiChickenMode = false ∧
    leftLadyKluck.eng.chickenCount = 0 ∧ leftLadyKluck.eng.quickChanges = 0 ∧
    leftLadyKluck.eng.singleChickenReadings = 0 ∧
    leftLadyKluck.eng.lastMultiChickenDetection = 0 ∧
    leftLadyKluck.eng.detectedChickens.length = 15 ∧
    (∀ x ∈ leftLadyKluck.eng.detectedChickens, x = "") ∧
    leftLadyKluck.eng.waitingForPresenceConfirmation = false :=
  empty_nest_is_cleared 48002 leftLadyKluck leftLadyKluck_reachable (by decide)

/-- C7, as stated, fails for a listed tag other than `currentChicken`: with
Lady Kluck and Ronny listed and Ronny current, a reading of Lady Kluck at
29000 ms (demotion condition not met) leaves `singleChickenReadings` at 0
instead of 1, moves `lastMultiChickenDetection` from 11000 to 29000 and
publishes a "multiple" status. -/
theorem listed_tag_in_multi_counterexample :
    nestTwo.eng.multiChickenMode = true ∧
    "2003E98C8" ∈ nestTwo.eng.detectedChickens.take nestTwo.eng.chickenCount ∧
    nestTwo.eng.currentChicken = "2003EF40D" ∧
    nestTwo.eng.singleChickenReadings = 0 ∧
    nestTwo.eng.lastMultiChickenDetection = 11000 ∧
    ¬ (nestTwo.eng.singleChickenReadings + 1 ≥ 10 ∧
        29000 - nestTwo.eng.lastMultiChickenDetection > 60000) ∧
    (handleReading nestTwo.eng "2003E98C8" 29000).1.singleChickenReadings = 0 ∧
    (handleReading nestTwo.eng "2003E98C8" 29000).1.lastMultiChickenDetection = 29000 ∧
    (handleReading nestTwo.eng "2003E98C8" 29000).2 =
      [Event.nestStatus "multiple" "Lady Kluck, Ronny" ["Lady Kluck", "Ronny"] 2 0
        "Lady Kluck,Ronny" 29000] := by
  decide

/-- C7 (amended): for every reachable state in mode MULTI and every accepted
reading whose tag equals `currentChicken`, the counter `singleChickenReadings`
is incremented by one and tested: unless the demotion condition (the
incremented counter is at least 10 and `now - lastMultiChickenDetection` exceeds
60000 ms) is met, the counter keeps the incremented value, the mode stays MULTI,
the list and `lastMultiChickenDetection` are unchanged and no record is
published; when it is met the window is cleared and the mode is no longer
MULTI.  A reading of a known tag other than `currentChicken`, which every
listed tag is, takes the different-chicken branch whether the tag is listed or
not: the counter is reset to 0, `lastMultiChickenDetection` becomes the time of
the reading, the mode stays MULTI with the tag read as `currentChicken`, and
exactly one record is published, the "multiple" status naming the chickens
listed after the reading. -/
theorem current_tag_in_multi (t : Nat) (d : Device) (now : Nat)
    (hr : ReachableAt t d) (ht : t ≤ now) (hn : now < ULONG_MAX)
    (hm : d.eng.multiChickenMode = true) :
    (¬ (d.eng.singleChickenReadings + 1 ≥ 10 ∧
          now - d.eng.lastMultiChickenDetection > 60000) →
      (handleReading d.eng d.eng.currentChicken now).1.singleChickenReadings =
        d.eng.singleChickenReadings + 1 ∧
      (handleReading d.eng d.eng.currentChicken now).1.multiChickenMode = true ∧
      (handleReading d.eng d.eng.currentChicken now).1.nestOccupied = true ∧
      (handleReading d.eng d.eng.currentChicken now).1.lastMultiChickenDetection =
        d.eng.lastMultiChickenDetection ∧
      (handleReading d.eng d.eng.currentChicken now).1.detectedChickens =
        d.eng.detectedChickens ∧
      (handleReading d.eng d.eng.currentChicken now).1.chickenCount = d.eng.chickenCount ∧
      (handleReading d.eng d.eng.currentChicken now).2 = []) ∧
    ((d.eng.singleChickenReadings + 1 ≥ 10 ∧
          now - d.eng.lastMultiChickenDetection > 60000) →
      (handleReading d.eng d.eng.currentChicken now).1.multiChickenMode = false ∧
      (handleReading d.eng d.eng.currentChicken now).1.singleChickenReadings = 0 ∧
      (handleReading d.eng d.eng.currentChicken now).1.chickenCount = 0) ∧
    (∀ Y ∈ d.eng.detectedChickens.take d.eng.chickenCount, isValidChicken Y = true) ∧
    (∀ Y, isValidChicken Y = true → d.eng.currentChicken ≠ Y →
      (handleReading d.eng Y now).1.singleChickenReadings = 0 ∧
      (handleReading d.eng Y now).1.lastMultiChickenDetection = now ∧
      (handleReading d.eng Y now).1.multiChickenMode = true ∧
      (handleReading d.eng Y now).1.nestOccupied = true ∧
      (handleReading d.eng Y now).1.currentChicken = Y ∧
      2 ≤ (handleReading d.eng Y now).1.chickenCount ∧
      (handleReading d.eng Y now).2 =
        [Event.nestStatus "multiple"
          (joinNames ", " 0 ((handleReading d.eng Y now).1.detectedChickens.take
            (handleReading d.eng Y now).1.chickenCount) "")
          (chickenNames ((handleReading d.eng Y now).1.detectedChickens.take
            (handleReading d.eng Y now).1.chickenCount))
          (handleReading d.eng Y now).1.chickenCount 0
          (joinNames "," 0 ((handleReading d.eng Y now).1.detectedChickens.take
            (handleReading d.eng Y now).1.chickenCount) "") now]) := by
  obtain ⟨hi, hb⟩ := reachable_inv hr
  have hn' := ulong_max_lt hn
  have hocc : d.eng.nestOccupied = true := by
    by_contra h0
    simp only [Bool.not_eq_true] at h0
    have := hi.empty_single h0
    simp [hm] at this
  have hX := hi.occupied_valid hocc
  obtain ⟨cx, hcx⟩ := isValidChicken_eq_true.mp hX
  have h1 : usub now d.eng.lastMultiChickenDetection = now - d.eng.lastMultiChickenDetection :=
    usub_of_le (le_trans hb.multi_le ht) hn'
  have h2 : (d.eng.singleChickenReadings + 1) % 4294967296 = d.eng.singleChickenReadings + 1 := by
    have := hb.readings_le
    unfold ULONG_MAX at hn
    exact Nat.mod_eq_of_lt (by omega)
  refine ⟨?_, ?_, hi.list.listed_valid, ?_⟩
  · intro hno
    have hno' : ¬ ((d.eng.singleChickenReadings + 1) % 4294967296 ≥ 10 ∧
        usub now d.eng.lastMultiChickenDetection > 60000) := by
      rw [h1, h2]; exact hno
    rw [handleReading_same_multi d.eng now hocc hX hm hno']
    exact ⟨h2, hm, hocc, rfl, rfl, rfl, rfl⟩
  · intro hyes
    have hyes' : (d.eng.singleChickenReadings + 1) % 4294967296 ≥ 10 ∧
        usub now d.eng.lastMultiChickenDetection > 60000 := by
      rw [h1, h2]; exact hyes
    rw [handleReading_demote d.eng now cx hocc hcx hm hyes']
    simp [resetMultiChickenDetection]
  · intro Y hY hne
    obtain ⟨hd, hc2⟩ :=
      detect_of_inv d.eng Y (usub now d.eng.chickenEnterTime / 1000) hi hocc hY hne
    have hocc2 : (multiState d.eng Y now).nestOccupied = true := by
      unfold multiState
      simp [hocc]
    rw [handleReading_switch d.eng Y now hocc hY hne hd]
    have hc : (multiState d.eng Y now).chickenCount > 0 := by
      unfold multiState
      dsimp only
      omega
    refine ⟨rfl, rfl, rfl, hocc2, rfl, hc2, ?_⟩
    have hmm : (multiState d.eng Y now).multiChickenMode = true := rfl
    simp [publishNestStatus, publishSimpleOccupants, hc, hocc2, hmm]

/-- Instance of the amended C7: Ronny, current in multi-chicken mode, is read
again at 18000 ms, or another known tag is read then. -/
theorem current_tag_in_multi_witness :
    (¬ (nestTwo.eng.singleChickenReadings + 1 ≥ 10 ∧
          18000 - nestTwo.eng.lastMultiChickenDetection > 60000) →
      (handleReading nestTwo.eng nestTwo.eng.currentChicken 18000).1.singleChickenReadings =
        nestTwo.eng.singleChickenReadings + 1 ∧
      (handleReading nestTwo.eng nestTwo.eng.currentChicken 18000).1.multiChickenMode = true ∧
      (handleReading nestTwo.eng nestTwo.eng.currentChicken 18000).1.nestOccupied = true ∧
      (handleReading nestTwo.eng nestTwo.eng.currentChicken 18000).1.lastMultiChickenDetection =
        nestTwo.eng.lastMultiChickenDetection ∧
      (handleReading nestTwo.eng nestTwo.eng.currentChicken 18000).1.detectedChickens =
        nestTwo.eng.detectedChickens ∧
      (handleReading nestTwo.eng nestTwo.eng.currentChicken 18000).1.chickenCount =
        nestTwo.eng.chickenCount ∧
      (handleReading nestTwo.eng nestTwo.eng.currentChicken 18000).2 = []) ∧
    ((nestTwo.eng.singleChickenReadings + 1 ≥ 10 ∧
          18000 - nestTwo.eng.lastMultiChickenDetection > 60000) →
      (handleReading nestTwo.eng nestTwo.eng.currentChicken 18000).1.multiChickenMode = false ∧
      (handleReading nestTwo.eng nestTwo.eng.currentChicken 18000).1.singleChickenReadings = 0 ∧
      (handleReading nestTwo.eng nestTwo.eng.currentChicken 18000).1.chickenCount = 0) ∧
    (∀ Y ∈ nestTwo.eng.detectedChickens.take nestTwo.eng.chickenCount, isValidChicken Y = true) ∧
    (∀ Y, isValidChicken Y = true → nestTwo.eng.currentChicken ≠ Y →
      (handleReading nestTwo.eng Y 18000).1.singleChickenReadings = 0 ∧
      (handleReading nestTwo.eng Y 18000).1.lastMultiChickenDetection = 18000 ∧
      (handleReading nestTwo.eng Y 18000).1.multiChickenMode = true ∧
      (handleReading nestTwo.eng Y 18000).1.nestOccupied = true ∧
      (handleReading nestTwo.eng Y 18000).1.currentChicken = Y ∧
      2 ≤ (handleReading nestTwo.eng Y 18000).1.chickenCount ∧
      (handleReading nestTwo.eng Y 18000).2 =
        [Event.nestStatus "multiple"
          (joinNames ", " 0 ((handleReading nestTwo.eng Y 18000).1.detectedChickens.take
            (handleReading nestTwo.eng Y 18000).1.chickenCount) "")
          (chickenNames ((handleReading nestTwo.eng Y 18000).1.detectedChickens.take
            (handleReading nestTwo.eng Y 18000).1.chickenCount))
          (handleReading nestTwo.eng Y 18000).1.chickenCount 0
          (joinNames "," 0 ((handleReading nestTwo.eng Y 18000).1.detectedChickens.take
            (handleReading nestTwo.eng Y 18000).1.chickenCount) "") 18000]) :=
  current_tag_in_multi 11000 nestTwo 18000 nestTwo_reachable (by decide) (by decide) (by decide)

/-- C8, failing input: after Lady Kluck (10000 ms), Ronny (11000 ms) and Lady
Kluck again (12000 ms) the nest is in multi-chicken mode with two quick changes
counted.  A reading of Ada, known and not yet listed, at 13000 ms makes
`detectMultipleChickens` return at `quickChanges >= 3` before
`addChickenToList(tagID)`: Ada is not listed, `chickenCount` stays 2 and the
"multiple" status published names Lady Kluck and Ronny only; the pass of `loop`
with Ada's frame is this reading.  Ada, now current, is listed only by the next
reading of another chicken (Ms.Foster at 30000 ms), which takes the count from 2
to 4. -/
theorem quick_change_drops_new_tag :
    ReachableAt 12000 nestQuick ∧
    nestQuick.eng.multiChickenMode = true ∧
    isValidChicken "2003F2676" = true ∧
    "2003F2676" ∉ nestQuick.eng.detectedChickens.take nestQuick.eng.chickenCount ∧
    nestQuick.eng.chickenCount = 2 ∧
    (handleReading nestQuick.eng "2003F2676" 13000).1.chickenCount = 2 ∧
    "2003F2676" ∉ (handleReading nestQuick.eng "2003F2676" 13000).1.detectedChickens ∧
    (handleReading nestQuick.eng "2003F2676" 13000).1.multiChickenMode = true ∧
    (handleReading nestQuick.eng "2003F2676" 13000).1.currentChicken = "2003F2676" ∧
    (handleReading nestQuick.eng "2003F2676" 13000).1.lastMultiChickenDetection = 13000 ∧
    (handleReading nestQuick.eng "2003F2676" 13000).1.singleChickenReadings = 0 ∧
    (handleReading nestQuick.eng "2003F2676" 13000).2 =
      [Event.nestStatus "multiple" "Lady Kluck, Ronny" ["Lady Kluck", "Ronny"] 2 0
        "Lady Kluck,Ronny" 13000] ∧
    (loop nestQuick ⟨13000, frameOf "2003F2676"⟩).1.eng =
      (handleReading nestQuick.eng "2003F2676" 13000).1 ∧
    (loop nestQuick ⟨13000, frameOf "2003F2676"⟩).2 =
      (handleReading nestQuick.eng "2003F2676" 13000).2 ∧
    (handleReading (handleReading nestQuick.eng "2003F2676" 13000).1 "2003E98F1" 30000).1.chickenCount
      = 4 :=
  ⟨nestQuick_reachable, by decide⟩

set_option maxRecDepth 1000000 in
/-- C9, as stated, fails in two ways.  With Lady Kluck and Ronny listed and
Ronny current, ten consecutive readings of Lady Kluck (18000 ms to 81000 ms, the
tenth 70 s after the last multi-chicken evidence) end in multi-chicken mode
with nine single readings counted: the first of them counts as new evidence.
And with Ronny current and one single reading already counted, ten consecutive
readings of Ronny (25000 ms to 88000 ms) publish the "occupied" status at the
ninth reading (81000 ms), not at the tenth. -/
theorem ten_readings_counterexample :
    (nestTwo.eng.multiChickenMode = true ∧
      nestTwo.eng.detectedChickens.take nestTwo.eng.chickenCount = ["2003E98C8", "2003EF40D"] ∧
      tenTimes.length = 10 ∧ tenTimes.getLast? = some 81000 ∧
      81000 - nestTwo.eng.lastMultiChickenDetection > 60000 ∧
      (feed "2003E98C8" nestTwo.eng tenTimes).1.multiChickenMode = true ∧
      (feed "2003E98C8" nestTwo.eng tenTimes).1.singleChickenReadings = 9 ∧
      (run nestTwo (tenFrames "2003E98C8")).1.eng.multiChickenMode = true ∧
      (feed "2003E98C8" nestTwo.eng tenTimes).2 =
        [Event.nestStatus "multiple" "Lady Kluck, Ronny" ["Lady Kluck", "Ronny"] 2 0
          "Lady Kluck,Ronny" 18000]) ∧
    (nestTwoAgain.eng.multiChickenMode = true ∧
      nestTwoAgain.eng.detectedChickens.take nestTwoAgain.eng.chickenCount =
        ["2003E98C8", "2003EF40D"] ∧
      nestTwoAgain.eng.currentChicken = "2003EF40D" ∧
      nestTwoAgain.eng.singleChickenReadings = 1 ∧
      tenLaterTimes.length = 10 ∧ tenLaterTimes.getLast? = some 88000 ∧
      88000 - nestTwoAgain.eng.lastMultiChickenDetection > 60000 ∧
      (feed "2003EF40D" nestTwoAgain.eng tenLaterTimes).2 =
        [Event.nestStatus "occupied" "Ronny" [] 0 0 "Ronny" 81000]) := by
  decide

/-- C9 (amended): from every reachable state in mode MULTI whose current
chicken is X, ten consecutive accepted readings of X at increasing times, the
tenth more than 60000 ms after the value of `lastMultiChickenDetection` before
the first, end in SINGLE(X) with the multi-chicken window cleared; exactly one
record is published over the ten readings, the "occupied" status of X, by the
reading number `k + 1` for some `k` with `singleChickenReadings + k + 1 >= 10`:
the tenth reading when the counter was zero before the first. -/
theorem ten_readings_of_current (t : Nat) (d : Device) (ts : List Nat) (last : Nat)
    (hr : ReachableAt t d) (hm : d.eng.multiChickenMode = true)
    (hlen : ts.length = 10) (hsort : List.Sorted (fun a b => a < b) ts)
    (hlo : ∀ u ∈ ts, t ≤ u) (hhi : ∀ u ∈ ts, u < ULONG_MAX)
    (hlast : ts.getLast? = some last)
    (h60 : last - d.eng.lastMultiChickenDetection > 60000) :
    (feed d.eng.currentChicken d.eng ts).1.nestOccupied = true ∧
    (feed d.eng.currentChicken d.eng ts).1.multiChickenMode = false ∧
    (feed d.eng.currentChicken d.eng ts).1.currentChicken = d.eng.currentChicken ∧
    (feed d.eng.currentChicken d.eng ts).1.chickenCount = 0 ∧
    (feed d.eng.currentChicken d.eng ts).1.quickChanges = 0 ∧
    (feed d.eng.currentChicken d.eng ts).1.singleChickenReadings = 0 ∧
    (feed d.eng.currentChicken d.eng ts).1.lastMultiChickenDetection = 0 ∧
    (feed d.eng.currentChicken d.eng ts).1.detectedChickens = List.replicate 15 "" ∧
    ∃ cx k u, findChickenByTag d.eng.currentChicken = some cx ∧ ts[k]? = some u ∧
      10 ≤ d.eng.singleChickenReadings + k + 1 ∧
      (d.eng.singleChickenReadings = 0 → u = last) ∧
      (feed d.eng.currentChicken d.eng ts).2 =
        [Event.nestStatus "occupied" cx.name [] 0 0 cx.name u] := by
  obtain ⟨hi, hb⟩ := reachable_inv hr
  have hocc : d.eng.nestOccupied = true := by
    by_contra h0
    simp only [Bool.not_eq_true] at h0
    have := hi.empty_single h0
    simp [hm] at this
  obtain ⟨cx, hcx⟩ := isValidChicken_eq_true.mp (hi.occupied_valid hocc)
  obtain ⟨⟨g1, g2, g3, g4⟩, k, u, gk, gc, ge⟩ := feed_multi ts d.eng cx last hi hm hcx hsort hhi
    (fun u hu => le_trans hb.multi_le (hlo u hu))
    (fun u hu => le_trans hb.readings_le (hlo u hu)) hlast (by omega) h60
  obtain ⟨hq, hc, hs, hl, hd⟩ := g1.single_window g3
  refine ⟨g2, g3, g4, hc, hq, hs, hl, hd, cx, k, u, hcx, gk, gc, ?_, ge⟩
  intro h0
  have hk : k < ts.length := by
    by_contra hk
    rw [List.getElem?_eq_none (by omega)] at gk
    exact absurd gk (by simp)
  have hk9 : k = ts.length - 1 := by omega
  rw [List.getLast?_eq_getElem?, ← hk9, gk] at hlast
  exact Option.some.inj hlast

/-- Instance of the amended C9: Lady Kluck, current in multi-chicken mode since
12000 ms, is read ten times from 18000 ms to 81000 ms. -/
theorem ten_readings_of_current_witness :
    (feed nestQuick.eng.currentChicken nestQuick.eng tenTimes).1.nestOccupied = true ∧
    (feed nestQuick.eng.currentChicken nestQuick.eng tenTimes).1.multiChickenMode = false ∧
    (feed nestQuick.eng.currentChicken nestQuick.eng tenTimes).1.currentChicken =
      nestQuick.eng.currentChicken ∧
    (feed nestQuick.eng.currentChicken nestQuick.eng tenTimes).1.chickenCount = 0 ∧
    (feed nestQuick.eng.currentChicken nestQuick.eng tenTimes).1.quickChanges = 0 ∧
    (feed nestQuick.eng.currentChicken nestQuick.eng tenTimes).1.singleChickenReadings = 0 ∧
    (feed nestQuick.eng.currentChicken nestQuick.eng tenTimes).1.lastMultiChickenDetection = 0 ∧
    (feed nestQuick.eng.currentChicken nestQuick.eng tenTimes).1.detectedChickens =
      List.replicate 15 "" ∧
    ∃ cx k u, findChickenByTag nestQuick.eng.currentChicken = some cx ∧
      tenTimes[k]? = some u ∧ 10 ≤ nestQuick.eng.singleChickenReadings + k + 1 ∧
      (nestQuick.eng.singleChickenReadings = 0 → u = 81000) ∧
      (feed nestQuick.eng.currentChicken nestQuick.eng tenTimes).2 =
        [Event.nestStatus "occupied" cx.name [] 0 0 cx.name u] :=
  ten_readings_of_current 12000 nestQuick tenTimes 81000 nestQuick_reachable (by decide)
    (by decide) (by decide) (by decide) (by decide) (by decide) (by decide)

/-- C10: for every reachable state, in particular every one in mode MULTI, and
every pass of `loop`: if the state after the pass is MULTI, every tag among the
first `chickenCount` slots before the pass is among them after it; if the state
after the pass is not MULTI (SINGLE or EMPTY), `chickenCount = 0` and every slot
of `detectedChickens` is empty. -/
theorem detected_set_grows_or_resets (t : Nat) (d : Device) (i : Input)
    (hr : ReachableAt t d) :
    ((loop d i).1.eng.multiChickenMode = true →
      ∀ x ∈ d.eng.detectedChickens.take d.eng.chickenCount,
        x ∈ (loop d i).1.eng.detectedChickens.take (loop d i).1.eng.chickenCount) ∧
    ((loop d i).1.eng.multiChickenMode = false →
      (loop d i).1.eng.chickenCount = 0 ∧ ∀ x ∈ (loop d i).1.eng.detectedChickens, x = "") := by
  have hi := (reachable_inv hr).1
  have hi1 := loop_inv d i hi
  refine ⟨?_, ?_⟩
  · intro hm1 x hx
    rw [loop_state] at hm1 ⊢
    have ht := timers_inv d i.now hi
    obtain ⟨hocc, hsub⟩ := handleReading_multi (timers d i.now) (tagRead d i) i.now ht hm1
    rcases timers_cases d i.now with ⟨h0, _⟩ | ⟨r, w, p, e⟩
    · rw [h0] at hocc
      exact absurd hocc (by decide)
    · apply hsub
      rw [e]
      exact hx
  · intro hm1
    obtain ⟨_, hc, _, _, hd⟩ := hi1.single_window hm1
    refine ⟨hc, ?_⟩
    rw [hd]
    intro x hx
    exact List.eq_of_mem_replicate hx

/-- Instance of C10: Ada is read at 12000 ms with Lady Kluck and Ronny listed. -/
theorem detected_set_grows_or_resets_witness :
    ((loop nestTwo ⟨12000, frameOf "2003F2676"⟩).1.eng.multiChickenMode = true →
      ∀ x ∈ nestTwo.eng.detectedChickens.take nestTwo.eng.chickenCount,
        x ∈ (loop nestTwo ⟨12000, frameOf "2003F2676"⟩).1.eng.detectedChickens.take
          (loop nestTwo ⟨12000, frameOf "2003F2676"⟩).1.eng.chickenCount) ∧
    ((loop nestTwo ⟨12000, frameOf "2003F2676"⟩).1.eng.multiChickenMode = false →
      (loop nestTwo ⟨12000, frameOf "2003F2676"⟩).1.eng.chickenCount = 0 ∧
      ∀ x ∈ (loop nestTwo ⟨12000, frameOf "2003F2676"⟩).1.eng.detectedChickens, x = "") :=
  detected_set_grows_or_resets 11000 nestTwo ⟨12000, frameOf "2003F2676"⟩ nestTwo_reachable

/-- C11: for every byte sequence `02, mid, 03` (first byte 0x02, last byte 0x03,
at least three bytes): let `s` be the text of the bytes between the markers
that are printable ASCII (codes 32..126), reduced to its characters 0-9 and A-F
and stripped of leading zeros.  If `s` has between 1 and 16 characters,
`extractTagID` applied to the hex rendering returns `s` left-padded with zeros
to length 8, which is `s` itself when it has 8 characters or more. -/
theorem framed_tag_decoded (mid : List Nat) (hb : ∀ b ∈ mid, b < 256)
    (h1 : 1 ≤ (tagDigits (payloadText mid)).length)
    (h16 : (tagDigits (payloadText mid)).length ≤ 16) :
    isFramed (normalize (rawOf (2 :: (mid ++ [3])))) ∧
    extractTagID (rawOf (2 :: (mid ++ [3]))) =
      String.mk (List.replicate (8 - (tagDigits (payloadText mid)).length) '0' ++
        tagDigits (payloadText mid)) ∧
    (8 ≤ (tagDigits (payloadText mid)).length →
      extractTagID (rawOf (2 :: (mid ++ [3]))) = String.mk (tagDigits (payloadText mid))) := by
  have hmid : 1 ≤ mid.length := by
    by_contra h0
    have : mid = [] := List.length_eq_zero.mp (by omega)
    subst this
    simp [tagDigits, payloadText] at h1
  have he := extractTagID_frame mid hb h1 h16
  refine ⟨?_, he, ?_⟩
  · rw [normalize_rawOf, hexUpper_frame]
    exact isFramed_frame _ (by rw [hexUpper_length]; omega)
  · intro h8
    rw [he]
    unfold padLeft8
    have : 8 - (tagDigits (payloadText mid)).length = 0 := by omega
    rw [this]
    rfl

/-- Instance of C11: the payload "002003E98C8" followed by CR and LF decodes to
"2003E98C8". -/
theorem framed_tag_decoded_witness :
    isFramed (normalize (rawOf (2 :: ([48, 48, 50, 48, 48, 51, 69, 57, 56, 67, 56, 13, 10] ++ [3])))) ∧
    extractTagID (rawOf (2 :: ([48, 48, 50, 48, 48, 51, 69, 57, 56, 67, 56, 13, 10] ++ [3]))) =
      String.mk (List.replicate
          (8 - (tagDigits (payloadText
            [48, 48, 50, 48, 48, 51, 69, 57, 56, 67, 56, 13, 10])).length) '0' ++
        tagDigits (payloadText [48, 48, 50, 48, 48, 51, 69, 57, 56, 67, 56, 13, 10])) ∧
    (8 ≤ (tagDigits (payloadText [48, 48, 50, 48, 48, 51, 69, 57, 56, 67, 56, 13, 10])).length →
      extractTagID (rawOf (2 :: ([48, 48, 50, 48, 48, 51, 69, 57, 56, 67, 56, 13, 10] ++ [3]))) =
        String.mk (tagDigits (payloadText [48, 48, 50, 48, 48, 51, 69, 57, 56, 67, 56, 13, 10]))) :=
  framed_tag_decoded [48, 48, 50, 48, 48, 51, 69, 57, 56, 67, 56, 13, 10] (by decide) (by decide)
    (by decide)

/-- C12, as stated, fails: the tag text "012345678" consists of hex characters
and has more than 8 of them, so stripping and padding leave it as it is, but the
frame `02, "012345678", 03` decodes to "12345678": the decoder removes the
leading zero. -/
theorem round_trip_counterexample :
    String.mk (padLeft8 ("012345678".data.filter isHexChar)) = "012345678" ∧
    extractTagID (rawOf (frameOf "012345678")) = "12345678" ∧
    extractTagID (rawOf (frameOf "012345678")) ≠
      String.mk (padLeft8 ("012345678".data.filter isHexChar)) := by
  decide

/-- C12 (amended): for every ASCII tag text whose characters, after stripping
the non-hex characters, removing the leading zeros and left-padding with zeros
to length 8, form the string T, where between 1 and 16 characters are left
before the padding, `extractTagID` applied to the hex rendering of the bytes
`02, ASCII(tagtext), 03` returns exactly T. -/
theorem round_trip (text : String) (hascii : ∀ c ∈ text.data, c.toNat < 128)
    (h1 : 1 ≤ (tagDigits text.data).length) (h16 : (tagDigits text.data).length ≤ 16) :
    extractTagID (rawOf (frameOf text)) = String.mk (padLeft8 (tagDigits text.data)) := by
  have hd : tagDigits (payloadText (text.data.map Char.toNat)) = tagDigits text.data := by
    unfold tagDigits
    rw [filter_hex_printable]
  have hb : ∀ b ∈ text.data.map Char.toNat, b < 256 := by
    intro b hb
    obtain ⟨c, hc, rfl⟩ := List.mem_map.mp hb
    have := hascii c hc
    omega
  have := extractTagID_frame (text.data.map Char.toNat) hb (by rw [hd]; exact h1)
    (by rw [hd]; exact h16)
  rw [hd] at this
  exact this

/-- Instance of the amended C12: the tag text "0A1B2C" gives "00A1B2C" padded to
"000A1B2C". -/
theorem round_trip_witness :
    extractTagID (rawOf (frameOf "0A1B2C")) = String.mk (padLeft8 (tagDigits "0A1B2C".data)) :=
  round_trip "0A1B2C" (by decide) (by decide) (by decide)

/-- C13, failing input: the five bytes 12 34 56 78 9A are not framed; their
cleaned hex text "123456789A" has length 10, passes the length test of the
fallback and is cut to the characters from offset 6: the decoder returns "789A",
four characters, and `readRFIDWithValidation` hands it on as a tag. -/
theorem fallback_returns_short_tag :
    ¬ isFramed (normalize (rawOf [18, 52, 86, 120, 154])) ∧
    (normalize (rawOf [18, 52, 86, 120, 154])).filter isHexChar = "123456789A".data ∧
    extractTagID (rawOf [18, 52, 86, 120, 154]) = "789A" ∧
    (extractTagID (rawOf [18, 52, 86, 120, 154])).length = 4 ∧
    (readRFIDWithValidation Device.boot 10000 [18, 52, 86, 120, 154]).1 = "789A" := by
  decide

/-- C14, as stated, fails: the six bytes DE AD BE EF 12 34 are not framed and
their cleaned hex text "DEADBEEF1234" has length 12; the decoder returns
"EF1234", the six characters from offset 6 to the end, not a 10-character
substring. -/
theorem fallback_substring_counterexample :
    ¬ (['0', '2'].isPrefixOf (normalize (rawOf [222, 173, 190, 239, 18, 52])) = true ∧
        ['0', '3'].isSuffixOf (normalize (rawOf [222, 173, 190, 239, 18, 52])) = true) ∧
    (normalize (rawOf [222, 173, 190, 239, 18, 52])).filter isHexChar = "DEADBEEF1234".data ∧
    ((normalize (rawOf [222, 173, 190, 239, 18, 52])).filter isHexChar).length = 12 ∧
    extractTagID (rawOf [222, 173, 190, 239, 18, 52]) = "EF1234" ∧
    (extractTagID (rawOf [222, 173, 190, 239, 18, 52])).length = 6 := by
  decide

/-- C14 (amended): for every byte sequence whose hex rendering is not framed
(does not both start with "02" and end with "03") and whose cleaned hex text has
length L with 16 <= L <= 20, `extractTagID` returns the 10-character substring
of the cleaned text that starts at offset 6. -/
theorem fallback_substring (bytes : List Nat)
    (hnf : ¬ (['0', '2'].isPrefixOf (normalize (rawOf bytes)) = true ∧
      ['0', '3'].isSuffixOf (normalize (rawOf bytes)) = true))
    (hlo : 16 ≤ ((normalize (rawOf bytes)).filter isHexChar).length)
    (hhi : ((normalize (rawOf bytes)).filter isHexChar).length ≤ 20) :
    extractTagID (rawOf bytes) =
      String.mk ((((normalize (rawOf bytes)).filter isHexChar).drop 6).take 10) ∧
    ((((normalize (rawOf bytes)).filter isHexChar).drop 6).take 10).length = 10 := by
  have hrej : ¬ (isFramed (normalize (rawOf bytes)) ∧
      (framedTag (normalize (rawOf bytes))).length ≥ 8 ∧
      (framedTag (normalize (rawOf bytes))).length ≤ 16) := by
    intro hc
    exact hnf ⟨hc.1.1, hc.1.2.1⟩
  rw [extractTagID_fallback _ hrej]
  rw [normalize_rawOf, hexUpper_filter, hexUpper_length] at hlo hhi
  rw [normalize_rawOf, hexUpper_filter, fallbackTag_hexUpper]
  rw [if_neg (by omega), if_pos (by omega)]
  refine ⟨rfl, ?_⟩
  simp [hexUpper_length]
  omega

/-- Instance of the amended C14: eight bytes, cleaned text "0123456789ABCDEF". -/
theorem fallback_substring_witness :
    extractTagID (rawOf [1, 35, 69, 103, 137, 171, 205, 239]) =
      String.mk ((((normalize (rawOf [1, 35, 69, 103, 137, 171, 205, 239])).filter
        isHexChar).drop 6).take 10) ∧
    ((((normalize (rawOf [1, 35, 69, 103, 137, 171, 205, 239])).filter
      isHexChar).drop 6).take 10).length = 10 :=
  fallback_substring [1, 35, 69, 103, 137, 171, 205, 239] (by decide) (by decide) (by decide)

/-- C15: whenever the framed path does not accept the hex rendering of a byte
sequence (the text is not framed, or the framed result has length 0 or more
than 16), `extractTagID` returns the empty string exactly when the cleaned hex
text has length below 8 or above 20, that is, for `n` bytes, when `n < 4` or
`n > 10`; and when that length is 8 or 9 it returns the whole cleaned text. -/
theorem fallback_nothing_iff (bytes : List Nat)
    (hrej : ¬ isFramed (normalize (rawOf bytes)) ∨
      (framedTag (normalize (rawOf bytes))).length = 0 ∨
      (framedTag (normalize (rawOf bytes))).length > 16) :
    ((normalize (rawOf bytes)).filter isHexChar).length = 2 * bytes.length ∧
    (extractTagID (rawOf bytes) = "" ↔
      (((normalize (rawOf bytes)).filter isHexChar).length < 8 ∨
        ((normalize (rawOf bytes)).filter isHexChar).length > 20)) ∧
    (extractTagID (rawOf bytes) = "" ↔ (bytes.length < 4 ∨ bytes.length > 10)) ∧
    ((((normalize (rawOf bytes)).filter isHexChar).length = 8 ∨
        ((normalize (rawOf bytes)).filter isHexChar).length = 9) →
      extractTagID (rawOf bytes) = String.mk ((normalize (rawOf bytes)).filter isHexChar)) := by
  have hrej1 : ¬ (isFramed (normalize (rawOf bytes)) ∧
      (framedTag (normalize (rawOf bytes))).length ≥ 8 ∧
      (framedTag (normalize (rawOf bytes))).length ≤ 16) := by
    intro hc
    rcases hrej with h | h | h
    · exact h hc.1
    · omega
    · omega
  have hlen : ((normalize (rawOf bytes)).filter isHexChar).length = 2 * bytes.length := by
    rw [normalize_rawOf, hexUpper_filter, hexUpper_length]
  have he : extractTagID (rawOf bytes) =
      if 2 * bytes.length < 8 ∨ 2 * bytes.length > 20 then ""
      else if 2 * bytes.length ≥ 10 then String.mk (((hexUpper bytes).drop 6).take 10)
      else String.mk (hexUpper bytes) := by
    rw [extractTagID_fallback _ hrej1, normalize_rawOf, fallbackTag_hexUpper]
  have hiff : extractTagID (rawOf bytes) = "" ↔ (2 * bytes.length < 8 ∨ 2 * bytes.length > 20) := by
    rw [he]
    by_cases h1 : 2 * bytes.length < 8 ∨ 2 * bytes.length > 20
    · rw [if_pos h1]
      exact ⟨fun _ => h1, fun _ => rfl⟩
    · rw [if_neg h1]
      refine ⟨fun h => ?_, fun h => absurd h h1⟩
      exfalso
      by_cases h2 : 2 * bytes.length ≥ 10
      · rw [if_pos h2, mk_eq_empty] at h
        have hl := congrArg List.length h
        rw [List.length_take, List.length_drop, hexUpper_length, List.length_nil] at hl
        rw [Nat.min_def] at hl
        split_ifs at hl
        omega
      · rw [if_neg h2, mk_eq_empty] at h
        have hl := congrArg List.length h
        rw [hexUpper_length, List.length_nil] at hl
        omega
  refine ⟨hlen, ?_, ?_, ?_⟩
  · rw [hlen]; exact hiff
  · rw [hiff]; omega
  · rw [hlen, normalize_rawOf, hexUpper_filter]
    intro h8
    rw [he, if_neg (by omega), if_neg (by omega)]

/-- Instance of C15: the four bytes 12 34 56 78, not framed, decode to the whole
cleaned text "12345678". -/
theorem fallback_nothing_iff_witness :
    ((normalize (rawOf [18, 52, 86, 120])).filter isHexChar).length = 2 * [18, 52, 86, 120].length ∧
    (extractTagID (rawOf [18, 52, 86, 120]) = "" ↔
      (((normalize (rawOf [18, 52, 86, 120])).filter isHexChar).length < 8 ∨
        ((normalize (rawOf [18, 52, 86, 120])).filter isHexChar).length > 20)) ∧
    (extractTagID (rawOf [18, 52, 86, 120]) = "" ↔
      ([18, 52, 86, 120].length < 4 ∨ [18, 52, 86, 120].length > 10)) ∧
    ((((normalize (rawOf [18, 52, 86, 120])).filter isHexChar).length = 8 ∨
        ((normalize (rawOf [18, 52, 86, 120])).filter isHexChar).length = 9) →
      extractTagID (rawOf [18, 52, 86, 120]) =
        String.mk ((normalize (rawOf [18, 52, 86, 120])).filter isHexChar)) :=
  fallback_nothing_iff [18, 52, 86, 120] (Or.inl (by decide))

/-- C16: in every reachable state with `nestOccupied = false`, handling an
accepted reading of a known tag X at time `now` gives SINGLE(X) (nest occupied,
not in multi-chicken mode, `currentChicken = X`) with `chickenEnterTime` and
`lastPresenceCheck` equal to `now` and no confirmation pending, and publishes
exactly one record, the "occupied" status with the name of X. -/
theorem entry_from_empty (t : Nat) (d : Device) (now : Nat) (X : String)
    (hr : ReachableAt t d) (hocc : d.eng.nestOccupied = false)
    (hX : isValidChicken X = true) :
    (handleReading d.eng X now).1.nestOccupied = true ∧
    (handleReading d.eng X now).1.multiChickenMode = false ∧
    (handleReading d.eng X now).1.currentChicken = X ∧
    (handleReading d.eng X now).1.chickenEnterTime = now ∧
    (handleReading d.eng X now).1.lastPresenceCheck = now ∧
    (handleReading d.eng X now).1.waitingForPresenceConfirmation = false ∧
    ∃ cx, findChickenByTag X = some cx ∧
      (handleReading d.eng X now).2 = [Event.nestStatus "occupied" cx.name [] 0 0 cx.name now] := by
  have hi := (reachable_inv hr).1
  obtain ⟨cx, hcx⟩ := isValidChicken_eq_true.mp hX
  have hm := hi.empty_single hocc
  rw [handleReading_enter d.eng X now cx hcx hocc]
  refine ⟨rfl, hm, rfl, rfl, rfl, rfl, cx, hcx, ?_⟩
  simp [publishNestStatus, publishSimpleOccupants, hm, hcx]

/-- Instance of C16: Ronny enters at 50000 ms the nest Lady Kluck has left. -/
theorem entry_from_empty_witness :
    (handleReading leftLadyKluck.eng "2003EF40D" 50000).1.nestOccupied = true ∧
    (handleReading leftLadyKluck.eng "2003EF40D" 50000).1.multiChickenMode = false ∧
    (handleReading leftLadyKluck.eng "2003EF40D" 50000).1.currentChicken = "2003EF40D" ∧
    (handleReading leftLadyKluck.eng "2003EF40D" 50000).1.chickenEnterTime = 50000 ∧
    (handleReading leftLadyKluck.eng "2003EF40D" 50000).1.lastPresenceCheck = 50000 ∧
    (handleReading leftLadyKluck.eng "2003EF40D" 50000).1.waitingForPresenceConfirmation = false ∧
    ∃ cx, findChickenByTag "2003EF40D" = some cx ∧
      (handleReading leftLadyKluck.eng "2003EF40D" 50000).2 =
        [Event.nestStatus "occupied" cx.name [] 0 0 cx.name 50000] :=
  entry_from_empty 48002 leftLadyKluck 50000 "2003EF40D" leftLadyKluck_reachable (by decide)
    (by decide)

/-- C17: a pass of `loop` at time `now` from a reachable state issues the reader
reset exactly when the nest is occupied and `now - lastPresenceCheck` exceeds
30000 ms; in EMPTY no reset is issued.  When it is issued the presence check
sets `waitingForPresenceConfirmation` and puts `now` into `lastResetTime` and
`lastPresenceCheck`, changing nothing else of the occupancy state (mode, current
chicken, entry time and multi-chicken window are as before); from that state the
departure check at a later time declares the departure exactly when more than
8000 ms have passed since `now`. -/
theorem presence_probe (t : Nat) (d : Device) (now : Nat) (bytes : List Nat)
    (hr : ReachableAt t d) (ht : t ≤ now) (hn : now < ULONG_MAX) :
    (Event.readerReset ∈ (loop d ⟨now, bytes⟩).2 ↔
      (d.eng.nestOccupied = true ∧ now - d.eng.lastPresenceCheck > 30000)) ∧
    (d.eng.nestOccupied = false → Event.readerReset ∉ (loop d ⟨now, bytes⟩).2) ∧
    (d.eng.nestOccupied = true → now - d.eng.lastPresenceCheck > 30000 →
      (presenceCheck (heartbeat d now).1 now).1.eng =
        { d.eng with lastResetTime := now, waitingForPresenceConfirmation := true,
                     lastPresenceCheck := now } ∧
      ∀ later, now ≤ later → later < ULONG_MAX →
        ((departureCheck (presenceCheck (heartbeat d now).1 now).1.eng later).1.nestOccupied
            = false ↔ later - now > 8000)) := by
  obtain ⟨hi, hb⟩ := reachable_inv hr
  have h1 : usub now d.eng.lastPresenceCheck = now - d.eng.lastPresenceCheck :=
    usub_of_le (le_trans hb.presence_le ht) (ulong_max_lt hn)
  have hiff := loop_reset_iff d ⟨now, bytes⟩ hi
  simp only [h1] at hiff
  refine ⟨hiff, ?_, ?_⟩
  · intro h0 hmem
    have := (hiff.mp hmem).1
    rw [h0] at this
    exact absurd this (by decide)
  · intro hocc hdue
    have hp : (presenceCheck (heartbeat d now).1 now).1.eng =
        { d.eng with lastResetTime := now, waitingForPresenceConfirmation := true,
                     lastPresenceCheck := now } := by
      have hc : (heartbeat d now).1.eng.nestOccupied = true ∧
          usub now (heartbeat d now).1.eng.lastPresenceCheck > 30000 := by
        rw [heartbeat_eng, h1]
        exact ⟨hocc, hdue⟩
      unfold presenceCheck
      rw [if_pos hc]
      simp [resetReader]
    refine ⟨hp, ?_⟩
    intro later hl hlm
    rw [hp, departureCheck_state]
    have h2 : usub later now = later - now := usub_of_le hl (ulong_max_lt hlm)
    by_cases hf : later - now > 8000
    · rw [if_pos ⟨rfl, by rw [h2]; exact hf⟩]
      simp [resetMultiChickenDetection, hf]
    · rw [if_neg (by rw [h2]; exact fun hc => hf hc.2)]
      simp [hocc, hf]

/-- Instance of C17: the pass at 40001 ms with Lady Kluck in the nest since 10000 ms. -/
theorem presence_probe_witness :
    (Event.readerReset ∈ (loop nestLadyKluck ⟨40001, []⟩).2 ↔
      (nestLadyKluck.eng.nestOccupied = true ∧
        40001 - nestLadyKluck.eng.lastPresenceCheck > 30000)) ∧
    (nestLadyKluck.eng.nestOccupied = false →
      Event.readerReset ∉ (loop nestLadyKluck ⟨40001, []⟩).2) ∧
    (nestLadyKluck.eng.nestOccupied = true →
      40001 - nestLadyKluck.eng.lastPresenceCheck > 30000 →
      (presenceCheck (heartbeat nestLadyKluck 40001).1 40001).1.eng =
        { nestLadyKluck.eng with lastResetTime := 40001,
                                 waitingForPresenceConfirmation := true,
                                 lastPresenceCheck := 40001 } ∧
      ∀ later, 40001 ≤ later → later < ULONG_MAX →
        ((departureCheck (presenceCheck (heartbeat nestLadyKluck 40001).1 40001).1.eng
            later).1.nestOccupied = false ↔ later - 40001 > 8000)) :=
  presence_probe 10000 nestLadyKluck 40001 [] nestLadyKluck_reachable (by decide) (by decide)

/-- C18: in every reachable state, handling an accepted reading of a known tag
at time `now` clears `waitingForPresenceConfirmation` and sets
`lastPresenceCheck` to `now`; and when the state is SINGLE(o) and the reading
is for o, these are the only changes (mode, current chicken, entry time and
multi-chicken window are as before) and no record is published. -/
theorem reading_confirms_presence (t : Nat) (d : Device) (now : Nat) (tag : String)
    (hr : ReachableAt t d) (hX : isValidChicken tag = true) :
    (handleReading d.eng tag now).1.waitingForPresenceConfirmation = false ∧
    (handleReading d.eng tag now).1.lastPresenceCheck = now ∧
    (d.eng.nestOccupied = true → d.eng.multiChickenMode = false →
      d.eng.currentChicken = tag →
      handleReading d.eng tag now =
        ({ d.eng with lastPresenceCheck := now, waitingForPresenceConfirmation := false }, [])) := by
  have hi := (reachable_inv hr).1
  obtain ⟨c, hc⟩ := isValidChicken_eq_true.mp hX
  refine ⟨?_, ?_, ?_⟩
  · by_cases hocc : d.eng.nestOccupied = true
    · by_cases hcur : d.eng.currentChicken = tag
      · subst hcur
        by_cases hm : d.eng.multiChickenMode = true
        · by_cases hd : (d.eng.singleChickenReadings + 1) % 4294967296 ≥ 10 ∧
              usub now d.eng.lastMultiChickenDetection > 60000
          · rw [handleReading_demote d.eng now c hocc hc hm hd]; rfl
          · rw [handleReading_same_multi d.eng now hocc hX hm hd]
        · simp only [Bool.not_eq_true] at hm
          rw [handleReading_same_single d.eng now hocc hX hm]
      · obtain ⟨hd, _⟩ :=
          detect_of_inv d.eng tag (usub now d.eng.chickenEnterTime / 1000) hi hocc hX hcur
        rw [handleReading_switch d.eng tag now hocc hX hcur hd]
    · simp only [Bool.not_eq_true] at hocc
      rw [handleReading_enter d.eng tag now c hc hocc]
  · by_cases hocc : d.eng.nestOccupied = true
    · by_cases hcur : d.eng.currentChicken = tag
      · subst hcur
        by_cases hm : d.eng.multiChickenMode = true
        · by_cases hd : (d.eng.singleChickenReadings + 1) % 4294967296 ≥ 10 ∧
              usub now d.eng.lastMultiChickenDetection > 60000
          · rw [handleReading_demote d.eng now c hocc hc hm hd]; rfl
          · rw [handleReading_same_multi d.eng now hocc hX hm hd]
        · simp only [Bool.not_eq_true] at hm
          rw [handleReading_same_single d.eng now hocc hX hm]
      · obtain ⟨hd, _⟩ :=
          detect_of_inv d.eng tag (usub now d.eng.chickenEnterTime / 1000) hi hocc hX hcur
        rw [handleReading_switch d.eng tag now hocc hX hcur hd]
    · simp only [Bool.not_eq_true] at hocc
      rw [handleReading_enter d.eng tag now c hc hocc]
  · intro hocc hm hcur
    subst hcur
    exact handleReading_same_single d.eng now hocc hX hm

/-- Instance of C18: Lady Kluck, probed at 40001 ms, is read again at 41000 ms. -/
theorem reading_confirms_presence_witness :
    (handleReading probedLadyKluck.eng "2003E98C8" 41000).1.waitingForPresenceConfirmation
      = false ∧
    (handleReading probedLadyKluck.eng "2003E98C8" 41000).1.lastPresenceCheck = 41000 ∧
    (probedLadyKluck.eng.nestOccupied = true → probedLadyKluck.eng.multiChickenMode = false →
      probedLadyKluck.eng.currentChicken = "2003E98C8" →
      handleReading probedLadyKluck.eng "2003E98C8" 41000 =
        ({ probedLadyKluck.eng with lastPresenceCheck := 41000,
                                    waitingForPresenceConfirmation := false }, [])) :=
  reading_confirms_presence 40001 probedLadyKluck 41000 "2003E98C8" probedLadyKluck_reachable
    (by decide)

/-- C19: for every occupancy state, reachable or not, and every decoded tag
that is not in the chicken database, the handling of the reading returns the
state unchanged and publishes nothing; likewise when the decoder returns the
empty string.  In a pass of `loop` whose reading is such a tag the occupancy
state after the pass is the state the timers left. -/
theorem unknown_tag_ignored (s : State) (tag : String) (now : Nat)
    (h : isValidChicken tag = false) :
    handleReading s tag now = (s, []) ∧ handleReading s "" now = (s, []) ∧
    ∀ (d : Device) (i : Input), tagRead d i = tag →
      (loop d i).1.eng = timers d i.now ∧
      (handleReading (timers d i.now) (tagRead d i) i.now).2 = [] := by
  refine ⟨handleReading_ignore s tag now h, handleReading_nothing s now, ?_⟩
  intro d i ht
  rw [loop_state, ht, handleReading_ignore _ tag i.now h]
  exact ⟨rfl, rfl⟩

/-- Instance of C19: the five bytes 12 34 56 78 9A decode to the unknown tag
"789A" while Lady Kluck is in the nest. -/
theorem unknown_tag_ignored_witness :
    handleReading nestLadyKluck.eng "789A" 11000 = (nestLadyKluck.eng, []) ∧
    handleReading nestLadyKluck.eng "" 11000 = (nestLadyKluck.eng, []) ∧
    ∀ (d : Device) (i : Input), tagRead d i = "789A" →
      (loop d i).1.eng = timers d i.now ∧
      (handleReading (timers d i.now) (tagRead d i) i.now).2 = [] :=
  unknown_tag_ignored nestLadyKluck.eng "789A" 11000 (by decide)

/-- C20, as stated, fails: there is no reachable state in which
`detectMultipleChickens`, called for a known tag other than the current chicken
of an occupied nest, returns on the quick-change path (session under 10 s, third
quick change or more) while fewer than two tags are listed, before or after the
call. -/
theorem quick_path_alone_counterexample :
    ¬ ∃ (t : Nat) (d : Device) (tag : String) (now : Nat),
      ReachableAt t d ∧ d.eng.nestOccupied = true ∧ isValidChicken tag = true ∧
      d.eng.currentChicken ≠ tag ∧ usub now d.eng.chickenEnterTime / 1000 < 10 ∧
      3 ≤ d.eng.quickChanges + 1 ∧
      (detectMultipleChickens d.eng tag (usub now d.eng.chickenEnterTime / 1000)).1 = true ∧
      (d.eng.chickenCount < 2 ∨
        (detectMultipleChickens d.eng tag
          (usub now d.eng.chickenEnterTime / 1000)).2.chickenCount < 2) := by
  rintro ⟨t, d, tag, now, hr, hocc, hX, hne, _, hq, _, hlt⟩
  have hi := (reachable_inv hr).1
  have hm : d.eng.multiChickenMode = true := by
    by_contra h0
    simp only [Bool.not_eq_true] at h0
    have := (hi.single_window h0).1
    omega
  have h2 := hi.multi_count hm
  have h3 := detect_count_le d.eng tag (usub now d.eng.chickenEnterTime / 1000) hi.list
  omega

/-- C20 (amended): the quick-change path does fire in runs from the initial
state, but never before the distinct-tag path: in every reachable state in which
`detectMultipleChickens`, called for a known tag, returns true on the
quick-change path (session under 10 s, third quick change or more), the engine
is already in multi-chicken mode and at least two tags are listed, before and
after the call. -/
theorem quick_path_after_two (t : Nat) (d : Device) (tag : String) (now : Nat)
    (hr : ReachableAt t d) (hX : isValidChicken tag = true)
    (hdur : usub now d.eng.chickenEnterTime / 1000 < 10) (hq : 3 ≤ d.eng.quickChanges + 1) :
    detectMultipleChickens d.eng tag (usub now d.eng.chickenEnterTime / 1000) =
      (true, { listCurrent d.eng with quickChanges := d.eng.quickChanges + 1 }) ∧
    d.eng.multiChickenMode = true ∧ 2 ≤ d.eng.chickenCount ∧
    2 ≤ (detectMultipleChickens d.eng tag
      (usub now d.eng.chickenEnterTime / 1000)).2.chickenCount := by
  have hi := (reachable_inv hr).1
  have hm : d.eng.multiChickenMode = true := by
    by_contra h0
    simp only [Bool.not_eq_true] at h0
    have := (hi.single_window h0).1
    omega
  have h2 := hi.multi_count hm
  have h3 := detect_count_le d.eng tag (usub now d.eng.chickenEnterTime / 1000) hi.list
  refine ⟨?_, hm, h2, le_trans h2 h3⟩
  rcases detect_cases d.eng tag (usub now d.eng.chickenEnterTime / 1000) hX with
    ⟨_, _, e⟩ | ⟨_, h, _⟩ | ⟨h, _⟩
  · exact e
  · omega
  · omega

/-- Instance of the amended C20: Ada is read at 13000 ms after Lady Kluck, Ronny
and Lady Kluck again, one second apart. -/
theorem quick_path_after_two_witness :
    detectMultipleChickens nestQuick.eng "2003F2676"
        (usub 13000 nestQuick.eng.chickenEnterTime / 1000) =
      (true, { listCurrent nestQuick.eng with quickChanges := nestQuick.eng.quickChanges + 1 }) ∧
    nestQuick.eng.multiChickenMode = true ∧ 2 ≤ nestQuick.eng.chickenCount ∧
    2 ≤ (detectMultipleChickens nestQuick.eng "2003F2676"
      (usub 13000 nestQuick.eng.chickenEnterTime / 1000)).2.chickenCount :=
  quick_path_after_two 12000 nestQuick "2003F2676" 13000 nestQuick_reachable (by decide)
    (by decide) (by decide)

/-- C21: in every reachable state the list of detected chickens is a set of
known chickens no larger than the database: `chickenCount` is at most 15, the
number of records of `chickenDatabase`; the entries
`detectedChickens[0..chickenCount)` are pairwise distinct, as a list without
duplicates and slot by slot; and each of them is the `tagID` of a record of
`chickenDatabase`. -/
theorem detected_list_is_set_of_known (t : Nat) (d : Device) (hr : ReachableAt t d) :
    d.eng.chickenCount ≤ 15 ∧ totalChickens = 15 ∧ d.eng.detectedChickens.length = 15 ∧
    (d.eng.detectedChickens.take d.eng.chickenCount).Nodup ∧
    (∀ i j, i < j → j < d.eng.chickenCount →
      d.eng.detectedChickens[i]? ≠ d.eng.detectedChickens[j]?) ∧
    (∀ x ∈ d.eng.detectedChickens.take d.eng.chickenCount,
      ∃ c ∈ chickenDatabase, c.tagID = x) := by
  have hl := (reachable_inv hr).1.list
  refine ⟨hl.count_le, rfl, hl.slots, hl.listed_nodup, ?_, ?_⟩
  · intro i j hij hj
    have hlen : (d.eng.detectedChickens.take d.eng.chickenCount).length = d.eng.chickenCount := by
      rw [List.length_take, hl.slots]
      exact Nat.min_eq_left hl.count_le
    have := List.nodup_iff_getElem?_ne_getElem?.mp hl.listed_nodup i j hij (by rw [hlen]; exact hj)
    rw [List.getElem?_take_of_lt (by omega), List.getElem?_take_of_lt hj] at this
    exact this
  · intro x hx
    obtain ⟨c, hc⟩ := isValidChicken_eq_true.mp (hl.listed_valid x hx)
    exact ⟨c, findChickenByTag_mem hc, findChickenByTag_tag hc⟩

/-- Instance of C21: Lady Kluck and Ronny are listed. -/
theorem detected_list_is_set_of_known_witness :
    nestTwo.eng.chickenCount ≤ 15 ∧ totalChickens = 15 ∧ nestTwo.eng.detectedChickens.length = 15 ∧
    (nestTwo.eng.detectedChickens.take nestTwo.eng.chickenCount).Nodup ∧
    (∀ i j, i < j → j < nestTwo.eng.chickenCount →
      nestTwo.eng.detectedChickens[i]? ≠ nestTwo.eng.detectedChickens[j]?) ∧
    (∀ x ∈ nestTwo.eng.detectedChickens.take nestTwo.eng.chickenCount,
      ∃ c ∈ chickenDatabase, c.tagID = x) :=
  detected_list_is_set_of_known 11000 nestTwo nestTwo_reachable

/-- C22: with the confirmation threshold of 1 the validator filters nothing.
In every reachable device the counter `consecutiveValidReads` is non-negative
(and at most the clock value, one increment per pass at most); for every clock
value `now` and every batch of bytes from which `extractTagID` decodes a
non-empty tag, `readRFIDWithValidation` returns exactly that tag and leaves the
counter at 1 or more.  The same holds from the state left by `resetReader`
(counter 0, remembered tag empty), where the counter becomes 1, and for the
reading of a whole pass of `loop`. -/
theorem validator_filters_nothing (t : Nat) (d : Device) (now : Nat) (bytes : List Nat)
    (hr : ReachableAt t d) (hb : bytes ≠ []) (htag : decodedTag bytes ≠ "") :
    0 ≤ d.consecutiveValidReads ∧ d.consecutiveValidReads ≤ t ∧
    (readRFIDWithValidation d now bytes).1 = decodedTag bytes ∧
    1 ≤ (readRFIDWithValidation d now bytes).2.consecutiveValidReads ∧
    (resetReader d).consecutiveValidReads = 0 ∧ (resetReader d).lastValidTag = "" ∧
    (readRFIDWithValidation (resetReader d) now bytes).1 = decodedTag bytes ∧
    (readRFIDWithValidation (resetReader d) now bytes).2.consecutiveValidReads = 1 ∧
    tagRead d ⟨now, bytes⟩ = decodedTag bytes := by
  obtain ⟨h0, ht⟩ := reachable_counter hr
  have h1 := readRFID_accepts d now bytes h0 hb htag
  have h2 := readRFID_accepts (resetReader d) now bytes (le_refl _) hb htag
  refine ⟨h0, ht, h1.1, h1.2, rfl, rfl, h2.1, ?_, ?_⟩
  · have hl : ¬ (decodedTag bytes).length = 0 := fun h => htag (string_length_zero.mp h)
    have hne : ¬ (decodedTag bytes = "" ∧ usub now d.lastValidReadTime < 2000) :=
      fun h => htag h.1
    unfold decodedTag at hl hne
    unfold readRFIDWithValidation resetReader
    rw [if_neg hb]
    dsimp only
    rw [if_neg hl, if_neg hne]
    dsimp only
    rw [if_pos (by omega)]
  · have hp : 0 ≤ (presenceCheck (heartbeat d now).1 now).1.consecutiveValidReads := by
      rcases presenceCheck_counter (heartbeat d now).1 now with h | h
      · rw [h, heartbeat_counter]; exact h0
      · rw [h]
    unfold tagRead
    dsimp only
    rw [if_neg hb]
    exact (readRFID_accepts
      { (presenceCheck (heartbeat d now).1 now).1 with eng := timers d now } now bytes hp hb
      htag).1

/-- Instance of C22: a second frame of Lady Kluck, 500 ms after her entry. -/
theorem validator_filters_nothing_witness :
    0 ≤ nestLadyKluck.consecutiveValidReads ∧ nestLadyKluck.consecutiveValidReads ≤ 10000 ∧
    (readRFIDWithValidation nestLadyKluck 10500 (frameOf "2003E98C8")).1 =
      decodedTag (frameOf "2003E98C8") ∧
    1 ≤ (readRFIDWithValidation nestLadyKluck 10500
      (frameOf "2003E98C8")).2.consecutiveValidReads ∧
    (resetReader nestLadyKluck).consecutiveValidReads = 0 ∧
    (resetReader nestLadyKluck).lastValidTag = "" ∧
    (readRFIDWithValidation (resetReader nestLadyKluck) 10500 (frameOf "2003E98C8")).1 =
      decodedTag (frameOf "2003E98C8") ∧
    (readRFIDWithValidation (resetReader nestLadyKluck) 10500
      (frameOf "2003E98C8")).2.consecutiveValidReads = 1 ∧
    tagRead nestLadyKluck ⟨10500, frameOf "2003E98C8"⟩ = decodedTag (frameOf "2003E98C8") :=
  validator_filters_nothing 10000 nestLadyKluck 10500 (frameOf "2003E98C8")
    nestLadyKluck_reachable (by decide) (by decide)

/-- C23: for every reachable state in mode MULTI and every accepted reading at
time `now` whose tag equals `currentChicken`, the counter
`singleChickenReadings` is incremented from its old value `c` to `c + 1` and
tested.  The engine demotes to SINGLE(`currentChicken`) exactly when
`c + 1 >= 10` and `now - lastMultiChickenDetection > 60000`: the window is then
cleared from the state holding the incremented counter (counter, list, count,
quick changes and evidence time back to their initial values), the occupant and
its entry time are kept, and exactly one record is published, the "occupied"
status with the occupant's name.  Otherwise the counter keeps the value `c + 1`,
only `lastPresenceCheck` and `waitingForPresenceConfirmation` change besides, so
the mode stays MULTI with the list and `lastMultiChickenDetection` unchanged,
and no record is published. -/
theorem repeat_reading_in_multi (t : Nat) (d : Device) (now : Nat)
    (hr : ReachableAt t d) (ht : t ≤ now) (hn : now < ULONG_MAX)
    (hm : d.eng.multiChickenMode = true) :
    ((handleReading d.eng d.eng.currentChicken now).1.multiChickenMode = false ↔
      (d.eng.singleChickenReadings + 1 ≥ 10 ∧
        now - d.eng.lastMultiChickenDetection > 60000)) ∧
    ((d.eng.singleChickenReadings + 1 ≥ 10 ∧
        now - d.eng.lastMultiChickenDetection > 60000) →
      (handleReading d.eng d.eng.currentChicken now).1 =
        resetMultiChickenDetection
          { d.eng with lastPresenceCheck := now, waitingForPresenceConfirmation := false,
                       singleChickenReadings := d.eng.singleChickenReadings + 1 } ∧
      (handleReading d.eng d.eng.currentChicken now).1.nestOccupied = true ∧
      (handleReading d.eng d.eng.currentChicken now).1.currentChicken = d.eng.currentChicken ∧
      (handleReading d.eng d.eng.currentChicken now).1.chickenEnterTime =
        d.eng.chickenEnterTime ∧
      (handleReading d.eng d.eng.currentChicken now).1.multiChickenMode = false ∧
      (handleReading d.eng d.eng.currentChicken now).1.singleChickenReadings = 0 ∧
      (handleReading d.eng d.eng.currentChicken now).1.chickenCount = 0 ∧
      (handleReading d.eng d.eng.currentChicken now).1.quickChanges = 0 ∧
      (handleReading d.eng d.eng.currentChicken now).1.lastMultiChickenDetection = 0 ∧
      (handleReading d.eng d.eng.currentChicken now).1.detectedChickens =
        List.replicate 15 "" ∧
      ∃ c, findChickenByTag d.eng.currentChicken = some c ∧
        (handleReading d.eng d.eng.currentChicken now).2 =
          [Event.nestStatus "occupied" c.name [] 0 0 c.name now]) ∧
    (¬ (d.eng.singleChickenReadings + 1 ≥ 10 ∧
        now - d.eng.lastMultiChickenDetection > 60000) →
      handleReading d.eng d.eng.currentChicken now =
        ({ d.eng with lastPresenceCheck := now, waitingForPresenceConfirmation := false,
                      singleChickenReadings := d.eng.singleChickenReadings + 1 }, [])) := by
  obtain ⟨hi, hb⟩ := reachable_inv hr
  have hn' := ulong_max_lt hn
  have hocc : d.eng.nestOccupied = true := by
    by_contra h0
    simp only [Bool.not_eq_true] at h0
    have := hi.empty_single h0
    rw [hm] at this
    exact absurd this (by decide)
  have hX := hi.occupied_valid hocc
  obtain ⟨cx, hcx⟩ := isValidChicken_eq_true.mp hX
  have h1 : usub now d.eng.lastMultiChickenDetection = now - d.eng.lastMultiChickenDetection :=
    usub_of_le (le_trans hb.multi_le ht) hn'
  have h2 : (d.eng.singleChickenReadings + 1) % 4294967296 = d.eng.singleChickenReadings + 1 := by
    have := hb.readings_le
    unfold ULONG_MAX at hn
    exact Nat.mod_eq_of_lt (by omega)
  have hyes : (d.eng.singleChickenReadings + 1 ≥ 10 ∧
        now - d.eng.lastMultiChickenDetection > 60000) →
      handleReading d.eng d.eng.currentChicken now =
        (resetMultiChickenDetection
          { d.eng with lastPresenceCheck := now, waitingForPresenceConfirmation := false },
         [publishNestStatus
            (resetMultiChickenDetection
              { d.eng with lastPresenceCheck := now, waitingForPresenceConfirmation := false })
            now "occupied" cx.name 0]) := by
    intro hc
    exact handleReading_demote d.eng now cx hocc hcx hm (by rw [h1, h2]; exact hc)
  have hno : ¬ (d.eng.singleChickenReadings + 1 ≥ 10 ∧
        now - d.eng.lastMultiChickenDetection > 60000) →
      handleReading d.eng d.eng.currentChicken now =
        ({ d.eng with lastPresenceCheck := now, waitingForPresenceConfirmation := false,
                      singleChickenReadings := d.eng.singleChickenReadings + 1 }, []) := by
    intro hc
    rw [handleReading_same_multi d.eng now hocc hX hm (by rw [h1, h2]; exact hc), h2]
  refine ⟨?_, ?_, hno⟩
  · constructor
    · intro hf
      by_contra hc
      rw [hno hc] at hf
      rw [hm] at hf
      exact absurd hf (by decide)
    · intro hc
      rw [hyes hc]
      rfl
  · intro hc
    rw [hyes hc]
    refine ⟨rfl, hocc, rfl, rfl, rfl, rfl, rfl, rfl, rfl, rfl, cx, hcx, ?_⟩
    simp [publishNestStatus, publishSimpleOccupants, resetMultiChickenDetection, hocc, hcx]

set_option maxRecDepth 1000000 in
/-- Instance of C23: Ronny, current in multi-chicken mode since 11000 ms and read
nine times since, is read a tenth time at 81000 ms. -/
theorem repeat_reading_in_multi_witness :
    ((handleReading nestNine.eng nestNine.eng.currentChicken 81000).1.multiChickenMode = false ↔
      (nestNine.eng.singleChickenReadings + 1 ≥ 10 ∧
        81000 - nestNine.eng.lastMultiChickenDetection > 60000)) ∧
    ((nestNine.eng.singleChickenReadings + 1 ≥ 10 ∧
        81000 - nestNine.eng.lastMultiChickenDetection > 60000) →
      (handleReading nestNine.eng nestNine.eng.currentChicken 81000).1 =
        resetMultiChickenDetection
          { nestNine.eng with lastPresenceCheck := 81000,
                              waitingForPresenceConfirmation := false,
                              singleChickenReadings := nestNine.eng.singleChickenReadings + 1 } ∧
      (handleReading nestNine.eng nestNine.eng.currentChicken 81000).1.nestOccupied = true ∧
      (handleReading nestNine.eng nestNine.eng.currentChicken 81000).1.currentChicken =
        nestNine.eng.currentChicken ∧
      (handleReading nestNine.eng nestNine.eng.currentChicken 81000).1.chickenEnterTime =
        nestNine.eng.chickenEnterTime ∧
      (handleReading nestNine.eng nestNine.eng.currentChicken 81000).1.multiChickenMode = false ∧
      (handleReading nestNine.eng nestNine.eng.currentChicken 81000).1.singleChickenReadings = 0 ∧
      (handleReading nestNine.eng nestNine.eng.currentChicken 81000).1.chickenCount = 0 ∧
      (handleReading nestNine.eng nestNine.eng.currentChicken 81000).1.quickChanges = 0 ∧
      (handleReading nestNine.eng nestNine.eng.currentChicken 81000).1.lastMultiChickenDetection
        = 0 ∧
      (handleReading nestNine.eng nestNine.eng.currentChicken 81000).1.detectedChickens =
        List.replicate 15 "" ∧
      ∃ c, findChickenByTag nestNine.eng.currentChicken = some c ∧
        (handleReading nestNine.eng nestNine.eng.currentChicken 81000).2 =
          [Event.nestStatus "occupied" c.name [] 0 0 c.name 81000]) ∧
    (¬ (nestNine.eng.singleChickenReadings + 1 ≥ 10 ∧
        81000 - nestNine.eng.lastMultiChickenDetection > 60000) →
      handleReading nestNine.eng nestNine.eng.currentChicken 81000 =
        ({ nestNine.eng with lastPresenceCheck := 81000,
                             waitingForPresenceConfirmation := false,
                             singleChickenReadings := nestNine.eng.singleChickenReadings + 1 },
         [])) :=
  repeat_reading_in_multi 74000 nestNine 81000 nestNine_reachable (by decide) (by decide)
    (by decide)

/-- C24, as stated, fails: the payload text "00000000" has eight hex digit
characters, all of them '0', and the frame `02, "00000000", 03` decodes to
"3030303030", ten characters cut out of the hex rendering by the fallback; the
payload text "0" decodes to nothing. -/
theorem zero_payload_counterexample :
    (payloadText ("00000000".data.map Char.toNat)).filter isHexChar = "00000000".data ∧
    (∀ c ∈ (payloadText ("00000000".data.map Char.toNat)).filter isHexChar, c = '0') ∧
    extractTagID (rawOf (frameOf "00000000")) = "3030303030" ∧
    extractTagID (rawOf (frameOf "00000000")) ≠ "00000000" ∧
    (payloadText ("0".data.map Char.toNat)).filter isHexChar = ['0'] ∧
    extractTagID (rawOf (frameOf "0")) = "" := by
  decide

/-- C24 (amended): for every framed byte sequence `02, payload, 03` whose
payload text contains at least one hex digit character and all of whose hex
digit characters are '0', the framed branch is entered and yields no tag
(stripping the leading zeros leaves the empty string, which the padding loop,
guarded by `length() > 0`, does not pad) and `extractTagID` returns what the
fallback extraction returns on the whole hex rendering: the empty string
exactly when the sequence has fewer than 4 or more than 10 bytes, and in no
case "00000000". -/
theorem zero_payload_not_padded (mid : List Nat) (hb : ∀ b ∈ mid, b < 256)
    (hne : (payloadText mid).filter isHexChar ≠ [])
    (hz : ∀ c ∈ (payloadText mid).filter isHexChar, c = '0') :
    isFramed (normalize (rawOf (2 :: (mid ++ [3])))) ∧
    framedTag (normalize (rawOf (2 :: (mid ++ [3])))) = [] ∧
    extractTagID (rawOf (2 :: (mid ++ [3]))) =
      fallbackTag (normalize (rawOf (2 :: (mid ++ [3])))) ∧
    (extractTagID (rawOf (2 :: (mid ++ [3]))) = "" ↔
      (mid.length + 2 < 4 ∨ mid.length + 2 > 10)) ∧
    extractTagID (rawOf (2 :: (mid ++ [3]))) ≠ "00000000" := by
  obtain ⟨hf, he⟩ := extractTagID_zero_frame mid hb (tagDigits_nil _ hz)
  have hlen : (2 :: (mid ++ [3])).length = mid.length + 2 := by simp
  refine ⟨?_, hf, ?_, ?_, ?_⟩
  · have hmid : 1 ≤ mid.length := by
      by_contra h0
      have : mid = [] := List.length_eq_zero.mp (by omega)
      subst this
      exact hne rfl
    rw [normalize_rawOf, hexUpper_frame]
    exact isFramed_frame _ (by rw [hexUpper_length]; omega)
  · rw [he, normalize_rawOf]
  · rw [he, fallbackTag_hexUpper, hlen]
    by_cases h1 : 2 * (mid.length + 2) < 8 ∨ 2 * (mid.length + 2) > 20
    · rw [if_pos h1]
      exact ⟨fun _ => by omega, fun _ => rfl⟩
    · rw [if_neg h1]
      refine ⟨fun h => ?_, fun h => by omega⟩
      exfalso
      by_cases h2 : 2 * (mid.length + 2) ≥ 10
      · rw [if_pos h2, mk_eq_empty] at h
        have hl := congrArg List.length h
        rw [List.length_take, List.length_drop, hexUpper_length, List.length_nil, hlen] at hl
        rw [Nat.min_def] at hl
        split_ifs at hl
        omega
      · rw [if_neg h2, mk_eq_empty] at h
        have hl := congrArg List.length h
        rw [hexUpper_length, List.length_nil, hlen] at hl
        omega
  · rw [he]
    exact fallbackTag_frame_ne mid

/-- Instance of the amended C24: the payload text "0000", which the fallback
decodes to "303003". -/
theorem zero_payload_not_padded_witness :
    isFramed (normalize (rawOf (2 :: ([48, 48, 48, 48] ++ [3])))) ∧
    framedTag (normalize (rawOf (2 :: ([48, 48, 48, 48] ++ [3])))) = [] ∧
    extractTagID (rawOf (2 :: ([48, 48, 48, 48] ++ [3]))) =
      fallbackTag (normalize (rawOf (2 :: ([48, 48, 48, 48] ++ [3])))) ∧
    (extractTagID (rawOf (2 :: ([48, 48, 48, 48] ++ [3]))) = "" ↔
      ([48, 48, 48, 48].length + 2 < 4 ∨ [48, 48, 48, 48].length + 2 > 10)) ∧
    extractTagID (rawOf (2 :: ([48, 48, 48, 48] ++ [3]))) ≠ "00000000" :=
  zero_payload_not_padded [48, 48, 48, 48] (by decide) (by decide) (by decide)

/-- C25, failing input: Lady Kluck enters at 10000 ms, the presence probe is
issued at 40001 ms and the departure is declared by the pass at 48002 ms.  That
pass publishes the visit record and the "empty" status, and the simple occupants
payload of the same `publishNestStatus` call is "Lady Kluck", not "Empty": the
call is made while `nestOccupied` is still set.  Computed on the state the pass
leaves, the payload is "Empty".  Likewise with Lady Kluck and Ronny in
multi-chicken mode, probed at 41001 ms: the "empty" status of the pass at
49002 ms carries "Lady Kluck,Ronny". -/
theorem departure_publishes_occupant_names :
    (loop probedLadyKluck ⟨48002, []⟩).2 =
      [Event.chickenVisit "Lady Kluck" 1 38 48002,
       Event.nestStatus "empty" "" [] 0 0 "Lady Kluck" 48002] ∧
    (loop probedLadyKluck ⟨48002, []⟩).1.eng.nestOccupied = false ∧
    publishSimpleOccupants (loop probedLadyKluck ⟨48002, []⟩).1.eng = "Empty" ∧
    (loop probedTwo ⟨49002, []⟩).2 =
      [Event.nestStatus "empty" "" [] 0 0 "Lady Kluck,Ronny" 49002] ∧
    (loop probedTwo ⟨49002, []⟩).1.eng.nestOccupied = false ∧
    publishSimpleOccupants (loop probedTwo ⟨49002, []⟩).1.eng = "Empty" := by
  decide

/-- C26: in every reachable state with the nest occupied, for every known tag
different from `currentChicken` and every session duration,
`detectMultipleChickens` returns true, and so it does at the call made in any
pass of `loop` (the call is made only when the nest is occupied and the tag read
is a known tag other than `currentChicken`).  Hence the branch "normal chicken
change" is never executed: no pass and no run publishes a change record
(`publishChickenChange`), and a visit record (`publishChickenVisit`) of a pass
is published by the departure check of that pass, after which the nest is
empty. -/
theorem handoff_never_taken (t : Nat) (d : Device) (hr : ReachableAt t d) :
    (∀ (tag : String) (n : Nat), d.eng.nestOccupied = true → isValidChicken tag = true →
      d.eng.currentChicken ≠ tag → (detectMultipleChickens d.eng tag n).1 = true) ∧
    (∀ i : Input, (timers d i.now).nestOccupied = true →
      isValidChicken (tagRead d i) = true → (timers d i.now).currentChicken ≠ tagRead d i →
      (detectMultipleChickens (timers d i.now) (tagRead d i)
        (usub i.now (timers d i.now).chickenEnterTime / 1000)).1 = true) ∧
    (∀ (i : Input) (e : Event), e ∈ (loop d i).2 → e.isChange = false) ∧
    (∀ (ins : List Input) (e : Event), e ∈ (run d ins).2 → e.isChange = false) ∧
    (∀ (i : Input) (e : Event), e ∈ (loop d i).2 → e.isVisit = true →
      e ∈ (departureCheck (presenceCheck (heartbeat d i.now).1 i.now).1.eng i.now).2 ∧
        (timers d i.now).nestOccupied = false) := by
  have hi := (reachable_inv hr).1
  refine ⟨?_, ?_, ?_, ?_, ?_⟩
  · intro tag n hocc hx hne
    exact (detect_of_inv d.eng tag n hi hocc hx hne).1
  · intro i hocc hx hne
    exact (detect_of_inv _ _ _ (timers_inv d i.now hi) hocc hx hne).1
  · intro i e he
    exact loop_no_change d i hi e he
  · intro ins e he
    exact run_no_change ins d hi e he
  · intro i e he hv
    exact loop_visit d i hi e he hv

/-- Instance of C26: Lady Kluck is in the nest. -/
theorem handoff_never_taken_witness :
    (∀ (tag : String) (n : Nat), nestLadyKluck.eng.nestOccupied = true →
      isValidChicken tag = true → nestLadyKluck.eng.currentChicken ≠ tag →
      (detectMultipleChickens nestLadyKluck.eng tag n).1 = true) ∧
    (∀ i : Input, (timers nestLadyKluck i.now).nestOccupied = true →
      isValidChicken (tagRead nestLadyKluck i) = true →
      (timers nestLadyKluck i.now).currentChicken ≠ tagRead nestLadyKluck i →
      (detectMultipleChickens (timers nestLadyKluck i.now) (tagRead nestLadyKluck i)
        (usub i.now (timers nestLadyKluck i.now).chickenEnterTime / 1000)).1 = true) ∧
    (∀ (i : Input) (e : Event), e ∈ (loop nestLadyKluck i).2 → e.isChange = false) ∧
    (∀ (ins : List Input) (e : Event), e ∈ (run nestLadyKluck ins).2 → e.isChange = false) ∧
    (∀ (i : Input) (e : Event), e ∈ (loop nestLadyKluck i).2 → e.isVisit = true →
      e ∈ (departureCheck (presenceCheck (heartbeat nestLadyKluck i.now).1 i.now).1.eng
        i.now).2 ∧
        (timers nestLadyKluck i.now).nestOccupied = false) :=
  handoff_never_taken 10000 nestLadyKluck nestLadyKluck_reachable

end ChickenReader
